import Mathlib

/-!
# yamdi: a shallow embedding of `yamdi.c`

`yamdi` injects an `onMetaData` script tag into an FLV file.  This file
translates the C functions of `src/yamdi.c` into Lean functions and proves
properties of them.

Conventions of the embedding.

* A byte is a natural number (below 256 in every buffer that comes from a
  file); a buffer `char *flv` is the list of its bytes and `flv[i]` is
  `rd flv i`.
* `size_t` offsets are natural numbers.  Every advance of a stream position is
  guarded by `streampos + datasize > filesize`, so inside a buffer no offset
  comes near `2^64`; a start offset within `2^24 + 15` of `2^64`, for which the
  C tests wrap around and the program reads outside its mapping, lies
  outside the embedding.
* The `int` fields of `FLVMetaData_t` only ever hold non-negative values and
  are natural numbers.
* A `double` is kept as the exact number it stands for (type `Dbl`): the
  conversion from an integer and the additions of byte counts are exact below
  `2^53`; the rounding of a quotient is not represented.
* The global `flvmetadata` is passed explicitly, and a function that writes to
  a `FILE *` returns the bytes it writes together with its return value.
* A C string is the list of its bytes before the terminating NUL.
-/

namespace Yamdi

/-! ## Doubles -/

/-- The value of a C `double`: a fraction `num / den` in lowest terms
(`den > 0`), an infinity, or a NaN. -/
inductive Dbl where
  | fin (num : Int) (den : Nat)
  | inf (negative : Bool)
  | nan
  deriving DecidableEq, Repr

namespace Dbl

/-- The double for the fraction `n / d`; a zero denominator gives the IEEE
result of a division by zero. -/
def frac (n : Int) (d : Nat) : Dbl :=
  if d = 0 then
    (if n = 0 then nan else inf (decide (n < 0)))
  else
    fin (n / (Nat.gcd n.natAbs d : Nat)) (d / Nat.gcd n.natAbs d)

/-- C conversion `(double)n` of an integer. -/
def ofInt (n : Int) : Dbl := fin n 1

/-- C conversion `(double)n` of an unsigned integer. -/
def ofNat (n : Nat) : Dbl := fin (n : Int) 1

/-- C addition of doubles. -/
def add : Dbl → Dbl → Dbl
  | fin a b, fin c d => frac (a * d + c * b) (b * d)
  | fin _ _, inf s => inf s
  | inf s, fin _ _ => inf s
  | inf s, inf t => if s = t then inf s else nan
  | _, _ => nan

/-- C division of doubles (no negative zero arises in this program). -/
def div : Dbl → Dbl → Dbl
  | fin a b, fin c d =>
    if c = 0 then (if a = 0 then nan else inf (decide (a < 0)))
    else frac (a * d * Int.sign c) (b * c.natAbs)
  | fin _ _, inf _ => fin 0 1
  | inf s, fin c _ => inf (s != decide (c < 0))
  | _, _ => nan

/-- C test `x != 0.0`. -/
def isNonzero : Dbl → Bool
  | fin a _ => a != 0
  | _ => true

end Dbl

/-! ## Reading the input buffer -/

/-- The byte `flv[i]`.  A read behind the end of the buffer gives 0: the file is
mapped with `mmap`, and the bytes of its last page behind the end of the file
are zero. -/
def rd (flv : List Nat) (i : Nat) : Nat := flv.getD i 0

/-- Macro `FLV_UI24(x)` for the three bytes at offset `p`. -/
def FLV_UI24 (flv : List Nat) (p : Nat) : Nat :=
  (rd flv p <<< 16) + (rd flv (p + 1) <<< 8) + rd flv (p + 2)

/-- Conversion of a 32-bit pattern to `int`. -/
def toInt32 (n : Nat) : Int :=
  if n % 2 ^ 32 < 2 ^ 31 then (n % 2 ^ 32 : Nat) else (n % 2 ^ 32 : Nat) - 2 ^ 32

/-- Macro `FLV_UI32(x)` for the four bytes at offset `p`. -/
def FLV_UI32 (flv : List Nat) (p : Nat) : Int :=
  toInt32 ((rd flv p <<< 24) + (rd flv (p + 1) <<< 16) + (rd flv (p + 2) <<< 8) + rd flv (p + 3))

/-- Number of bytes of `FLVTag_t`. -/
def sizeofFLVTag : Nat := 11

/-- Number of bytes of `FLVFileHeader_t`. -/
def sizeofFLVFileHeader : Nat := 9

def FLV_AUDIODATA : Nat := 8
def FLV_VIDEODATA : Nat := 9
def FLV_SCRIPTDATAOBJECT : Nat := 18

/-- Field `type` of the `FLVTag_t` at offset `streampos`. -/
def tagType (flv : List Nat) (streampos : Nat) : Nat := rd flv streampos

/-- The value `FLV_UI24(flvtag->datasize)` of the tag at offset `streampos`. -/
def tagDataSize (flv : List Nat) (streampos : Nat) : Nat := FLV_UI24 flv (streampos + 1)

/-- The expression
`(timestamp_ex << 24) + (timestamp[0] << 16) + (timestamp[1] << 8) + timestamp[2]`
of the tag at offset `streampos`, an `int`. -/
def tagTimestamp (flv : List Nat) (streampos : Nat) : Int :=
  toInt32 ((rd flv (streampos + 7) <<< 24) + (rd flv (streampos + 4) <<< 16)
    + (rd flv (streampos + 5) <<< 8) + rd flv (streampos + 6))

/-- The flags byte `flv[streampos + sizeof(FLVTag_t)]` of an audio or video tag. -/
def tagFlags (flv : List Nat) (streampos : Nat) : Nat := rd flv (streampos + sizeofFLVTag)

/-! ## The summary -/

/-- Struct `FLVMetaData_t`. -/
@[ext]
structure FLVMetaData where
  hasKeyframes : Nat
  hasVideo : Nat
  hasAudio : Nat
  hasMetadata : Nat
  hasCuePoints : Nat
  canSeekToEnd : Nat
  audiocodecid : Dbl
  audiosamplerate : Dbl
  audiodatarate : Dbl
  audiosamplesize : Dbl
  audiodelay : Dbl
  stereo : Nat
  videocodecid : Dbl
  framerate : Dbl
  videodatarate : Dbl
  height : Dbl
  width : Dbl
  datasize : Dbl
  audiosize : Dbl
  videosize : Dbl
  filesize : Dbl
  lasttimestamp : Dbl
  lastkeyframetimestamp : Dbl
  lastkeyframelocation : Dbl
  keyframes : Nat
  filepositions : List Dbl
  times : List Dbl
  duration : Dbl
  metadatacreator : List Nat
  creator : List Nat
  onmetadatalength : Nat
  metadatasize : Nat

/-- The bytes of an ASCII string literal. -/
def cstr (s : String) : List Nat := s.toList.map Char.toNat

/-- Function `initFLVMetaData`: everything zero, `hasMetadata = 1`, the two
strings copied with `strncpy` into 256-byte arrays (`creator = none` is the
NULL pointer).  An argument of 256 bytes or more fills the array and leaves it
without a terminating NUL; its first 256 bytes are then taken as the string. -/
def initFLVMetaData (creator : Option (List Nat)) : FLVMetaData :=
  { hasKeyframes := 0, hasVideo := 0, hasAudio := 0, hasMetadata := 1, hasCuePoints := 0,
    canSeekToEnd := 0,
    audiocodecid := Dbl.ofNat 0, audiosamplerate := Dbl.ofNat 0, audiodatarate := Dbl.ofNat 0,
    audiosamplesize := Dbl.ofNat 0, audiodelay := Dbl.ofNat 0, stereo := 0,
    videocodecid := Dbl.ofNat 0, framerate := Dbl.ofNat 0, videodatarate := Dbl.ofNat 0,
    height := Dbl.ofNat 0, width := Dbl.ofNat 0,
    datasize := Dbl.ofNat 0, audiosize := Dbl.ofNat 0, videosize := Dbl.ofNat 0,
    filesize := Dbl.ofNat 0,
    lasttimestamp := Dbl.ofNat 0, lastkeyframetimestamp := Dbl.ofNat 0,
    lastkeyframelocation := Dbl.ofNat 0,
    keyframes := 0, filepositions := [], times := [], duration := Dbl.ofNat 0,
    metadatacreator := (cstr "Yet Another Metadata Injector for FLV - Version 1.1").take 256,
    creator := (match creator with
      | none => []
      | some c => c.take 256),
    onmetadatalength := 0, metadatasize := 0 }

/-! ## Codec header probes -/

/-- Function `readFLVH263VideoPacket`; `h263 k` is the byte `h263[k]`. -/
def readFLVH263VideoPacket (h263 : Nat → Nat) (md : FLVMetaData) : FLVMetaData :=
  let startcode := ((h263 0 <<< 16) + (h263 1 <<< 8) + h263 2) >>> 7
  if startcode != 1 then md
  else
    let picturesize := ((h263 3 &&& 0x3) <<< 1) + ((h263 4 >>> 7) &&& 0x1)
    match picturesize with
    | 0 => { md with
        width := Dbl.ofNat (((h263 4 &&& 0x7f) <<< 1) + ((h263 5 >>> 7) &&& 0x1)),
        height := Dbl.ofNat (((h263 5 &&& 0x7f) <<< 1) + ((h263 6 >>> 7) &&& 0x1)) }
    | 1 => { md with
        width := Dbl.ofNat (((h263 4 &&& 0x7f) <<< 9) + (h263 5 <<< 1) + ((h263 6 >>> 7) &&& 0x1)),
        height := Dbl.ofNat (((h263 6 &&& 0x7f) <<< 9) + (h263 7 <<< 1) + ((h263 8 >>> 7) &&& 0x1)) }
    | 2 => { md with width := Dbl.ofNat 352, height := Dbl.ofNat 288 }
    | 3 => { md with width := Dbl.ofNat 176, height := Dbl.ofNat 144 }
    | 4 => { md with width := Dbl.ofNat 128, height := Dbl.ofNat 96 }
    | 5 => { md with width := Dbl.ofNat 320, height := Dbl.ofNat 240 }
    | 6 => { md with width := Dbl.ofNat 160, height := Dbl.ofNat 120 }
    | _ => md

/-- Function `readFLVScreenVideoPacket`. -/
def readFLVScreenVideoPacket (sv : Nat → Nat) (md : FLVMetaData) : FLVMetaData :=
  { md with
    width := Dbl.ofNat ((sv 0 <<< 4) + sv 1),
    height := Dbl.ofNat ((sv 2 <<< 4) + sv 3) }

/-- Function `readFLVVP62VideoPacket`. -/
def readFLVVP62VideoPacket (vp62 : Nat → Nat) (md : FLVMetaData) : FLVMetaData :=
  { md with
    width := Dbl.ofInt ((vp62 4 : Int) * 16 - ((vp62 0 >>> 4 : Nat) : Int)),
    height := Dbl.ofInt ((vp62 3 : Int) * 16 - ((vp62 0 &&& 0x0f : Nat) : Int)) }

/-- Function `readFLVVP62AlphaVideoPacket`. -/
def readFLVVP62AlphaVideoPacket (vp62a : Nat → Nat) (md : FLVMetaData) : FLVMetaData :=
  { md with
    width := Dbl.ofInt ((vp62a 7 : Int) * 16 - ((vp62a 0 >>> 4 : Nat) : Int)),
    height := Dbl.ofInt ((vp62a 6 : Int) * 16 - ((vp62a 0 &&& 0x0f : Nat) : Int)) }

/-! ## Pass 1 -/

/-- The summary together with the local counters of `readFLVFirstPass`. -/
structure FirstPassState where
  md : FLVMetaData
  videosize : Nat
  audiosize : Nat
  videotags : Nat
  audiotags : Nat

/-- The `if(flvmetadata.hasAudio == 0)` block of `readFLVFirstPass`, for the
flags byte of the audio tag. -/
def firstAudio (flags : Nat) (md : FLVMetaData) : FLVMetaData :=
  let md := { md with audiocodecid := Dbl.ofNat ((flags >>> 4) &&& 0xf) }
  let md := match (flags >>> 2) &&& 0x3 with
    | 0 => { md with audiosamplerate := Dbl.ofNat 5500 }
    | 1 => { md with audiosamplerate := Dbl.ofNat 11000 }
    | 2 => { md with audiosamplerate := Dbl.ofNat 22000 }
    | 3 => { md with audiosamplerate := Dbl.ofNat 44100 }
    | _ => md
  let md := match (flags >>> 1) &&& 0x1 with
    | 0 => { md with audiosamplesize := Dbl.ofNat 8 }
    | 1 => { md with audiosamplesize := Dbl.ofNat 16 }
    | _ => md
  { md with stereo := flags &&& 0x1, hasAudio := 1 }

/-- The `if(flvmetadata.hasVideo == 0)` block of `readFLVFirstPass`; `payload k`
is the byte `flv[streampos + sizeof(FLVTag_t) + sizeof(FLVVideoData_t) + k]`. -/
def firstVideo (flags : Nat) (payload : Nat → Nat) (md : FLVMetaData) : FLVMetaData :=
  let md := { md with videocodecid := Dbl.ofNat (flags &&& 0xf), hasVideo := 1 }
  match flags &&& 0xf with
  | 2 => readFLVH263VideoPacket payload md
  | 3 => readFLVScreenVideoPacket payload md
  | 4 => readFLVVP62VideoPacket payload md
  | 5 => readFLVVP62AlphaVideoPacket payload md
  | 6 => readFLVScreenVideoPacket payload md
  | _ => md

/-- The keyframe test `((flvvideo->flags >> 4) & 1) == 1` of both passes. -/
def keyframeTest (flags : Nat) : Bool := ((flags >>> 4) &&& 1) == 1

/-- The branch `if(flvtag->type == FLV_AUDIODATA)` of the loop of
`readFLVFirstPass`. -/
def firstPassAudio (flv : List Nat) (streampos datasize : Nat) (st : FirstPassState) :
    FirstPassState :=
  let md := { st.md with
    datasize := Dbl.add st.md.datasize (Dbl.ofNat datasize),
    audiosize := Dbl.add st.md.audiosize (Dbl.ofNat (datasize - 4)) }
  let md := if md.hasAudio == 0 then firstAudio (tagFlags flv streampos) md else md
  { st with md := md, audiosize := st.audiosize + tagDataSize flv streampos,
            audiotags := st.audiotags + 1 }

/-- The keyframe block of the video branch of `readFLVFirstPass`. -/
def firstPassKeyframe (flv : List Nat) (streampos : Nat) (md : FLVMetaData) : FLVMetaData :=
  if keyframeTest (tagFlags flv streampos) then
    { md with canSeekToEnd := 1, keyframes := md.keyframes + 1,
              lastkeyframetimestamp :=
                Dbl.div (Dbl.ofInt (tagTimestamp flv streampos)) (Dbl.ofNat 1000) }
  else { md with canSeekToEnd := 0 }

/-- The branch `else if(flvtag->type == FLV_VIDEODATA)` of the loop of
`readFLVFirstPass`. -/
def firstPassVideo (flv : List Nat) (streampos datasize : Nat) (st : FirstPassState) :
    FirstPassState :=
  let md := { st.md with
    datasize := Dbl.add st.md.datasize (Dbl.ofNat datasize),
    videosize := Dbl.add st.md.videosize (Dbl.ofNat (datasize - 4)) }
  let md := if md.hasVideo == 0 then
      firstVideo (tagFlags flv streampos) (fun k => rd flv (streampos + sizeofFLVTag + 1 + k)) md
    else md
  let md := firstPassKeyframe flv streampos md
  { st with md := md, videosize := st.videosize + tagDataSize flv streampos,
            videotags := st.videotags + 1 }

/-- One iteration of the loop of `readFLVFirstPass` after its two bounds
checks, for the tag at `streampos` with footprint `datasize`. -/
def firstPassTag (flv : List Nat) (streampos datasize : Nat) (st : FirstPassState) :
    FirstPassState :=
  let st :=
    if tagType flv streampos == FLV_AUDIODATA then firstPassAudio flv streampos datasize st
    else if tagType flv streampos == FLV_VIDEODATA then firstPassVideo flv streampos datasize st
    else st
  { st with md := { st.md with
      lasttimestamp := Dbl.div (Dbl.ofInt (tagTimestamp flv streampos)) (Dbl.ofNat 1000) } }

/-- The `for(;;)` loop of `readFLVFirstPass`; `fuel` bounds the number of
iterations. -/
def readFLVFirstPassLoop : Nat → List Nat → Nat → Nat → FirstPassState → FirstPassState
  | 0, _, _, _, st => st
  | fuel + 1, flv, streampos, filesize, st =>
    if streampos + sizeofFLVTag > filesize then st
    else
      let datasize := sizeofFLVTag + tagDataSize flv streampos + 4
      if streampos + datasize > filesize then st
      else
        readFLVFirstPassLoop fuel flv (streampos + datasize) filesize
          (firstPassTag flv streampos datasize st)

/-- The statements of `readFLVFirstPass` after its loop (`calloc` succeeds). -/
def firstPassFinish (st : FirstPassState) : FLVMetaData :=
  let md := { st.md with duration := st.md.lasttimestamp }
  let md := if md.keyframes != 0 then { md with hasKeyframes := 1 } else md
  let md := if md.hasKeyframes == 1 then
      { md with filepositions := List.replicate md.keyframes (Dbl.ofNat 0),
                times := List.replicate md.keyframes (Dbl.ofNat 0) }
    else md
  let md := if st.videotags != 0 then
      { md with framerate := Dbl.div (Dbl.ofNat st.videotags) md.duration }
    else md
  let md := if st.videosize != 0 then
      { md with videodatarate :=
          Dbl.div (Dbl.div (Dbl.ofNat (st.videosize * 8)) (Dbl.ofNat 1024)) md.duration }
    else md
  let md := if st.audiosize != 0 then
      { md with audiodatarate :=
          Dbl.div (Dbl.div (Dbl.ofNat (st.audiosize * 8)) (Dbl.ofNat 1024)) md.duration }
    else md
  md

/-- Function `readFLVFirstPass`.  An iteration that does not break advances
`streampos` by at least 15 and keeps it at most `filesize`, so `filesize`
iterations are never exhausted (`readFLVFirstPassLoop_fuel`). -/
def readFLVFirstPass (flv : List Nat) (streampos filesize : Nat) (md : FLVMetaData) :
    FLVMetaData :=
  firstPassFinish (readFLVFirstPassLoop filesize flv streampos filesize
    { md := md, videosize := 0, audiosize := 0, videotags := 0, audiotags := 0 })

/-! ## Pass 2 -/

/-- The summary together with the locals `i` and `datapos` of
`readFLVSecondPass`. -/
structure SecondPassState where
  md : FLVMetaData
  i : Nat
  datapos : Nat

/-- One iteration of the loop of `readFLVSecondPass` after its two bounds
checks. -/
def secondPassTag (flv : List Nat) (streampos datasize : Nat) (st : SecondPassState) :
    SecondPassState :=
  let st :=
    if tagType flv streampos == FLV_VIDEODATA then
      if keyframeTest (tagFlags flv streampos) then
        { st with
          md := { st.md with
            filepositions := st.md.filepositions.set st.i (Dbl.ofNat st.datapos),
            times := st.md.times.set st.i
              (Dbl.div (Dbl.ofInt (tagTimestamp flv streampos)) (Dbl.ofNat 1000)) },
          i := st.i + 1 }
      else st
    else st
  if tagType flv streampos == FLV_VIDEODATA || tagType flv streampos == FLV_AUDIODATA then
    { st with datapos := st.datapos + datasize }
  else st

/-- The `for(;;)` loop of `readFLVSecondPass`. -/
def readFLVSecondPassLoop : Nat → List Nat → Nat → Nat → SecondPassState → SecondPassState
  | 0, _, _, _, st => st
  | fuel + 1, flv, streampos, filesize, st =>
    if streampos + sizeofFLVTag > filesize then st
    else
      let datasize := sizeofFLVTag + tagDataSize flv streampos + 4
      if streampos + datasize > filesize then st
      else
        readFLVSecondPassLoop fuel flv (streampos + datasize) filesize
          (secondPassTag flv streampos datasize st)

/-- Function `readFLVSecondPass`. -/
def readFLVSecondPass (flv : List Nat) (streampos filesize : Nat) (md : FLVMetaData) :
    FLVMetaData :=
  if md.keyframes == 0 then md
  else (readFLVSecondPassLoop filesize flv streampos filesize
    { md := md, i := 0, datapos := 0 }).md

/-! ## The copy loop of `writeFLV` -/

/-- The bytes `flv[streampos .. streampos + n)` handed to `fwrite`. -/
def slice (flv : List Nat) (streampos n : Nat) : List Nat := (flv.drop streampos).take n

/-- The `for(;;)` loop of `writeFLV`: the bytes it writes to `fp`. -/
def writeFLVLoop : Nat → List Nat → Nat → Nat → List Nat
  | 0, _, _, _ => []
  | fuel + 1, flv, streampos, filesize =>
    if streampos + sizeofFLVTag > filesize then []
    else
      let datasize := sizeofFLVTag + tagDataSize flv streampos + 4
      if streampos + datasize > filesize then []
      else
        (if tagType flv streampos == FLV_VIDEODATA || tagType flv streampos == FLV_AUDIODATA then
          slice flv streampos datasize
        else []) ++ writeFLVLoop fuel flv (streampos + datasize) filesize

/-! ## The tag walker of the specification -/

/-- The offsets of the walked tags (specification, section 4.C): starting at
`streampos`, a tag is walked when its 11-byte header and its whole footprint
`11 + D + 4` end at or before `filesize`; the walk stops at the first tag for
which they do not. -/
def specWalkFrom : Nat → List Nat → Nat → Nat → List Nat
  | 0, _, _, _ => []
  | fuel + 1, flv, streampos, filesize =>
    if streampos + 11 ≤ filesize ∧ streampos + (11 + tagDataSize flv streampos + 4) ≤ filesize then
      streampos :: specWalkFrom fuel flv (streampos + (11 + tagDataSize flv streampos + 4)) filesize
    else []

/-- The walked tags of a buffer. -/
def specWalk (flv : List Nat) (streampos filesize : Nat) : List Nat :=
  specWalkFrom filesize flv streampos filesize

/-- The footprint `11 + D + 4` of the tag at offset `off`. -/
def footprintSize (flv : List Nat) (off : Nat) : Nat := 11 + tagDataSize flv off + 4

/-- The footprint bytes of the tag at offset `off`: header, payload and
trailing previous-tag-size field. -/
def footprint (flv : List Nat) (off : Nat) : List Nat := slice flv off (footprintSize flv off)

/-- Whether the tag at `off` is an audio or a video tag. -/
def isAudioVideo (flv : List Nat) (off : Nat) : Bool :=
  tagType flv off == 8 || tagType flv off == 9

/-! ## Writing to a `FILE *` -/

/-- The effect of a writing function: the bytes it appends to `fp` and the
`size_t` it returns. -/
structure Wr where
  out : List Nat
  ret : Nat

/-- Call `fwrite(buf, 1, n, fp)` (the stream accepts every byte): the first
`n` bytes of `buf` are written and `n` is returned. -/
def fwrite (buf : List Nat) (n : Nat) : Wr := { out := buf.take n, ret := n }

/-- The statement `datasize += w` after the writes `v`. -/
def Wr.andThen (v w : Wr) : Wr := { out := v.out ++ w.out, ret := v.ret + w.ret }

/-- Function `writeFLVPreviousTagSize`. -/
def writeFLVPreviousTagSize (datasize : Nat) : Wr :=
  { out := (fwrite [(datasize >>> 24) &&& 0xff, (datasize >>> 16) &&& 0xff,
                    (datasize >>> 8) &&& 0xff, datasize &&& 0xff] 4).out,
    ret := 4 }

/-- Function `writeFLVScriptDataObject`. -/
def writeFLVScriptDataObject : Wr := fwrite [2] 1

/-- Function `writeFLVScriptDataLongString`. -/
def writeFLVScriptDataLongString (s : List Nat) : Wr :=
  let len := s.length
  let len := if len > 0xffffffff then 0xffffffff else len
  (fwrite [(len >>> 24) &&& 0xff, (len >>> 16) &&& 0xff, (len >>> 8) &&& 0xff, len &&& 0xff] 4).andThen
    (fwrite s len)

/-- Function `writeFLVScriptDataString`. -/
def writeFLVScriptDataString (s : List Nat) : Wr :=
  let len := s.length
  if len > 0xffff then writeFLVScriptDataLongString s
  else (fwrite [(len >>> 8) &&& 0xff, len &&& 0xff] 2).andThen (fwrite s len)

/-- Function `writeFLVScriptDataECMAArray`. -/
def writeFLVScriptDataECMAArray (name : List Nat) (len : Nat) : Wr :=
  ((writeFLVScriptDataString name).andThen (fwrite [8] 1)).andThen
    (fwrite [(len >>> 24) &&& 0xff, (len >>> 16) &&& 0xff, (len >>> 8) &&& 0xff, len &&& 0xff] 4)

/-- Function `writeFLVScriptDataValueArray`. -/
def writeFLVScriptDataValueArray (name : List Nat) (len : Nat) : Wr :=
  ((writeFLVScriptDataString name).andThen (fwrite [10] 1)).andThen
    (fwrite [(len >>> 24) &&& 0xff, (len >>> 16) &&& 0xff, (len >>> 8) &&& 0xff, len &&& 0xff] 4)

/-- Function `writeFLVScriptDataVariableArray`. -/
def writeFLVScriptDataVariableArray (name : List Nat) : Wr :=
  (writeFLVScriptDataString name).andThen (fwrite [3] 1)

/-- Function `writeFLVScriptDataVariableArrayEnd`. -/
def writeFLVScriptDataVariableArrayEnd : Wr := fwrite [0, 0, 9] 3

/-- Function `writeFLVBool`. -/
def writeFLVBool (value : Nat) : Wr := fwrite [value &&& 1] 1

/-- Function `writeFLVDouble`; `dc v k` is the byte `d.dc[k]` of the union
holding the double `v`, the object representation of a double on the host. -/
def writeFLVDouble (dc : Dbl → Nat → Nat) (value : Dbl) : Wr :=
  fwrite [dc value 7, dc value 6, dc value 5, dc value 4,
          dc value 3, dc value 2, dc value 1, dc value 0] 8

/-- The optional `writeFLVScriptDataString(fp, name)` that opens the three
value writers (`none` is a NULL name). -/
def writeName (name : Option (List Nat)) : Wr :=
  match name with
  | some n => writeFLVScriptDataString n
  | none => { out := [], ret := 0 }

/-- Function `writeFLVScriptDataValueString`. -/
def writeFLVScriptDataValueString (name : Option (List Nat)) (value : List Nat) : Wr :=
  ((writeName name).andThen (fwrite [2] 1)).andThen (writeFLVScriptDataString value)

/-- Function `writeFLVScriptDataValueBool`. -/
def writeFLVScriptDataValueBool (name : Option (List Nat)) (value : Nat) : Wr :=
  ((writeName name).andThen (fwrite [1] 1)).andThen (writeFLVBool value)

/-- Function `writeFLVScriptDataValueDouble`. -/
def writeFLVScriptDataValueDouble (dc : Dbl → Nat → Nat) (name : Option (List Nat))
    (value : Dbl) : Wr :=
  ((writeName name).andThen (fwrite [0] 1)).andThen (writeFLVDouble dc value)

/-! ## The metadata tag -/

/-- The locals of `writeFLVMetaData` during one pass from the label
`metadatapass`: the bytes written to `fp` in this pass, `datasize` and
`length`. -/
structure Pass where
  out : List Nat
  datasize : Nat
  length : Nat

/-- The statement `datasize += w;`. -/
def Pass.put (p : Pass) (w : Wr) : Pass :=
  { p with out := p.out ++ w.out, datasize := p.datasize + w.ret }

/-- The statements `datasize += w; length++;`. -/
def Pass.named (p : Pass) (w : Wr) : Pass :=
  { out := p.out ++ w.out, datasize := p.datasize + w.ret, length := p.length + 1 }

/-- The loop `for(i = 0; i < n; i++) datasize += writeFLVScriptDataValueDouble(fp, NULL, a[i]);`. -/
def Pass.doubles (dc : Dbl → Nat → Nat) (a : List Dbl) (n : Nat) (p : Pass) : Pass :=
  (List.range n).foldl
    (fun p i => p.put (writeFLVScriptDataValueDouble dc none (a.getD i (Dbl.ofNat 0)))) p

/-- The 11 bytes of the local `flvtag` of `writeFLVMetaData`. -/
def metadataTagHeader (md : FLVMetaData) : List Nat :=
  [FLV_SCRIPTDATAOBJECT, (md.metadatasize >>> 16) &&& 0xff, (md.metadatasize >>> 8) &&& 0xff,
   md.metadatasize &&& 0xff, 0, 0, 0, 0, 0, 0, 0]

/-- The video block of `writeFLVMetaData`. -/
def metadataVideo (dc : Dbl → Nat → Nat) (md : FLVMetaData) (p : Pass) : Pass :=
  let p := p.named (writeFLVScriptDataValueDouble dc (some (cstr "videosize")) md.videosize)
  let p := p.named (writeFLVScriptDataValueDouble dc (some (cstr "videocodecid")) md.videocodecid)
  let p := if md.width.isNonzero then
      p.named (writeFLVScriptDataValueDouble dc (some (cstr "width")) md.width) else p
  let p := if md.height.isNonzero then
      p.named (writeFLVScriptDataValueDouble dc (some (cstr "height")) md.height) else p
  let p := p.named (writeFLVScriptDataValueDouble dc (some (cstr "framerate")) md.framerate)
  p.named (writeFLVScriptDataValueDouble dc (some (cstr "videodatarate")) md.videodatarate)

/-- The audio block of `writeFLVMetaData`. -/
def metadataAudio (dc : Dbl → Nat → Nat) (md : FLVMetaData) (p : Pass) : Pass :=
  let p := p.named (writeFLVScriptDataValueDouble dc (some (cstr "audiosize")) md.audiosize)
  let p := p.named (writeFLVScriptDataValueDouble dc (some (cstr "audiocodecid")) md.audiocodecid)
  let p := p.named
    (writeFLVScriptDataValueDouble dc (some (cstr "audiosamplerate")) md.audiosamplerate)
  let p := p.named
    (writeFLVScriptDataValueDouble dc (some (cstr "audiosamplesize")) md.audiosamplesize)
  let p := p.named (writeFLVScriptDataValueBool (some (cstr "stereo")) md.stereo)
  p.named (writeFLVScriptDataValueDouble dc (some (cstr "audiodatarate")) md.audiodatarate)

/-- The keyframe block of `writeFLVMetaData`. -/
def metadataKeyframes (dc : Dbl → Nat → Nat) (md : FLVMetaData) (p : Pass) : Pass :=
  let p := p.named (writeFLVScriptDataValueDouble dc (some (cstr "lastkeyframetimestamp"))
    md.lastkeyframetimestamp)
  let p := p.named (writeFLVScriptDataValueDouble dc (some (cstr "lastkeyframelocation"))
    md.lastkeyframelocation)
  let p := p.named (writeFLVScriptDataVariableArray (cstr "keyframes"))
  let p := p.put (writeFLVScriptDataValueArray (cstr "filepositions") md.keyframes)
  let p := p.doubles dc md.filepositions md.keyframes
  let p := p.put (writeFLVScriptDataValueArray (cstr "times") md.keyframes)
  let p := p.doubles dc md.times md.keyframes
  p.put writeFLVScriptDataVariableArrayEnd

/-- One pass of `writeFLVMetaData` from the label `metadatapass` down to the
test of `onmetadatalength`: `t` is the tag header, `length` the value of the
local `length` on entry (it is not reset at the label). -/
def metadataPass (dc : Dbl → Nat → Nat) (md : FLVMetaData) (t : List Nat) (length : Nat) :
    Pass :=
  let p : Pass := { out := [], datasize := 0, length := length }
  let p := p.put (fwrite t sizeofFLVTag)
  let p := p.put writeFLVScriptDataObject
  let p := p.put (writeFLVScriptDataECMAArray (cstr "onMetaData") md.onmetadatalength)
  let p := if md.creator.length != 0 then
      p.named (writeFLVScriptDataValueString (some (cstr "creator")) md.creator) else p
  let p := p.named
    (writeFLVScriptDataValueString (some (cstr "metadatacreator")) md.metadatacreator)
  let p := p.named (writeFLVScriptDataValueBool (some (cstr "hasKeyframes")) md.hasKeyframes)
  let p := p.named (writeFLVScriptDataValueBool (some (cstr "hasVideo")) md.hasVideo)
  let p := p.named (writeFLVScriptDataValueBool (some (cstr "hasAudio")) md.hasAudio)
  let p := p.named (writeFLVScriptDataValueBool (some (cstr "hasMetadata")) md.hasMetadata)
  let p := p.named (writeFLVScriptDataValueBool (some (cstr "canSeekToEnd")) md.canSeekToEnd)
  let p := p.named (writeFLVScriptDataValueDouble dc (some (cstr "duration")) md.duration)
  let p := p.named (writeFLVScriptDataValueDouble dc (some (cstr "datasize")) md.datasize)
  let p := if md.hasVideo == 1 then metadataVideo dc md p else p
  let p := if md.hasAudio == 1 then metadataAudio dc md p else p
  let p := p.named (writeFLVScriptDataValueDouble dc (some (cstr "filesize")) md.filesize)
  let p := p.named (writeFLVScriptDataValueDouble dc (some (cstr "lasttimestamp")) md.lasttimestamp)
  if md.hasKeyframes == 1 then metadataKeyframes dc md p else p

/-- The result of `writeFLVMetaData`: the summary afterwards, the bytes
written to `fp`, and the returned `size_t`. -/
structure MetaDataResult where
  md : FLVMetaData
  out : List Nat
  ret : Nat

/-- The end of `writeFLVMetaData` after the last pass `p`: `metadatasize` is
set, the previous-tag-size is written, `datasize` is returned; `before` are the
bytes written by an earlier pass. -/
def metadataFinish (md : FLVMetaData) (before : List Nat) (p : Pass) : MetaDataResult :=
  let w := writeFLVPreviousTagSize p.datasize
  { md := { md with metadatasize := p.datasize - sizeofFLVTag },
    out := before ++ p.out ++ w.out,
    ret := p.datasize + w.ret }

/-- Function `writeFLVMetaData` (`fp` is not NULL).  When `onmetadatalength` is
zero the first pass stores its `length` there and jumps back to
`metadatapass`; `length` is at least 10 after a pass
(`metadataPass_length_pos`), so the test fails after the second pass and no
third pass is ever made. -/
def writeFLVMetaData (dc : Dbl → Nat → Nat) (md : FLVMetaData) : MetaDataResult :=
  let t := metadataTagHeader md
  let p := metadataPass dc md t 0
  if md.onmetadatalength == 0 then
    let md := { md with onmetadatalength := p.length }
    let q := metadataPass dc md t p.length
    metadataFinish md p.out q
  else
    metadataFinish md [] p

/-! ## The output file -/

/-- Function `writeFLVHeader`: the bytes written to `fp`. -/
def writeFLVHeader (md : FLVMetaData) : List Nat :=
  let flags := 0
  let flags := if md.hasAudio == 1 then flags ||| 0x4 else flags
  let flags := if md.hasVideo == 1 then flags ||| 0x1 else flags
  let size := sizeofFLVFileHeader
  (fwrite [70, 76, 86, 1, flags, (size >>> 24) &&& 0xff, (size >>> 16) &&& 0xff,
           (size >>> 8) &&& 0xff, size &&& 0xff] sizeofFLVFileHeader).out
    ++ (writeFLVPreviousTagSize 0).out

/-- Function `writeFLV`: the bytes written to `fp`.  The copy loop cannot
make more than `filesize` iterations (`writeFLVLoop_fuel`). -/
def writeFLV (dc : Dbl → Nat → Nat) (md : FLVMetaData) (flv : List Nat)
    (streampos filesize : Nat) : List Nat :=
  writeFLVHeader md ++ (writeFLVMetaData dc md).out
    ++ writeFLVLoop filesize flv streampos filesize

/-- The `size_t` that an `int` converts to. -/
def toSizeT (n : Int) : Nat := (n % 2 ^ 64).toNat

/-- The loop `for(i = 0; i < keyframes; i++) filepositions[i] += (double)bias;`
of `main`. -/
def shiftFilepositions (bias keyframes : Nat) (filepositions : List Dbl) : List Dbl :=
  (List.range keyframes).foldl
    (fun a i => a.set i (Dbl.add (a.getD i (Dbl.ofNat 0)) (Dbl.ofNat bias))) filepositions

/-- The statement `streampos = FLV_UI32(flvfileheader->headersize) + 4;` of
`main`: the header-size field is bytes 5 to 8 of the file. -/
def mainStreampos (flv : List Nat) : Nat := toSizeT (FLV_UI32 flv 5 + 4)

/-- The block `if(flvmetadata.hasKeyframes == 1) { ... }` of `main`: pass 2,
the correction of the file positions by the size of what precedes the audio
and video tags, and `lastkeyframelocation`. -/
def indexKeyframes (flv : List Nat) (streampos filesize metadatasize : Nat)
    (md : FLVMetaData) : FLVMetaData :=
  if md.hasKeyframes == 1 then
    let md := readFLVSecondPass flv streampos filesize md
    let md := { md with
      filepositions := shiftFilepositions (sizeofFLVFileHeader + 4 + metadatasize)
        md.keyframes md.filepositions }
    { md with lastkeyframelocation := md.filepositions.getD (md.keyframes - 1) (Dbl.ofNat 0) }
  else md

/-- The summary of `main` when it calls `writeFLV`, with the stream position
and the value of `metadatasize` returned by the call on the null device:
the statements of `main` from `initFLVMetaData` to the assignment of
`flvmetadata.filesize`, for the mapped file `flv` (its size is the length of the
list) and the argument of `-c`. -/
def mainSummary (dc : Dbl → Nat → Nat) (flv : List Nat) (creator : Option (List Nat)) :
    FLVMetaData × Nat × Nat :=
  let filesize := flv.length
  let md := initFLVMetaData creator
  let streampos := mainStreampos flv
  let md := readFLVFirstPass flv streampos filesize md
  let r := writeFLVMetaData dc md
  let md := r.md
  let metadatasize := r.ret
  let md := indexKeyframes flv streampos filesize metadatasize md
  let md := { md with
    filesize := Dbl.add (Dbl.ofNat (sizeofFLVFileHeader + 4 + metadatasize)) md.datasize }
  (md, streampos, metadatasize)

/-- The bytes that `main` writes to the output file once the signature check
has passed: the call `writeFLV(fp_outfile, flv, streampos, filesize)`. -/
def mainOutput (dc : Dbl → Nat → Nat) (flv : List Nat) (creator : Option (List Nat)) :
    List Nat :=
  writeFLV dc (mainSummary dc flv creator).1 flv (mainSummary dc flv creator).2.1 flv.length

/-- The bytes that `main` writes to the output file, or `none` when it exits
because the input does not start with the signature FLV. -/
def main (dc : Dbl → Nat → Nat) (flv : List Nat) (creator : Option (List Nat)) :
    Option (List Nat) :=
  if flv.take 3 != [70, 76, 86] then none
  else some (mainOutput dc flv creator)

/-- The script-data tag in the output file: the bytes of the call of
`writeFLVMetaData` inside `writeFLV`. -/
def realTag (dc : Dbl → Nat → Nat) (flv : List Nat) (creator : Option (List Nat)) : List Nat :=
  (writeFLVMetaData dc (mainSummary dc flv creator).1).out

/-! ## The script-data encoding of the specification -/

/-- The `k` big-endian bytes of `n`. -/
def beBytes : Nat → Nat → List Nat
  | 0, _ => []
  | k + 1, n => (n / 256 ^ k % 256) :: beBytes k n

/-- The number that a list of bytes denotes, most significant byte first. -/
def beNat (bs : List Nat) : Nat := bs.foldl (fun a b => a * 256 + b) 0

/-- A value of the onMetaData array as the specification (sections 4.F and
4.G) describes it: a double, a bool, a string, or the variable array whose
named children are strict arrays of doubles. -/
inductive ScriptValue where
  | double (v : Dbl)
  | bool (v : Nat)
  | string (s : List Nat)
  | arrays (children : List (List Nat × List Dbl))

/-- Specification 4.F: a name is a 2-byte big-endian length and the bytes. -/
def specName (n : List Nat) : List Nat := beBytes 2 n.length ++ n

/-- Specification 4.F: the body of a double, its 8 bytes in reverse of host
order. -/
def specDouble (dc : Dbl → Nat → Nat) (v : Dbl) : List Nat :=
  [dc v 7, dc v 6, dc v 5, dc v 4, dc v 3, dc v 2, dc v 1, dc v 0]

/-- Specification 4.F: a strict array (tag 10) is a 4-byte element count
followed by that many anonymous values, here doubles (tag 0). -/
def specStrictArray (dc : Dbl → Nat → Nat) (ds : List Dbl) : List Nat :=
  [10] ++ beBytes 4 ds.length ++ ds.flatMap (fun d => 0 :: specDouble dc d)

/-- Specification 4.F: type tag and body of a value.  A string longer than
65535 bytes is a LongString (tag 12); the variable array (tag 3) is the
sequence of its named children and the terminator 00 00 09. -/
def specValue (dc : Dbl → Nat → Nat) : ScriptValue → List Nat
  | .double v => 0 :: specDouble dc v
  | .bool v => [1, v % 2]
  | .string s =>
    if s.length > 65535 then [12] ++ beBytes 4 s.length ++ s else [2] ++ beBytes 2 s.length ++ s
  | .arrays cs => [3] ++ cs.flatMap (fun c => specName c.1 ++ specStrictArray dc c.2) ++ [0, 0, 9]

/-- Specification 4.F: a named value is the name followed by the value. -/
def specEntry (dc : Dbl → Nat → Nat) (e : List Nat × ScriptValue) : List Nat :=
  specName e.1 ++ specValue dc e.2

/-- The first `n` elements of the C array `a`. -/
def firstN (a : List Dbl) (n : Nat) : List Dbl :=
  (List.range n).map (fun i => a.getD i (Dbl.ofNat 0))

/-- Specification 4.G: the video entries. -/
def specVideoEntries (md : FLVMetaData) : List (List Nat × ScriptValue) :=
  [(cstr "videosize", .double md.videosize), (cstr "videocodecid", .double md.videocodecid)]
    ++ (if md.width.isNonzero then [(cstr "width", .double md.width)] else [])
    ++ (if md.height.isNonzero then [(cstr "height", .double md.height)] else [])
    ++ [(cstr "framerate", .double md.framerate), (cstr "videodatarate", .double md.videodatarate)]

/-- Specification 4.G: the audio entries. -/
def specAudioEntries (md : FLVMetaData) : List (List Nat × ScriptValue) :=
  [(cstr "audiosize", .double md.audiosize), (cstr "audiocodecid", .double md.audiocodecid),
   (cstr "audiosamplerate", .double md.audiosamplerate),
   (cstr "audiosamplesize", .double md.audiosamplesize),
   (cstr "stereo", .bool md.stereo), (cstr "audiodatarate", .double md.audiodatarate)]

/-- Specification 4.G: the keyframe entries. -/
def specKeyframeEntries (md : FLVMetaData) : List (List Nat × ScriptValue) :=
  [(cstr "lastkeyframetimestamp", .double md.lastkeyframetimestamp),
   (cstr "lastkeyframelocation", .double md.lastkeyframelocation),
   (cstr "keyframes", .arrays [(cstr "filepositions", firstN md.filepositions md.keyframes),
                               (cstr "times", firstN md.times md.keyframes)])]

/-- Specification 4.G: the named entries of the onMetaData array, in order. -/
def specMetaEntries (md : FLVMetaData) : List (List Nat × ScriptValue) :=
  (if md.creator.length != 0 then [(cstr "creator", .string md.creator)] else [])
    ++ [(cstr "metadatacreator", .string md.metadatacreator),
        (cstr "hasKeyframes", .bool md.hasKeyframes), (cstr "hasVideo", .bool md.hasVideo),
        (cstr "hasAudio", .bool md.hasAudio), (cstr "hasMetadata", .bool md.hasMetadata),
        (cstr "canSeekToEnd", .bool md.canSeekToEnd), (cstr "duration", .double md.duration),
        (cstr "datasize", .double md.datasize)]
    ++ (if md.hasVideo == 1 then specVideoEntries md else [])
    ++ (if md.hasAudio == 1 then specAudioEntries md else [])
    ++ [(cstr "filesize", .double md.filesize), (cstr "lasttimestamp", .double md.lasttimestamp)]
    ++ (if md.hasKeyframes == 1 then specKeyframeEntries md else [])

/-! ## The keyframe index of the specification -/

/-- Specification 4.E: the records of the keyframe indexer over the tags at
the offsets `walk`, as pairs of the offset of the tag in the input and of
`out_data_pos` when the tag is visited; `out_data_pos` starts at `datapos` and
advances by `11 + D + 4` for every audio or video tag. -/
def specKeyframeIndex (flv : List Nat) : List Nat → Nat → List (Nat × Nat)
  | [], _ => []
  | off :: rest, datapos =>
    (if tagType flv off == 9 && keyframeTest (tagFlags flv off) then [(off, datapos)] else [])
      ++ specKeyframeIndex flv rest
          (if isAudioVideo flv off then datapos + footprintSize flv off else datapos)

/-- The timestamp of the tag at `off` in seconds, as both passes compute it. -/
def tagSeconds (flv : List Nat) (off : Nat) : Dbl :=
  Dbl.div (Dbl.ofInt (tagTimestamp flv off)) (Dbl.ofNat 1000)

/-! ## Auxiliary notions for the proofs -/


/-- The sum of the footprints `11 + D + 4` of the audio and video tags among
the tags at the offsets `walk`. -/
def avBytes (flv : List Nat) (walk : List Nat) : Nat :=
  ((walk.filter (isAudioVideo flv)).map (footprintSize flv)).sum


/-- Whether pass 1 and pass 2 treat the tag at `off` as a keyframe: a video
tag that passes `keyframeTest`. -/
def isRecorded (flv : List Nat) (off : Nat) : Bool :=
  tagType flv off == 9 && keyframeTest (tagFlags flv off)

/-- The fields of the summary that the loop of pass 1 never assigns. -/
def sameFixed (a b : FLVMetaData) : Prop :=
  a.onmetadatalength = b.onmetadatalength ∧ a.metadatasize = b.metadatasize
    ∧ a.creator = b.creator ∧ a.metadatacreator = b.metadatacreator
    ∧ a.hasKeyframes = b.hasKeyframes ∧ a.filepositions = b.filepositions ∧ a.times = b.times

/-- The fields of the summary that the codec probes and the audio block leave
alone. -/
def sameCore (a b : FLVMetaData) : Prop :=
  sameFixed a b ∧ a.datasize = b.datasize ∧ a.keyframes = b.keyframes


/-- A writer returns the number of bytes it wrote. -/
def Wr.exact (w : Wr) : Prop := w.ret = w.out.length

/-- The number of bytes that a C string takes as a script-data string. -/
def stringSize (s : List Nat) : Nat := (writeFLVScriptDataString s).ret

/-- The number of `length++` statements that one pass of `writeFLVMetaData`
executes. -/
def entryCount (md : FLVMetaData) : Nat :=
  10 + (if md.creator.length != 0 then 1 else 0)
    + (if md.hasVideo == 1 then
        4 + (if md.width.isNonzero then 1 else 0) + (if md.height.isNonzero then 1 else 0)
      else 0)
    + (if md.hasAudio == 1 then 6 else 0)
    + (if md.hasKeyframes == 1 then 3 else 0)

/-- The number of payload bytes of one pass of `writeFLVMetaData`. -/
def payloadSize (md : FLVMetaData) : Nat :=
  188 + (if md.creator.length != 0 then 10 + stringSize md.creator else 0)
    + stringSize md.metadatacreator
    + (if md.hasVideo == 1 then 87 + (if md.width.isNonzero then 16 else 0)
        + (if md.height.isNonzero then 17 else 0) else 0)
    + (if md.hasAudio == 1 then 129 else 0)
    + (if md.hasKeyframes == 1 then 110 + 18 * md.keyframes else 0)

/-- The summary of `main` after `readFLVFirstPass`. -/
def firstSummary (flv : List Nat) (creator : Option (List Nat)) : FLVMetaData :=
  readFLVFirstPass flv (mainStreampos flv) flv.length (initFLVMetaData creator)

/-- The tags that `main` walks. -/
def mainWalk (flv : List Nat) : List Nat := specWalk flv (mainStreampos flv) flv.length

/-- The constant that `main` adds to the recorded positions: the file header,
the first previous-tag-size, and the metadata tag. -/
def mainBias (flv : List Nat) (creator : Option (List Nat)) : Nat :=
  9 + 4 + (11 + payloadSize (firstSummary flv creator) + 4)

/-- The bytes that the copy loop writes for the tags at the offsets `walk`. -/
def copied (flv : List Nat) (walk : List Nat) : List Nat :=
  (walk.filter (isAudioVideo flv)).flatMap (footprint flv)

/-! ## Concrete inputs -/

/-- A host whose doubles are all stored as zero bytes; the claims below do not
depend on the representation. -/
def zeroHost : Dbl → Nat → Nat := fun _ _ => 0

/-- An FLV file header with the video flag, followed by the first
previous-tag-size. -/
def videoFileHeader : List Nat := [70, 76, 86, 1, 1, 0, 0, 0, 9, 0, 0, 0, 0]

/-- A video tag with a one-byte payload, the flags byte `flags`, at timestamp
`ms` (below 256) milliseconds. -/
def videoTag (flags ms : Nat) : List Nat :=
  [9, 0, 0, 1, 0, 0, ms, 0, 0, 0, 0, flags, 0, 0, 0, 12]

/-- An audio tag with a two-byte payload at timestamp `ms` milliseconds. -/
def audioTag (flags ms : Nat) : List Nat :=
  [8, 0, 0, 2, 0, 0, ms, 0, 0, 0, 0, flags, 7, 0, 0, 0, 13]

/-- A script-data tag with a one-byte payload. -/
def scriptTag : List Nat := [18, 0, 0, 1, 0, 0, 0, 0, 0, 0, 0, 5, 0, 0, 0, 12]

/-- A file with a keyframe, an audio tag, a script tag, an inter frame and a
second keyframe, and three bytes of a truncated tag. -/
def sampleInput : List Nat :=
  videoFileHeader ++ videoTag 0x12 0 ++ audioTag 0x2a 5 ++ scriptTag ++ videoTag 0x22 33
    ++ videoTag 0x12 66 ++ [9, 0, 0]

/-- A file whose only tag is a video tag of frame type 3 (disposable inter
frame), codec 2. -/
def frameType3Input : List Nat := videoFileHeader ++ videoTag 0x32 0

/-- The concatenation of `n` keyframe tags of 16 bytes. -/
def keyTags : Nat → List Nat
  | 0 => []
  | n + 1 => videoTag 0x12 0 ++ keyTags n

/-- A file of 16 MiB of keyframes: 2^20 video tags, each a keyframe. -/
def manyKeyframesInput : List Nat := videoFileHeader ++ keyTags 1048576

/-! ## The codec headers and the fields of pass 1 in the specification -/

/-- Specification 4.B, codecs 3 and 6: the 12-bit size
`((hi & 0x0f) << 8) | lo` of a screen-video header. -/
def specScreenSize (hi lo : Nat) : Nat := ((hi &&& 0x0f) <<< 8) ||| lo

/-- Specification 4.B, codec 2: the size that the H.263 header `b 0 .. b 8`
declares, or `none` when width and height are left alone: the 17 most
significant bits of the first three bytes must be the start code 1, and
`picture_size` selects a custom 8-bit size, a custom 16-bit size, or one of five
fixed sizes. -/
def specH263Size (b : Nat → Nat) : Option (Nat × Nat) :=
  if beNat [b 0, b 1, b 2] / 2 ^ 7 = 1 then
    match ((b 3 &&& 0x03) <<< 1) ||| (b 4 >>> 7) with
    | 0 => some (((b 4 &&& 0x7f) <<< 1) ||| (b 5 >>> 7), ((b 5 &&& 0x7f) <<< 1) ||| (b 6 >>> 7))
    | 1 => some (((b 4 &&& 0x7f) <<< 9) ||| (b 5 <<< 1) ||| (b 6 >>> 7),
                 ((b 6 &&& 0x7f) <<< 9) ||| (b 7 <<< 1) ||| (b 8 >>> 7))
    | 2 => some (352, 288)
    | 3 => some (176, 144)
    | 4 => some (128, 96)
    | 5 => some (320, 240)
    | 6 => some (160, 120)
    | _ => none
  else none

/-- The audio fields of the summary: codec id, sample rate, sample size,
stereo flag and `hasAudio`. -/
def audioFields (md : FLVMetaData) : Dbl × Dbl × Dbl × Nat × Nat :=
  (md.audiocodecid, md.audiosamplerate, md.audiosamplesize, md.stereo, md.hasAudio)

/-- Specification 4.D: the audio fields that the AudioFlags byte `f` of the
first audio tag declares (bits 7..4 codec id, bits 3..2 sample rate index, bit
1 sample size index, bit 0 stereo), with `has_audio` set. -/
def specAudioFields (f : Nat) : Dbl × Dbl × Dbl × Nat × Nat :=
  (Dbl.ofNat ((f >>> 4) &&& 0xf),
   Dbl.ofNat ([5500, 11000, 22000, 44100].getD ((f >>> 2) &&& 3) 0),
   Dbl.ofNat ([8, 16].getD ((f >>> 1) &&& 1) 0),
   f &&& 1, 1)

/-- Specification 4.A and 4.C: the timestamp of the tag at `off`, the signed
32-bit integer whose bytes are, from most to least significant, the extended
byte and the three timestamp bytes. -/
def specTimestamp (flv : List Nat) (off : Nat) : Int :=
  let u := beNat [rd flv (off + 7), rd flv (off + 4), rd flv (off + 5), rd flv (off + 6)]
  if u < 2 ^ 31 then (u : Int) else (u : Int) - 2 ^ 32

/-- C test `x > 0.0`. -/
def Dbl.isPositive : Dbl → Bool
  | .fin a _ => decide (0 < a)
  | .inf s => !s
  | .nan => false

/-- Specification 4.D: `framerate := video_tags / duration` when
`video_tags > 0` and `duration > 0`; else 0. -/
def specFramerate (videoTags : Nat) (duration : Dbl) : Dbl :=
  if 0 < videoTags ∧ duration.isPositive = true then Dbl.div (Dbl.ofNat videoTags) duration
  else Dbl.ofNat 0


/-! ## The host's representation of doubles -/

/-- The object representation of doubles on a little-endian host whose
doubles have the 64-bit patterns `bits` (IEEE-754 binary64 on the hosts the
program is built for): `d.dc[k]` is byte `k` of the pattern, least significant
byte first. -/
def littleEndianHost (bits : Dbl → Nat) : Dbl → Nat → Nat :=
  fun v k => bits v / 256 ^ k % 256

/-- The integer nearest to `p / q`, the even one of two nearest. -/
def roundNearestEven (p q : Nat) : Nat :=
  if 2 * (p % q) < q then p / q
  else if q < 2 * (p % q) then p / q + 1
  else p / q + p / q % 2

/-- The number of binary digits of `n`, for `fuel` at least that number. -/
def bitLength : Nat → Nat → Nat
  | 0, _ => 0
  | fuel + 1, n => if n = 0 then 0 else bitLength fuel (n / 2) + 1

/-- The IEEE-754 binary64 pattern, without the sign bit, of the positive
number `n / d` rounded to nearest, ties to even: `e` is the exponent of the
number, or -1022 for a subnormal one, `m` the number in units of `2^(e - 52)`,
and a pattern from the exponent field 0x7ff on is that of infinity. -/
def binary64Magnitude (n d : Nat) : Nat :=
  let l : Int := (bitLength n n : Int) - (bitLength d d : Int)
  let e : Int := if d * 2 ^ l.toNat ≤ n * 2 ^ (-l).toNat then l else l - 1
  let e : Int := max e (-1022)
  let m := roundNearestEven (n * 2 ^ (52 - e).toNat) (d * 2 ^ (e - 52).toNat)
  min ((e + 1022).toNat * 2 ^ 52 + m) (0x7ff * 2 ^ 52)

/-- The IEEE-754 binary64 pattern of a double; for a NaN, the quiet NaN with
sign bit 0. -/
def binary64 : Dbl → Nat
  | .fin n d =>
    if n = 0 then 0 else (if n < 0 then 2 ^ 63 else 0) + binary64Magnitude n.natAbs d
  | .inf s => (if s then 2 ^ 63 else 0) + 0x7ff * 2 ^ 52
  | .nan => 0x7ff8 * 2 ^ 48

/-- A little-endian host with IEEE-754 doubles. -/
def ieeeHost : Dbl → Nat → Nat := littleEndianHost binary64


/-! ## The end of the walk -/

/-- The offset at which the tag walker stops: the first offset from `streampos`
on at which a header or a footprint does not fit before `filesize`. -/
def specWalkEnd : Nat → List Nat → Nat → Nat → Nat
  | 0, _, streampos, _ => streampos
  | fuel + 1, flv, streampos, filesize =>
    if streampos + 11 ≤ filesize ∧ streampos + (11 + tagDataSize flv streampos + 4) ≤ filesize then
      specWalkEnd fuel flv (streampos + (11 + tagDataSize flv streampos + 4)) filesize
    else streampos

/-- Whether `q` is an incomplete tag: shorter than a header, or shorter than
the footprint that its header declares. -/
def isIncompleteTag (q : List Nat) : Prop :=
  q.length < 11 ∨ q.length < 11 + FLV_UI24 q 1 + 4

/-! ## The tags that the copy loop writes -/

/-- The whole tags that the copy loop writes for the tags at the offsets
`walk`: the footprints of the audio and video tags among them. -/
def copiedTags (flv : List Nat) (walk : List Nat) : List (List Nat) :=
  (walk.filter (isAudioVideo flv)).map (footprint flv)


/-! ## Further concrete inputs -/

/-- A file whose only tag is a screen-video keyframe (codec 3) whose header
declares blocks of 32 by 32 and an image of 320 by 240: the payload after the
flags byte is 11 40 10 F0. -/
def screenVideoInput : List Nat :=
  videoFileHeader ++ [9, 0, 0, 5, 0, 0, 0, 0, 0, 0, 0, 0x13, 0x11, 0x40, 0x10, 0xf0, 0, 0, 0, 16]

/-- An H.263 picture header with the start code and `picture_size` 1 (custom
16-bit size) for a picture of 640 by 480. -/
def h263Header : List Nat := [0x00, 0x00, 0x84, 0x00, 0x81, 0x40, 0x00, 0xf0, 0x00]

/-- The first bytes of a VP6 payload after the flags byte: the adjustment byte
0x35 and the sizes 15 and 20 in macroblocks at offsets 3 and 4, 30 and 40 at
offsets 6 and 7. -/
def vp6Header : List Nat := [0x35, 0, 0, 15, 20, 0, 30, 40]

/-- A file of two video tags, both at timestamp 0. -/
def zeroDurationInput : List Nat := videoFileHeader ++ videoTag 0x12 0 ++ videoTag 0x22 0

/-- A file whose only tag is a video tag with the extended timestamp byte 0x80:
its timestamp is -2147483648 ms. -/
def negativeTimeInput : List Nat :=
  videoFileHeader ++ [9, 0, 0, 1, 0, 0, 0, 0x80, 0, 0, 0, 0x12, 0, 0, 0, 12]

/-- A file whose only tag is a VP6 video tag (codec 4) with a one-byte
payload, the flags byte; the footprint of the tag ends with the file. -/
def shortVp6Input : List Nat :=
  videoFileHeader ++ [9, 0, 0, 1, 0, 0, 0, 0, 0, 0, 0, 0x14, 0, 0, 0, 12]

/-- A creator string of 255 tab characters, the longest that `strncpy` copies
into the 256-byte array together with its terminating NUL. -/
def rerunCreator : List Nat := List.replicate 255 9

/-- A file of 932040 keyframes: with the creator `rerunCreator` the payload
of the script-data tag of its output has between 2^24 + 122 and 2^24 + 242
bytes. -/
def rerunInput : List Nat := videoFileHeader ++ keyTags 932040

/-! ## A long string -/

/-- A string of 65536 bytes `a`, one byte longer than a short string can be. -/
def longValue : List Nat := List.replicate 65536 97

/-! ## The per-stream sizes of pass 1 in the specification -/

/-- The two per-stream byte counts of the summary. -/
def streamSizes (md : FLVMetaData) : Dbl × Dbl := (md.audiosize, md.videosize)

/-- The number of tags of type `t` among the walked tags. -/
def specTagCount (flv : List Nat) (t : Nat) (walk : List Nat) : Nat :=
  (walk.filter (fun off => tagType flv off == t)).length

/-- The sum of `11 + D` over the tags of type `t` among the walked tags. -/
def specStreamSize (flv : List Nat) (t : Nat) (walk : List Nat) : Nat :=
  ((walk.filter (fun off => tagType flv off == t)).map
    (fun off => 11 + tagDataSize flv off)).sum

/-! ## The loop control with the arithmetic of `size_t` -/

/-- The control of the `for(;;)` loops of `readFLVFirstPass`,
`readFLVSecondPass` and `writeFLV`, which is the same in the three, with the
arithmetic of a `size_t` of `w` bits: the values of `streampos` at the
iterations that do not break. -/
def tagLoopOffsets (w : Nat) : Nat → List Nat → Nat → Nat → List Nat
  | 0, _, _, _ => []
  | fuel + 1, flv, streampos, filesize =>
    if (streampos + sizeofFLVTag) % 2 ^ w > filesize then []
    else
      let datasize := (sizeofFLVTag + tagDataSize flv streampos + 4) % 2 ^ w
      if (streampos + datasize) % 2 ^ w > filesize then []
      else streampos :: tagLoopOffsets w fuel flv ((streampos + datasize) % 2 ^ w) filesize

/-! ## The array writes of pass 2 -/

/-- The write `filepositions[i] = datapos`, `times[i] = ...` of one iteration
of the loop of `readFLVSecondPass`, as the pair of the index `i` and of
`datapos`; no pair when the iteration does not write. -/
def secondPassTagWrites (flv : List Nat) (streampos : Nat) (st : SecondPassState) :
    List (Nat × Nat) :=
  if tagType flv streampos == FLV_VIDEODATA then
    if keyframeTest (tagFlags flv streampos) then [(st.i, st.datapos)] else []
  else []

/-- The array writes of the loop of `readFLVSecondPass`, in the order in which
they are made. -/
def readFLVSecondPassLoopWrites :
    Nat → List Nat → Nat → Nat → SecondPassState → List (Nat × Nat)
  | 0, _, _, _, _ => []
  | fuel + 1, flv, streampos, filesize, st =>
    if streampos + sizeofFLVTag > filesize then []
    else
      let datasize := sizeofFLVTag + tagDataSize flv streampos + 4
      if streampos + datasize > filesize then []
      else
        secondPassTagWrites flv streampos st ++
          readFLVSecondPassLoopWrites fuel flv (streampos + datasize) filesize
            (secondPassTag flv streampos datasize st)

/-- The array writes of `readFLVSecondPass`, which returns at once when
`keyframes` is 0. -/
def readFLVSecondPassWrites (flv : List Nat) (streampos filesize : Nat) (md : FLVMetaData) :
    List (Nat × Nat) :=
  if md.keyframes == 0 then []
  else readFLVSecondPassLoopWrites filesize flv streampos filesize
    { md := md, i := 0, datapos := 0 }

/-! ## The bytes that pass 1 reads -/

/-- The indices `k` of the bytes `h263[k]` that `readFLVH263VideoPacket`
reads, in the order of the expressions. -/
def readFLVH263VideoPacketReads (h263 : Nat → Nat) : List Nat :=
  let startcode := ((h263 0 <<< 16) + (h263 1 <<< 8) + h263 2) >>> 7
  [0, 1, 2] ++
    (if startcode != 1 then []
     else
      let picturesize := ((h263 3 &&& 0x3) <<< 1) + ((h263 4 >>> 7) &&& 0x1)
      [3, 4] ++
        (match picturesize with
         | 0 => [4, 5, 5, 6]
         | 1 => [4, 5, 6, 6, 7, 8]
         | _ => []))

/-- The indices of the bytes that `readFLVScreenVideoPacket` reads. -/
def readFLVScreenVideoPacketReads : List Nat := [0, 1, 2, 3]

/-- The indices of the bytes that `readFLVVP62VideoPacket` reads. -/
def readFLVVP62VideoPacketReads : List Nat := [4, 0, 3, 0]

/-- The indices of the bytes that `readFLVVP62AlphaVideoPacket` reads. -/
def readFLVVP62AlphaVideoPacketReads : List Nat := [7, 0, 6, 0]

/-- The indices of the bytes after the flags byte that the function called by
the `switch` of the `if(flvmetadata.hasVideo == 0)` block reads. -/
def firstVideoReads (flags : Nat) (payload : Nat → Nat) : List Nat :=
  match flags &&& 0xf with
  | 2 => readFLVH263VideoPacketReads payload
  | 3 => readFLVScreenVideoPacketReads
  | 4 => readFLVVP62VideoPacketReads
  | 5 => readFLVVP62AlphaVideoPacketReads
  | 6 => readFLVScreenVideoPacketReads
  | _ => []

/-- The offsets in `flv` of the bytes that one iteration of the loop of
`readFLVFirstPass` reads after its two bounds checks: the type byte, in the
audio and the video branch the three bytes of `datasize` and the flags byte,
for the first video tag the bytes of the codec header, for a keyframe the
timestamp, and for every tag the timestamp. -/
def firstPassTagReads (flv : List Nat) (streampos : Nat) (st : FirstPassState) : List Nat :=
  [streampos] ++
    (if tagType flv streampos == FLV_AUDIODATA then
      [streampos + 1, streampos + 2, streampos + 3] ++
        (if st.md.hasAudio == 0 then [streampos + sizeofFLVTag] else [])
    else if tagType flv streampos == FLV_VIDEODATA then
      [streampos + 1, streampos + 2, streampos + 3] ++
        (if st.md.hasVideo == 0 then
          [streampos + sizeofFLVTag] ++
            (firstVideoReads (tagFlags flv streampos)
              (fun k => rd flv (streampos + sizeofFLVTag + 1 + k))).map
              (fun k => streampos + sizeofFLVTag + 1 + k)
        else []) ++
        [streampos + sizeofFLVTag] ++
        (if keyframeTest (tagFlags flv streampos) then
          [streampos + 7, streampos + 4, streampos + 5, streampos + 6]
        else [])
    else []) ++
    [streampos + 7, streampos + 4, streampos + 5, streampos + 6]

/-- The offsets in `flv` of the bytes that the loop of `readFLVFirstPass`
reads, in the order of the reads: in every iteration the three bytes of
`datasize` after the first bounds check, and the reads of `firstPassTagReads`
after the second. -/
def readFLVFirstPassReads : Nat → List Nat → Nat → Nat → FirstPassState → List Nat
  | 0, _, _, _, _ => []
  | fuel + 1, flv, streampos, filesize, st =>
    if streampos + sizeofFLVTag > filesize then []
    else
      let datasize := sizeofFLVTag + tagDataSize flv streampos + 4
      [streampos + 1, streampos + 2, streampos + 3] ++
        (if streampos + datasize > filesize then []
        else
          firstPassTagReads flv streampos st ++
            readFLVFirstPassReads fuel flv (streampos + datasize) filesize
              (firstPassTag flv streampos datasize st))

/-- A file whose only tag is a video tag without payload, `D = 0`: the byte
after the header, which the program takes for the flags byte, is the first of
the four bytes that end the footprint, here 0x13 (keyframe, codec 3); the
footprint of the tag ends with the file. -/
def emptyVideoTagInput : List Nat :=
  videoFileHeader ++ [9, 0, 0, 0, 0, 0, 0, 0, 0, 0, 0, 0x13, 0, 0, 11]

/-! ## The three loops walk the same tags -/

theorem specWalkFrom_fuel (flv : List Nat) (filesize : Nat) :
    ∀ (fuel₁ fuel₂ streampos : Nat), filesize ≤ streampos + fuel₁ → filesize ≤ streampos + fuel₂ →
      specWalkFrom fuel₁ flv streampos filesize = specWalkFrom fuel₂ flv streampos filesize := by
  intro fuel₁
  induction fuel₁ with
  | zero =>
    intro fuel₂ s h₁ _
    cases fuel₂ with
    | zero => rfl
    | succ m =>
      have : ¬ (s + 11 ≤ filesize ∧ s + (11 + tagDataSize flv s + 4) ≤ filesize) := by omega
      simp [specWalkFrom, this]
  | succ n ih =>
    intro fuel₂ s h₁ h₂
    cases fuel₂ with
    | zero =>
      have : ¬ (s + 11 ≤ filesize ∧ s + (11 + tagDataSize flv s + 4) ≤ filesize) := by omega
      simp [specWalkFrom, this]
    | succ m =>
      by_cases h : s + 11 ≤ filesize ∧ s + (11 + tagDataSize flv s + 4) ≤ filesize
      · simp only [specWalkFrom, h, and_self, if_true]
        rw [ih m (s + (11 + tagDataSize flv s + 4)) (by omega) (by omega)]
      · simp [specWalkFrom, h]

theorem writeFLVLoop_eq_walk (flv : List Nat) (filesize : Nat) :
    ∀ (fuel streampos : Nat), writeFLVLoop fuel flv streampos filesize =
      ((specWalkFrom fuel flv streampos filesize).filter (isAudioVideo flv)).flatMap
        (footprint flv) := by
  intro fuel
  induction fuel with
  | zero => intro s; rfl
  | succ n ih =>
    intro s
    by_cases h₁ : s + 11 > filesize
    · have : ¬ (s + 11 ≤ filesize ∧ s + (11 + tagDataSize flv s + 4) ≤ filesize) := by omega
      simp [writeFLVLoop, specWalkFrom, sizeofFLVTag, h₁, this]
    · by_cases h₂ : s + (11 + tagDataSize flv s + 4) > filesize
      · have : ¬ (s + 11 ≤ filesize ∧ s + (11 + tagDataSize flv s + 4) ≤ filesize) := by omega
        simp [writeFLVLoop, specWalkFrom, sizeofFLVTag, h₁, h₂, this]
      · have h : s + 11 ≤ filesize ∧ s + (11 + tagDataSize flv s + 4) ≤ filesize := by omega
        simp only [writeFLVLoop, specWalkFrom, sizeofFLVTag, h₁, h₂, h, and_self, if_true, if_false,
          ih]
        by_cases hav : isAudioVideo flv s = true
        · have hav2 : (tagType flv s == FLV_VIDEODATA || tagType flv s == FLV_AUDIODATA) = true := by
            simp only [isAudioVideo, FLV_VIDEODATA, FLV_AUDIODATA, Bool.or_eq_true] at hav ⊢
            tauto
          simp [hav, hav2, List.filter_cons, footprint, footprintSize]
        · have hav2 : (tagType flv s == FLV_VIDEODATA || tagType flv s == FLV_AUDIODATA) = false := by
            simp only [isAudioVideo, FLV_VIDEODATA, FLV_AUDIODATA, Bool.or_eq_true] at hav ⊢
            rw [Bool.eq_false_iff]
            simp only [ne_eq, Bool.or_eq_true]
            tauto
          simp [hav, hav2, List.filter_cons]

theorem readFLVFirstPassLoop_eq_walk (flv : List Nat) (filesize : Nat) :
    ∀ (fuel streampos : Nat) (st : FirstPassState),
      readFLVFirstPassLoop fuel flv streampos filesize st =
        (specWalkFrom fuel flv streampos filesize).foldl
          (fun st off => firstPassTag flv off (footprintSize flv off) st) st := by
  intro fuel
  induction fuel with
  | zero => intro s st; rfl
  | succ n ih =>
    intro s st
    by_cases h₁ : s + 11 > filesize
    · have : ¬ (s + 11 ≤ filesize ∧ s + (11 + tagDataSize flv s + 4) ≤ filesize) := by omega
      simp [readFLVFirstPassLoop, specWalkFrom, sizeofFLVTag, h₁, this]
    · by_cases h₂ : s + (11 + tagDataSize flv s + 4) > filesize
      · have : ¬ (s + 11 ≤ filesize ∧ s + (11 + tagDataSize flv s + 4) ≤ filesize) := by omega
        simp [readFLVFirstPassLoop, specWalkFrom, sizeofFLVTag, h₁, h₂, this]
      · have h : s + 11 ≤ filesize ∧ s + (11 + tagDataSize flv s + 4) ≤ filesize := by omega
        simp only [readFLVFirstPassLoop, specWalkFrom, sizeofFLVTag, h₁, h₂, h, and_self, if_true,
          if_false, ih, List.foldl_cons, footprintSize]

theorem readFLVSecondPassLoop_eq_walk (flv : List Nat) (filesize : Nat) :
    ∀ (fuel streampos : Nat) (st : SecondPassState),
      readFLVSecondPassLoop fuel flv streampos filesize st =
        (specWalkFrom fuel flv streampos filesize).foldl
          (fun st off => secondPassTag flv off (footprintSize flv off) st) st := by
  intro fuel
  induction fuel with
  | zero => intro s st; rfl
  | succ n ih =>
    intro s st
    by_cases h₁ : s + 11 > filesize
    · have : ¬ (s + 11 ≤ filesize ∧ s + (11 + tagDataSize flv s + 4) ≤ filesize) := by omega
      simp [readFLVSecondPassLoop, specWalkFrom, sizeofFLVTag, h₁, this]
    · by_cases h₂ : s + (11 + tagDataSize flv s + 4) > filesize
      · have : ¬ (s + 11 ≤ filesize ∧ s + (11 + tagDataSize flv s + 4) ≤ filesize) := by omega
        simp [readFLVSecondPassLoop, specWalkFrom, sizeofFLVTag, h₁, h₂, this]
      · have h : s + 11 ≤ filesize ∧ s + (11 + tagDataSize flv s + 4) ≤ filesize := by omega
        simp only [readFLVSecondPassLoop, specWalkFrom, sizeofFLVTag, h₁, h₂, h, and_self, if_true,
          if_false, ih, List.foldl_cons, footprintSize]


theorem writeFLVLoop_fuel (flv : List Nat) (filesize fuel streampos : Nat)
    (h : filesize ≤ streampos + fuel) :
    writeFLVLoop fuel flv streampos filesize = writeFLVLoop filesize flv streampos filesize := by
  rw [writeFLVLoop_eq_walk, writeFLVLoop_eq_walk,
    specWalkFrom_fuel flv filesize fuel filesize streampos h (by omega)]

theorem readFLVFirstPassLoop_fuel (flv : List Nat) (filesize fuel streampos : Nat)
    (st : FirstPassState) (h : filesize ≤ streampos + fuel) :
    readFLVFirstPassLoop fuel flv streampos filesize st =
      readFLVFirstPassLoop filesize flv streampos filesize st := by
  rw [readFLVFirstPassLoop_eq_walk, readFLVFirstPassLoop_eq_walk,
    specWalkFrom_fuel flv filesize fuel filesize streampos h (by omega)]

theorem readFLVSecondPassLoop_fuel (flv : List Nat) (filesize fuel streampos : Nat)
    (st : SecondPassState) (h : filesize ≤ streampos + fuel) :
    readFLVSecondPassLoop fuel flv streampos filesize st =
      readFLVSecondPassLoop filesize flv streampos filesize st := by
  rw [readFLVSecondPassLoop_eq_walk, readFLVSecondPassLoop_eq_walk,
    specWalkFrom_fuel flv filesize fuel filesize streampos h (by omega)]

/-! ## Doubles that hold byte counts -/

theorem Dbl.add_ofNat (a b : Nat) : Dbl.add (Dbl.ofNat a) (Dbl.ofNat b) = Dbl.ofNat (a + b) := by
  simp [Dbl.add, Dbl.ofNat, Dbl.frac]

theorem Dbl.ofNat_injective {a b : Nat} (h : Dbl.ofNat a = Dbl.ofNat b) : a = b := by
  simpa [Dbl.ofNat] using h

/-! ## Return values of the writers -/

theorem Wr.exact_andThen {v w : Wr} (hv : v.exact) (hw : w.exact) : (v.andThen w).exact := by
  simp only [Wr.exact, Wr.andThen, List.length_append] at *
  omega

theorem fwrite_exact {buf : List Nat} {n : Nat} (h : n ≤ buf.length) : (fwrite buf n).exact := by
  simp only [Wr.exact, fwrite, List.length_take]
  omega

theorem writeFLVPreviousTagSize_exact (n : Nat) : (writeFLVPreviousTagSize n).exact := by
  simp [Wr.exact, writeFLVPreviousTagSize, fwrite]

theorem writeFLVScriptDataLongString_exact (s : List Nat) :
    (writeFLVScriptDataLongString s).exact := by
  unfold writeFLVScriptDataLongString
  apply Wr.exact_andThen
  · exact fwrite_exact (by simp)
  · apply fwrite_exact
    split <;> omega

theorem writeFLVScriptDataString_exact (s : List Nat) : (writeFLVScriptDataString s).exact := by
  unfold writeFLVScriptDataString
  simp only
  split
  · exact writeFLVScriptDataLongString_exact s
  · exact Wr.exact_andThen (fwrite_exact (by simp)) (fwrite_exact (le_refl _))

theorem writeName_exact (name : Option (List Nat)) : (writeName name).exact := by
  cases name with
  | none => simp [writeName, Wr.exact]
  | some n => exact writeFLVScriptDataString_exact n

theorem writeFLVScriptDataECMAArray_exact (name : List Nat) (len : Nat) :
    (writeFLVScriptDataECMAArray name len).exact :=
  Wr.exact_andThen (Wr.exact_andThen (writeFLVScriptDataString_exact name) (fwrite_exact (by simp)))
    (fwrite_exact (by simp))

theorem writeFLVScriptDataValueArray_exact (name : List Nat) (len : Nat) :
    (writeFLVScriptDataValueArray name len).exact :=
  Wr.exact_andThen (Wr.exact_andThen (writeFLVScriptDataString_exact name) (fwrite_exact (by simp)))
    (fwrite_exact (by simp))

theorem writeFLVScriptDataVariableArray_exact (name : List Nat) :
    (writeFLVScriptDataVariableArray name).exact :=
  Wr.exact_andThen (writeFLVScriptDataString_exact name) (fwrite_exact (by simp))

theorem writeFLVScriptDataVariableArrayEnd_exact : writeFLVScriptDataVariableArrayEnd.exact :=
  fwrite_exact (by simp)

theorem writeFLVScriptDataObject_exact : writeFLVScriptDataObject.exact :=
  fwrite_exact (by simp)

theorem writeFLVScriptDataValueString_exact (name : Option (List Nat)) (value : List Nat) :
    (writeFLVScriptDataValueString name value).exact :=
  Wr.exact_andThen (Wr.exact_andThen (writeName_exact name) (fwrite_exact (by simp)))
    (writeFLVScriptDataString_exact value)

theorem writeFLVScriptDataValueBool_exact (name : Option (List Nat)) (value : Nat) :
    (writeFLVScriptDataValueBool name value).exact :=
  Wr.exact_andThen (Wr.exact_andThen (writeName_exact name) (fwrite_exact (by simp)))
    (fwrite_exact (by simp))

theorem writeFLVScriptDataValueDouble_exact (dc : Dbl → Nat → Nat) (name : Option (List Nat))
    (value : Dbl) : (writeFLVScriptDataValueDouble dc name value).exact :=
  Wr.exact_andThen (Wr.exact_andThen (writeName_exact name) (fwrite_exact (by simp)))
    (fwrite_exact (by simp))

/-- The return value of `writeFLVScriptDataValueDouble` does not depend on the double. -/
theorem writeFLVScriptDataValueDouble_ret (dc : Dbl → Nat → Nat) (name : Option (List Nat))
    (value : Dbl) : (writeFLVScriptDataValueDouble dc name value).ret = (writeName name).ret + 9 := by
  simp [writeFLVScriptDataValueDouble, Wr.andThen, fwrite, writeFLVDouble]

theorem writeFLVScriptDataValueBool_ret (name : Option (List Nat)) (value : Nat) :
    (writeFLVScriptDataValueBool name value).ret = (writeName name).ret + 2 := by
  simp [writeFLVScriptDataValueBool, Wr.andThen, fwrite, writeFLVBool]

theorem writeFLVScriptDataECMAArray_ret (name : List Nat) (len : Nat) :
    (writeFLVScriptDataECMAArray name len).ret = (writeFLVScriptDataString name).ret + 5 := by
  simp [writeFLVScriptDataECMAArray, Wr.andThen, fwrite]

theorem writeFLVScriptDataValueArray_ret (name : List Nat) (len : Nat) :
    (writeFLVScriptDataValueArray name len).ret = (writeFLVScriptDataString name).ret + 5 := by
  simp [writeFLVScriptDataValueArray, Wr.andThen, fwrite]

theorem Pass.put_datasize (p : Pass) (w : Wr) : (p.put w).datasize = p.datasize + w.ret := rfl
theorem Pass.put_length (p : Pass) (w : Wr) : (p.put w).length = p.length := rfl
theorem Pass.put_out (p : Pass) (w : Wr) : (p.put w).out = p.out ++ w.out := rfl
theorem Pass.named_datasize (p : Pass) (w : Wr) : (p.named w).datasize = p.datasize + w.ret := rfl
theorem Pass.named_length (p : Pass) (w : Wr) : (p.named w).length = p.length + 1 := rfl
theorem Pass.named_out (p : Pass) (w : Wr) : (p.named w).out = p.out ++ w.out := rfl

theorem Pass.doubles_succ (dc : Dbl → Nat → Nat) (a : List Dbl) (n : Nat) (p : Pass) :
    p.doubles dc a (n + 1) =
      (p.doubles dc a n).put (writeFLVScriptDataValueDouble dc none (a.getD n (Dbl.ofNat 0))) := by
  simp [Pass.doubles, List.range_succ, List.foldl_append]

theorem Pass.doubles_datasize (dc : Dbl → Nat → Nat) (a : List Dbl) (n : Nat) (p : Pass) :
    (p.doubles dc a n).datasize = p.datasize + 9 * n := by
  induction n with
  | zero => simp [Pass.doubles]
  | succ k ih =>
    rw [Pass.doubles_succ, Pass.put_datasize, ih, writeFLVScriptDataValueDouble_ret]
    simp only [writeName]
    omega

theorem Pass.doubles_length (dc : Dbl → Nat → Nat) (a : List Dbl) (n : Nat) (p : Pass) :
    (p.doubles dc a n).length = p.length := by
  induction n with
  | zero => simp [Pass.doubles]
  | succ k ih => rw [Pass.doubles_succ, Pass.put_length, ih]

theorem writeFLVScriptDataString_ret_short (s : List Nat) (h : s.length ≤ 0xffff) :
    (writeFLVScriptDataString s).ret = 2 + s.length := by
  have : ¬ s.length > 0xffff := by omega
  simp [writeFLVScriptDataString, this, Wr.andThen, fwrite]

/-- The lengths of the names that `writeFLVMetaData` emits. -/
theorem cstr_lengths :
    (cstr "onMetaData").length = 10 ∧ (cstr "creator").length = 7
    ∧ (cstr "metadatacreator").length = 15 ∧ (cstr "hasKeyframes").length = 12
    ∧ (cstr "hasVideo").length = 8 ∧ (cstr "hasAudio").length = 8
    ∧ (cstr "hasMetadata").length = 11 ∧ (cstr "canSeekToEnd").length = 12
    ∧ (cstr "duration").length = 8 ∧ (cstr "datasize").length = 8
    ∧ (cstr "videosize").length = 9 ∧ (cstr "videocodecid").length = 12
    ∧ (cstr "width").length = 5 ∧ (cstr "height").length = 6
    ∧ (cstr "framerate").length = 9 ∧ (cstr "videodatarate").length = 13
    ∧ (cstr "audiosize").length = 9 ∧ (cstr "audiocodecid").length = 12
    ∧ (cstr "audiosamplerate").length = 15 ∧ (cstr "audiosamplesize").length = 15
    ∧ (cstr "stereo").length = 6 ∧ (cstr "audiodatarate").length = 13
    ∧ (cstr "filesize").length = 8 ∧ (cstr "lasttimestamp").length = 13
    ∧ (cstr "lastkeyframetimestamp").length = 21 ∧ (cstr "lastkeyframelocation").length = 20
    ∧ (cstr "keyframes").length = 9 ∧ (cstr "filepositions").length = 13
    ∧ (cstr "times").length = 5 := by
  decide

theorem writeName_ret_short (s : List Nat) (h : s.length ≤ 0xffff) :
    (writeName (some s)).ret = 2 + s.length := by
  rw [writeName, writeFLVScriptDataString_ret_short _ h]

theorem metadataVideo_datasize (dc : Dbl → Nat → Nat) (md : FLVMetaData) (p : Pass) :
    (metadataVideo dc md p).datasize = p.datasize + 87
      + (if md.width.isNonzero then 16 else 0) + (if md.height.isNonzero then 17 else 0) := by
  unfold metadataVideo
  simp only
  split <;> split <;>
    simp +decide [Pass.named_datasize, writeFLVScriptDataValueDouble_ret, writeName_ret_short,
      cstr_lengths]

theorem metadataAudio_datasize (dc : Dbl → Nat → Nat) (md : FLVMetaData) (p : Pass) :
    (metadataAudio dc md p).datasize = p.datasize + 129 := by
  unfold metadataAudio
  simp +decide [Pass.named_datasize, writeFLVScriptDataValueDouble_ret,
    writeFLVScriptDataValueBool_ret, writeName_ret_short, cstr_lengths]

theorem metadataKeyframes_datasize (dc : Dbl → Nat → Nat) (md : FLVMetaData) (p : Pass) :
    (metadataKeyframes dc md p).datasize = p.datasize + 110 + 18 * md.keyframes := by
  unfold metadataKeyframes
  simp +decide [Pass.named_datasize, Pass.put_datasize, Pass.doubles_datasize,
    writeFLVScriptDataValueDouble_ret, writeFLVScriptDataValueArray_ret,
    writeFLVScriptDataString_ret_short,
    writeFLVScriptDataVariableArray, writeFLVScriptDataVariableArrayEnd, Wr.andThen, fwrite,
    writeName_ret_short, cstr_lengths]
  omega

/-- The value of `datasize` at the end of one pass of `writeFLVMetaData`: it
is determined by the two strings, the three flags, whether width and height
are zero, and the number of keyframes. -/
theorem metadataPass_datasize (dc : Dbl → Nat → Nat) (md : FLVMetaData) (t : List Nat)
    (length : Nat) : (metadataPass dc md t length).datasize = 11 + payloadSize md := by
  unfold metadataPass payloadSize
  simp only
  split <;> split <;> split <;> split <;>
    simp +decide [Pass.named_datasize, Pass.put_datasize, metadataVideo_datasize,
      metadataAudio_datasize, metadataKeyframes_datasize,
      writeFLVScriptDataValueDouble_ret, writeFLVScriptDataValueBool_ret,
      writeFLVScriptDataECMAArray_ret, writeFLVScriptDataString_ret_short,
      writeFLVScriptDataValueString, writeFLVScriptDataObject, Wr.andThen, fwrite,
      writeName_ret_short, cstr_lengths, stringSize, sizeofFLVTag] <;> omega

theorem metadataVideo_length (dc : Dbl → Nat → Nat) (md : FLVMetaData) (p : Pass) :
    (metadataVideo dc md p).length = p.length + 4
      + (if md.width.isNonzero then 1 else 0) + (if md.height.isNonzero then 1 else 0) := by
  unfold metadataVideo
  simp only
  split <;> split <;> simp [Pass.named_length]

theorem metadataAudio_length (dc : Dbl → Nat → Nat) (md : FLVMetaData) (p : Pass) :
    (metadataAudio dc md p).length = p.length + 6 := by
  simp [metadataAudio, Pass.named_length]

theorem metadataKeyframes_length (dc : Dbl → Nat → Nat) (md : FLVMetaData) (p : Pass) :
    (metadataKeyframes dc md p).length = p.length + 3 := by
  simp [metadataKeyframes, Pass.named_length, Pass.put_length, Pass.doubles_length]

/-- The value of `length` at the end of one pass of `writeFLVMetaData`. -/
theorem metadataPass_length (dc : Dbl → Nat → Nat) (md : FLVMetaData) (t : List Nat)
    (length : Nat) : (metadataPass dc md t length).length = length + entryCount md := by
  unfold metadataPass entryCount
  simp only
  split <;> split <;> split <;> split <;>
    simp [Pass.named_length, Pass.put_length, metadataVideo_length, metadataAudio_length,
      metadataKeyframes_length] <;> omega

/-- After a pass `length` is at least 10: the jump back to `metadatapass`
is taken at most once. -/
theorem metadataPass_length_pos (dc : Dbl → Nat → Nat) (md : FLVMetaData) (t : List Nat)
    (length : Nat) : 10 ≤ (metadataPass dc md t length).length := by
  rw [metadataPass_length]
  unfold entryCount
  omega

/-! ### Every pass returns the number of bytes it wrote -/

theorem Wr.exact.length_eq {w : Wr} (h : w.exact) : w.out.length = w.ret := h.symm

theorem writeFLVScriptDataValueDouble_out_length (dc : Dbl → Nat → Nat)
    (name : Option (List Nat)) (value : Dbl) :
    (writeFLVScriptDataValueDouble dc name value).out.length = (writeName name).ret + 9 :=
  (writeFLVScriptDataValueDouble_exact dc name value).length_eq.trans
    (writeFLVScriptDataValueDouble_ret dc name value)

theorem writeFLVScriptDataValueBool_out_length (name : Option (List Nat)) (value : Nat) :
    (writeFLVScriptDataValueBool name value).out.length = (writeName name).ret + 2 :=
  (writeFLVScriptDataValueBool_exact name value).length_eq.trans
    (writeFLVScriptDataValueBool_ret name value)

theorem writeFLVScriptDataValueString_out_length (name : Option (List Nat)) (value : List Nat) :
    (writeFLVScriptDataValueString name value).out.length
      = (writeName name).ret + 1 + stringSize value := by
  rw [(writeFLVScriptDataValueString_exact name value).length_eq]
  simp [writeFLVScriptDataValueString, Wr.andThen, fwrite, stringSize]

theorem writeFLVScriptDataECMAArray_out_length (name : List Nat) (len : Nat) :
    (writeFLVScriptDataECMAArray name len).out.length = (writeFLVScriptDataString name).ret + 5 :=
  (writeFLVScriptDataECMAArray_exact name len).length_eq.trans
    (writeFLVScriptDataECMAArray_ret name len)

theorem writeFLVScriptDataValueArray_out_length (name : List Nat) (len : Nat) :
    (writeFLVScriptDataValueArray name len).out.length = (writeFLVScriptDataString name).ret + 5 :=
  (writeFLVScriptDataValueArray_exact name len).length_eq.trans
    (writeFLVScriptDataValueArray_ret name len)

theorem writeFLVScriptDataVariableArray_out_length (name : List Nat) :
    (writeFLVScriptDataVariableArray name).out.length = (writeFLVScriptDataString name).ret + 1 := by
  rw [(writeFLVScriptDataVariableArray_exact name).length_eq]
  simp [writeFLVScriptDataVariableArray, Wr.andThen, fwrite]

theorem Pass.doubles_out_length (dc : Dbl → Nat → Nat) (a : List Dbl) (n : Nat) (p : Pass) :
    (p.doubles dc a n).out.length = p.out.length + 9 * n := by
  induction n with
  | zero => simp [Pass.doubles]
  | succ k ih =>
    rw [Pass.doubles_succ, Pass.put_out, List.length_append, ih,
      writeFLVScriptDataValueDouble_out_length]
    simp only [writeName]
    omega

theorem metadataVideo_out_length (dc : Dbl → Nat → Nat) (md : FLVMetaData) (p : Pass) :
    (metadataVideo dc md p).out.length = p.out.length + 87
      + (if md.width.isNonzero then 16 else 0) + (if md.height.isNonzero then 17 else 0) := by
  unfold metadataVideo
  simp only
  split <;> split <;>
    simp +decide [Pass.named_out, writeFLVScriptDataValueDouble_out_length, writeName_ret_short,
      cstr_lengths]

theorem metadataAudio_out_length (dc : Dbl → Nat → Nat) (md : FLVMetaData) (p : Pass) :
    (metadataAudio dc md p).out.length = p.out.length + 129 := by
  unfold metadataAudio
  simp +decide [Pass.named_out, writeFLVScriptDataValueDouble_out_length,
    writeFLVScriptDataValueBool_out_length, writeName_ret_short, cstr_lengths]

theorem metadataKeyframes_out_length (dc : Dbl → Nat → Nat) (md : FLVMetaData) (p : Pass) :
    (metadataKeyframes dc md p).out.length = p.out.length + 110 + 18 * md.keyframes := by
  unfold metadataKeyframes
  simp +decide [Pass.named_out, Pass.put_out, Pass.doubles_out_length,
    writeFLVScriptDataValueDouble_out_length, writeFLVScriptDataValueArray_out_length,
    writeFLVScriptDataVariableArray_out_length, writeFLVScriptDataString_ret_short,
    writeFLVScriptDataVariableArrayEnd, fwrite, writeName_ret_short, cstr_lengths]
  omega

theorem metadataTagHeader_length (md : FLVMetaData) : (metadataTagHeader md).length = 11 := rfl

/-- One pass writes the 11 header bytes and `payloadSize md` payload bytes. -/
theorem metadataPass_out_length (dc : Dbl → Nat → Nat) (md md' : FLVMetaData) (length : Nat) :
    (metadataPass dc md (metadataTagHeader md') length).out.length = 11 + payloadSize md := by
  unfold metadataPass payloadSize
  simp only
  split <;> split <;> split <;> split <;>
    simp +decide [Pass.named_out, Pass.put_out, metadataVideo_out_length,
      metadataAudio_out_length, metadataKeyframes_out_length,
      writeFLVScriptDataValueDouble_out_length, writeFLVScriptDataValueBool_out_length,
      writeFLVScriptDataValueString_out_length, writeFLVScriptDataECMAArray_out_length,
      writeFLVScriptDataString_ret_short, writeFLVScriptDataObject, fwrite,
      writeName_ret_short, cstr_lengths, sizeofFLVTag, metadataTagHeader] <;> omega


/-! ## The bytes of one metadata pass -/

theorem and_255 (x : Nat) : x &&& 255 = x % 256 := Nat.and_pow_two_sub_one_eq_mod x 8

theorem and_1 (x : Nat) : x &&& 1 = x % 2 := Nat.and_pow_two_sub_one_eq_mod x 1

theorem beBytes_two (n : Nat) : beBytes 2 n = [(n >>> 8) &&& 0xff, n &&& 0xff] := by
  simp [beBytes, and_255, Nat.shiftRight_eq_div_pow]

theorem beBytes_four (n : Nat) :
    beBytes 4 n = [(n >>> 24) &&& 0xff, (n >>> 16) &&& 0xff, (n >>> 8) &&& 0xff, n &&& 0xff] := by
  simp [beBytes, and_255, Nat.shiftRight_eq_div_pow]

theorem beNat_beBytes_three (n : Nat) :
    beNat [(n >>> 16) &&& 0xff, (n >>> 8) &&& 0xff, n &&& 0xff] = n % 2 ^ 24 := by
  simp only [beNat, List.foldl_cons, List.foldl_nil, and_255, Nat.shiftRight_eq_div_pow]
  omega

theorem beNat_beBytes_four (n : Nat) : beNat (beBytes 4 n) = n % 2 ^ 32 := by
  simp only [beBytes, beNat, List.foldl_cons, List.foldl_nil]
  omega

theorem writeFLVScriptDataString_out_short (s : List Nat) (h : s.length ≤ 0xffff) :
    (writeFLVScriptDataString s).out = specName s := by
  have : ¬ s.length > 0xffff := by omega
  simp [writeFLVScriptDataString, this, Wr.andThen, fwrite, specName, beBytes_two]

theorem writeFLVScriptDataValueDouble_out (dc : Dbl → Nat → Nat) (name : List Nat) (v : Dbl)
    (h : name.length ≤ 0xffff) :
    (writeFLVScriptDataValueDouble dc (some name) v).out = specEntry dc (name, .double v) := by
  simp [writeFLVScriptDataValueDouble, writeName, Wr.andThen, fwrite, writeFLVDouble, specEntry,
    specValue, specDouble, writeFLVScriptDataString_out_short _ h]

theorem writeFLVScriptDataValueDouble_out_none (dc : Dbl → Nat → Nat) (v : Dbl) :
    (writeFLVScriptDataValueDouble dc none v).out = 0 :: specDouble dc v := by
  simp [writeFLVScriptDataValueDouble, writeName, Wr.andThen, fwrite, writeFLVDouble, specDouble]

theorem writeFLVScriptDataValueBool_out (dc : Dbl → Nat → Nat) (name : List Nat) (v : Nat)
    (h : name.length ≤ 0xffff) :
    (writeFLVScriptDataValueBool (some name) v).out = specEntry dc (name, .bool v) := by
  simp [writeFLVScriptDataValueBool, writeName, Wr.andThen, fwrite, writeFLVBool, specEntry,
    specValue, and_1, writeFLVScriptDataString_out_short _ h]

theorem writeFLVScriptDataValueString_out (dc : Dbl → Nat → Nat) (name : List Nat) (v : List Nat)
    (h : name.length ≤ 0xffff) (hv : v.length ≤ 0xffff) :
    (writeFLVScriptDataValueString (some name) v).out = specEntry dc (name, .string v) := by
  have : ¬ v.length > 65535 := by omega
  simp [writeFLVScriptDataValueString, writeName, Wr.andThen, fwrite, specEntry,
    specValue, this, writeFLVScriptDataString_out_short _ h,
    writeFLVScriptDataString_out_short _ hv, specName]

theorem firstN_succ (a : List Dbl) (n : Nat) :
    firstN a (n + 1) = firstN a n ++ [a.getD n (Dbl.ofNat 0)] := by
  simp [firstN, List.range_succ]

theorem firstN_length (a : List Dbl) (n : Nat) : (firstN a n).length = n := by
  simp [firstN]

theorem Pass.doubles_out (dc : Dbl → Nat → Nat) (a : List Dbl) (n : Nat) (p : Pass) :
    (p.doubles dc a n).out = p.out ++ (firstN a n).flatMap (fun d => 0 :: specDouble dc d) := by
  induction n with
  | zero => simp [Pass.doubles, firstN]
  | succ k ih =>
    rw [Pass.doubles_succ, Pass.put_out, ih, firstN_succ, List.flatMap_append,
      writeFLVScriptDataValueDouble_out_none]
    simp

theorem metadataVideo_out (dc : Dbl → Nat → Nat) (md : FLVMetaData) (p : Pass) :
    (metadataVideo dc md p).out = p.out ++ (specVideoEntries md).flatMap (specEntry dc) := by
  unfold metadataVideo specVideoEntries
  simp only
  split <;> split <;>
    simp +decide [Pass.named_out, writeFLVScriptDataValueDouble_out, cstr_lengths]

theorem metadataAudio_out (dc : Dbl → Nat → Nat) (md : FLVMetaData) (p : Pass) :
    (metadataAudio dc md p).out = p.out ++ (specAudioEntries md).flatMap (specEntry dc) := by
  unfold metadataAudio specAudioEntries
  simp +decide [Pass.named_out, writeFLVScriptDataValueDouble_out,
    writeFLVScriptDataValueBool_out dc, cstr_lengths]

theorem metadataKeyframes_out (dc : Dbl → Nat → Nat) (md : FLVMetaData) (p : Pass) :
    (metadataKeyframes dc md p).out = p.out ++ (specKeyframeEntries md).flatMap (specEntry dc) := by
  unfold metadataKeyframes specKeyframeEntries
  simp +decide [Pass.named_out, Pass.put_out, Pass.doubles_out, writeFLVScriptDataValueDouble_out,
    cstr_lengths, writeFLVScriptDataVariableArray, writeFLVScriptDataValueArray,
    writeFLVScriptDataVariableArrayEnd, Wr.andThen, fwrite, writeFLVScriptDataString_out_short,
    specEntry, specValue, specStrictArray, beBytes_four, firstN_length]

/-- The bytes of one pass of `writeFLVMetaData` are the tag header, the
marker 2, the ECMA-array header of onMetaData with the count
`onmetadatalength`, and the entries of the specification in order, nothing
after them. -/
theorem metadataPass_out (dc : Dbl → Nat → Nat) (md : FLVMetaData) (t : List Nat) (length : Nat)
    (hc : md.creator.length ≤ 0xffff) (hm : md.metadatacreator.length ≤ 0xffff) :
    (metadataPass dc md t length).out =
      t.take 11 ++ [2] ++ specName (cstr "onMetaData") ++ [8] ++ beBytes 4 md.onmetadatalength
        ++ (specMetaEntries md).flatMap (specEntry dc) := by
  unfold metadataPass specMetaEntries
  simp only
  split <;> split <;> split <;> split <;>
    simp +decide [Pass.named_out, Pass.put_out, metadataVideo_out, metadataAudio_out,
      metadataKeyframes_out, writeFLVScriptDataValueDouble_out,
      writeFLVScriptDataValueBool_out dc, writeFLVScriptDataValueString_out dc, hc, hm,
      cstr_lengths, writeFLVScriptDataECMAArray, writeFLVScriptDataObject, Wr.andThen, fwrite,
      writeFLVScriptDataString_out_short, beBytes_four, sizeofFLVTag]


/-! ## Pass 1 as a fold over the walked tags -/

theorem sameFixed.trans {a b c : FLVMetaData} (h : sameFixed a b) (k : sameFixed b c) :
    sameFixed a c := by
  obtain ⟨h1, h2, h3, h4, h5, h6, h7⟩ := h
  obtain ⟨k1, k2, k3, k4, k5, k6, k7⟩ := k
  exact ⟨h1.trans k1, h2.trans k2, h3.trans k3, h4.trans k4, h5.trans k5, h6.trans k6,
    h7.trans k7⟩

theorem readFLVH263VideoPacket_core (h263 : Nat → Nat) (md : FLVMetaData) :
    sameCore (readFLVH263VideoPacket h263 md) md := by
  unfold readFLVH263VideoPacket sameCore sameFixed
  simp only
  split
  · simp
  · split <;> simp

theorem firstVideo_core (flags : Nat) (payload : Nat → Nat) (md : FLVMetaData) :
    sameCore (firstVideo flags payload md) md := by
  unfold firstVideo
  simp only
  split
  · exact readFLVH263VideoPacket_core payload _
  all_goals simp [sameCore, sameFixed, readFLVScreenVideoPacket, readFLVVP62VideoPacket,
    readFLVVP62AlphaVideoPacket]

theorem firstAudio_core (flags : Nat) (md : FLVMetaData) :
    sameCore (firstAudio flags md) md := by
  unfold firstAudio sameCore sameFixed
  simp only
  split <;> split <;> simp

theorem firstPassAudio_fields (flv : List Nat) (off d : Nat) (st : FirstPassState) :
    sameFixed (firstPassAudio flv off d st).md st.md
    ∧ (firstPassAudio flv off d st).md.datasize = Dbl.add st.md.datasize (Dbl.ofNat d)
    ∧ (firstPassAudio flv off d st).md.keyframes = st.md.keyframes := by
  unfold firstPassAudio
  simp only
  split
  · exact firstAudio_core _ _
  · simp [sameFixed]

theorem firstPassKeyframe_fields (flv : List Nat) (off : Nat) (md : FLVMetaData) :
    sameFixed (firstPassKeyframe flv off md) md
    ∧ (firstPassKeyframe flv off md).datasize = md.datasize
    ∧ (firstPassKeyframe flv off md).keyframes =
        (if keyframeTest (tagFlags flv off) then md.keyframes + 1 else md.keyframes) := by
  unfold firstPassKeyframe
  split <;> simp [sameFixed]

theorem firstPassVideo_fields (flv : List Nat) (off d : Nat) (st : FirstPassState) :
    sameFixed (firstPassVideo flv off d st).md st.md
    ∧ (firstPassVideo flv off d st).md.datasize = Dbl.add st.md.datasize (Dbl.ofNat d)
    ∧ (firstPassVideo flv off d st).md.keyframes =
        (if keyframeTest (tagFlags flv off) then st.md.keyframes + 1 else st.md.keyframes) := by
  unfold firstPassVideo
  simp only
  split
  · obtain ⟨k1, k6, k7⟩ := firstPassKeyframe_fields flv off
      (firstVideo (tagFlags flv off) (fun k => rd flv (off + sizeofFLVTag + 1 + k))
        { st.md with datasize := Dbl.add st.md.datasize (Dbl.ofNat d),
                     videosize := Dbl.add st.md.videosize (Dbl.ofNat (d - 4)) })
    obtain ⟨e1, e6, e7⟩ := firstVideo_core (tagFlags flv off)
      (fun k => rd flv (off + sizeofFLVTag + 1 + k))
      { st.md with datasize := Dbl.add st.md.datasize (Dbl.ofNat d),
                   videosize := Dbl.add st.md.videosize (Dbl.ofNat (d - 4)) }
    exact ⟨k1.trans e1, k6.trans e6, by rw [k7, e7]⟩
  · exact firstPassKeyframe_fields flv off _

/-- What one iteration of pass 1 does to the byte count and the keyframe
count. -/
theorem firstPassTag_fields (flv : List Nat) (off d : Nat) (st : FirstPassState) :
    sameFixed (firstPassTag flv off d st).md st.md
    ∧ (firstPassTag flv off d st).md.datasize =
        (if isAudioVideo flv off then Dbl.add st.md.datasize (Dbl.ofNat d) else st.md.datasize)
    ∧ (firstPassTag flv off d st).md.keyframes =
        (if isRecorded flv off then st.md.keyframes + 1 else st.md.keyframes) := by
  unfold firstPassTag isAudioVideo isRecorded
  simp only [FLV_AUDIODATA, FLV_VIDEODATA]
  by_cases ha : tagType flv off = 8
  · have h8 : (tagType flv off == 8) = true := by simpa using ha
    have h9 : (tagType flv off == 9) = false := by simp [ha]
    simp only [h8, h9, if_true, Bool.true_or, Bool.false_and]
    exact firstPassAudio_fields flv off d st
  · have h8 : (tagType flv off == 8) = false := by simpa using ha
    by_cases hv : tagType flv off = 9
    · have h9 : (tagType flv off == 9) = true := by simpa using hv
      simp only [h8, h9, if_true, Bool.false_or, Bool.true_and, Bool.false_eq_true, if_false]
      exact firstPassVideo_fields flv off d st
    · have h9 : (tagType flv off == 9) = false := by simpa using hv
      simp [h8, h9, sameFixed]

theorem avBytes_cons (flv : List Nat) (off : Nat) (walk : List Nat) :
    avBytes flv (off :: walk) =
      (if isAudioVideo flv off then footprintSize flv off else 0) + avBytes flv walk := by
  unfold avBytes
  by_cases h : isAudioVideo flv off = true
  · simp [List.filter_cons, h]
  · simp [List.filter_cons, h]

theorem firstPass_foldl (flv : List Nat) (walk : List Nat) :
    ∀ (st : FirstPassState) (n : Nat), st.md.datasize = Dbl.ofNat n →
      sameFixed
        (walk.foldl (fun st off => firstPassTag flv off (footprintSize flv off) st) st).md st.md
      ∧ (walk.foldl (fun st off => firstPassTag flv off (footprintSize flv off) st) st).md.datasize
          = Dbl.ofNat (n + avBytes flv walk)
      ∧ (walk.foldl (fun st off => firstPassTag flv off (footprintSize flv off) st) st).md.keyframes
          = st.md.keyframes + (walk.filter (isRecorded flv)).length := by
  induction walk with
  | nil => intro st n h; simp [avBytes, h, sameFixed]
  | cons off rest ih =>
    intro st n h
    obtain ⟨f1, f6, f7⟩ := firstPassTag_fields flv off (footprintSize flv off) st
    have hd : (firstPassTag flv off (footprintSize flv off) st).md.datasize =
        Dbl.ofNat (n + (if isAudioVideo flv off then footprintSize flv off else 0)) := by
      rw [f6, h]
      split
      · rw [Dbl.add_ofNat]
      · rfl
    obtain ⟨g1, g6, g7⟩ := ih _ _ hd
    simp only [List.foldl_cons]
    refine ⟨g1.trans f1, ?_, ?_⟩
    · rw [g6, avBytes_cons]
      congr 1
      omega
    · rw [g7, f7]
      by_cases hr : isRecorded flv off = true
      · simp [List.filter_cons, hr]; omega
      · simp [List.filter_cons, hr]

theorem firstPassFinish_fields (st : FirstPassState) :
    (firstPassFinish st).onmetadatalength = st.md.onmetadatalength
    ∧ (firstPassFinish st).metadatasize = st.md.metadatasize
    ∧ (firstPassFinish st).creator = st.md.creator
    ∧ (firstPassFinish st).metadatacreator = st.md.metadatacreator
    ∧ (firstPassFinish st).datasize = st.md.datasize
    ∧ (firstPassFinish st).keyframes = st.md.keyframes
    ∧ (firstPassFinish st).hasKeyframes = (if st.md.keyframes != 0 then 1 else st.md.hasKeyframes)
    ∧ (firstPassFinish st).filepositions =
        (if (if st.md.keyframes != 0 then 1 else st.md.hasKeyframes) == 1 then
          List.replicate st.md.keyframes (Dbl.ofNat 0) else st.md.filepositions)
    ∧ (firstPassFinish st).times =
        (if (if st.md.keyframes != 0 then 1 else st.md.hasKeyframes) == 1 then
          List.replicate st.md.keyframes (Dbl.ofNat 0) else st.md.times) := by
  unfold firstPassFinish
  simp only
  split <;> split <;> split <;> split <;> split <;> simp_all

/-- What pass 1 computes on a fresh summary: the stored sizes stay zero,
`datasize` is the number of bytes of the walked audio and video tags,
`keyframes` the number of walked tags that pass the keyframe test, and the two
arrays are allocated with `keyframes` zeros. -/
theorem readFLVFirstPass_init (flv : List Nat) (streampos filesize : Nat)
    (creator : Option (List Nat)) :
    (readFLVFirstPass flv streampos filesize (initFLVMetaData creator)).onmetadatalength = 0
    ∧ (readFLVFirstPass flv streampos filesize (initFLVMetaData creator)).metadatasize = 0
    ∧ (readFLVFirstPass flv streampos filesize (initFLVMetaData creator)).creator
        = (initFLVMetaData creator).creator
    ∧ (readFLVFirstPass flv streampos filesize (initFLVMetaData creator)).metadatacreator
        = (initFLVMetaData creator).metadatacreator
    ∧ (readFLVFirstPass flv streampos filesize (initFLVMetaData creator)).datasize
        = Dbl.ofNat (avBytes flv (specWalk flv streampos filesize))
    ∧ (readFLVFirstPass flv streampos filesize (initFLVMetaData creator)).keyframes
        = ((specWalk flv streampos filesize).filter (isRecorded flv)).length
    ∧ (readFLVFirstPass flv streampos filesize (initFLVMetaData creator)).hasKeyframes
        = (if ((specWalk flv streampos filesize).filter (isRecorded flv)).length = 0 then 0 else 1)
    ∧ (readFLVFirstPass flv streampos filesize (initFLVMetaData creator)).filepositions
        = List.replicate ((specWalk flv streampos filesize).filter (isRecorded flv)).length
            (Dbl.ofNat 0)
    ∧ (readFLVFirstPass flv streampos filesize (initFLVMetaData creator)).times
        = List.replicate ((specWalk flv streampos filesize).filter (isRecorded flv)).length
            (Dbl.ofNat 0) := by
  have hf := firstPass_foldl flv (specWalk flv streampos filesize)
    { md := initFLVMetaData creator, videosize := 0, audiosize := 0, videotags := 0,
      audiotags := 0 } 0 rfl
  obtain ⟨⟨f1, f2, f3, f4, f5, f8, f9⟩, f6, f7⟩ := hf
  have hmd : readFLVFirstPass flv streampos filesize (initFLVMetaData creator)
      = firstPassFinish ((specWalk flv streampos filesize).foldl
          (fun st off => firstPassTag flv off (footprintSize flv off) st)
          { md := initFLVMetaData creator, videosize := 0, audiosize := 0, videotags := 0,
            audiotags := 0 }) := by
    rw [readFLVFirstPass, readFLVFirstPassLoop_eq_walk]
    rfl
  obtain ⟨e1, e2, e3, e4, e5, e6, e7, e8, e9⟩ := firstPassFinish_fields
    ((specWalk flv streampos filesize).foldl
      (fun st off => firstPassTag flv off (footprintSize flv off) st)
      { md := initFLVMetaData creator, videosize := 0, audiosize := 0, videotags := 0,
        audiotags := 0 })
  have hk : ((specWalk flv streampos filesize).foldl
      (fun st off => firstPassTag flv off (footprintSize flv off) st)
      { md := initFLVMetaData creator, videosize := 0, audiosize := 0, videotags := 0,
        audiotags := 0 }).md.keyframes
      = ((specWalk flv streampos filesize).filter (isRecorded flv)).length := by
    rw [f7]; simp [initFLVMetaData]
  rw [hmd]
  refine ⟨e1.trans f1, e2.trans f2, e3.trans f3, e4.trans f4, ?_, e6.trans hk, ?_, ?_, ?_⟩
  · rw [e5, f6]; simp
  · rw [e7, hk, f5]
    by_cases h0 : ((specWalk flv streampos filesize).filter (isRecorded flv)).length = 0
    · simp [h0, initFLVMetaData]
    · simp [h0]
  · rw [e8, hk, f5, f8]
    by_cases h0 : ((specWalk flv streampos filesize).filter (isRecorded flv)).length = 0
    · simp [h0, initFLVMetaData]
    · simp [h0]
  · rw [e9, hk, f5, f9]
    by_cases h0 : ((specWalk flv streampos filesize).filter (isRecorded flv)).length = 0
    · simp [h0, initFLVMetaData]
    · simp [h0]

/-! ## Pass 2 as a fold over the walked tags -/

theorem specKeyframeIndex_length (flv : List Nat) (walk : List Nat) :
    ∀ d, (specKeyframeIndex flv walk d).length = (walk.filter (isRecorded flv)).length := by
  induction walk with
  | nil => intro d; rfl
  | cons off rest ih =>
    intro d
    by_cases h : isRecorded flv off = true
    · have h' : (tagType flv off == 9 && keyframeTest (tagFlags flv off)) = true := h
      simp [specKeyframeIndex, List.filter_cons, h, h', ih]
    · have h' : (tagType flv off == 9 && keyframeTest (tagFlags flv off)) = false := by
        simpa [isRecorded] using h
      simp only [specKeyframeIndex, List.filter_cons, h, h', ih]
      simpa using ih _

theorem specKeyframeIndex_fst (flv : List Nat) (walk : List Nat) :
    ∀ d, (specKeyframeIndex flv walk d).map Prod.fst = walk.filter (isRecorded flv) := by
  induction walk with
  | nil => intro d; rfl
  | cons off rest ih =>
    intro d
    by_cases h : isRecorded flv off = true
    · have h' : (tagType flv off == 9 && keyframeTest (tagFlags flv off)) = true := h
      simp [specKeyframeIndex, List.filter_cons, h, h', ih]
    · have h' : (tagType flv off == 9 && keyframeTest (tagFlags flv off)) = false := by
        simpa [isRecorded] using h
      simp only [specKeyframeIndex, List.filter_cons, h, h', ih]
      simpa using ih _

/-- One iteration of pass 2 assigns only the two arrays. -/
theorem secondPassTag_frame (flv : List Nat) (off d : Nat) (st : SecondPassState) :
    (secondPassTag flv off d st).md =
      { st.md with filepositions := (secondPassTag flv off d st).md.filepositions,
                   times := (secondPassTag flv off d st).md.times } := by
  unfold secondPassTag
  simp only
  split <;> split <;> (try split) <;> rfl

theorem secondPass_foldl_frame (flv : List Nat) (walk : List Nat) :
    ∀ st : SecondPassState,
      (walk.foldl (fun st off => secondPassTag flv off (footprintSize flv off) st) st).md =
        { st.md with
          filepositions := (walk.foldl
            (fun st off => secondPassTag flv off (footprintSize flv off) st) st).md.filepositions,
          times := (walk.foldl
            (fun st off => secondPassTag flv off (footprintSize flv off) st) st).md.times } := by
  induction walk with
  | nil => intro st; rfl
  | cons off rest ih =>
    intro st
    simp only [List.foldl_cons]
    rw [ih, secondPassTag_frame]

theorem secondPassTag_step (flv : List Nat) (off d : Nat) (st : SecondPassState) :
    (secondPassTag flv off d st).md.filepositions =
        (if isRecorded flv off then st.md.filepositions.set st.i (Dbl.ofNat st.datapos)
          else st.md.filepositions)
    ∧ (secondPassTag flv off d st).md.times =
        (if isRecorded flv off then st.md.times.set st.i (tagSeconds flv off) else st.md.times)
    ∧ (secondPassTag flv off d st).i = (if isRecorded flv off then st.i + 1 else st.i)
    ∧ (secondPassTag flv off d st).datapos =
        (if isAudioVideo flv off then st.datapos + d else st.datapos) := by
  unfold secondPassTag isRecorded isAudioVideo tagSeconds
  simp only [FLV_VIDEODATA, FLV_AUDIODATA]
  by_cases hv : tagType flv off = 9
  · have h9 : (tagType flv off == 9) = true := by simpa using hv
    simp only [h9, if_true, Bool.true_and, Bool.true_or, Bool.or_true]
    split <;> simp
  · have h9 : (tagType flv off == 9) = false := by simpa using hv
    simp only [h9, Bool.false_and, Bool.false_or, Bool.or_false, Bool.false_eq_true, if_false]
    split <;> simp

/-- The arrays after the loop of pass 2: the slots from `i` on receive the
records of the keyframe index, all other slots are unchanged. -/
theorem secondPass_foldl_arrays (flv : List Nat) (walk : List Nat) :
    ∀ st : SecondPassState,
      st.i + (specKeyframeIndex flv walk st.datapos).length ≤ st.md.filepositions.length →
      st.i + (specKeyframeIndex flv walk st.datapos).length ≤ st.md.times.length →
      ∀ j,
        (walk.foldl (fun st off => secondPassTag flv off (footprintSize flv off) st)
            st).md.filepositions[j]? =
          (if st.i ≤ j ∧ j < st.i + (specKeyframeIndex flv walk st.datapos).length then
            ((specKeyframeIndex flv walk st.datapos)[j - st.i]?).map (fun r => Dbl.ofNat r.2)
          else st.md.filepositions[j]?)
        ∧ (walk.foldl (fun st off => secondPassTag flv off (footprintSize flv off) st)
            st).md.times[j]? =
          (if st.i ≤ j ∧ j < st.i + (specKeyframeIndex flv walk st.datapos).length then
            ((specKeyframeIndex flv walk st.datapos)[j - st.i]?).map (fun r => tagSeconds flv r.1)
          else st.md.times[j]?) := by
  induction walk with
  | nil =>
    intro st _ _ j
    have : ¬ (st.i ≤ j ∧ j < st.i) := by omega
    simp [specKeyframeIndex, this]
  | cons off rest ih =>
    intro st h₁ h₂ j
    simp only [List.foldl_cons]
    obtain ⟨s1, s2, s3, s4⟩ := secondPassTag_step flv off (footprintSize flv off) st
    by_cases hr : isRecorded flv off = true
    · have hr' : (tagType flv off == 9 && keyframeTest (tagFlags flv off)) = true := hr
      simp only [hr, if_true] at s1 s2 s3
      simp only [specKeyframeIndex, hr', if_true, List.singleton_append, List.length_cons] at h₁ h₂ ⊢
      have := ih (secondPassTag flv off (footprintSize flv off) st)
        (by rw [s1, s3, s4, List.length_set]; omega) (by rw [s2, s3, s4, List.length_set]; omega) j
      rw [this.1, this.2, s1, s2, s3, s4]
      by_cases hj : j = st.i
      · subst hj
        have c1 : ¬ (st.i + 1 ≤ st.i ∧ st.i < st.i + 1 + (specKeyframeIndex flv rest
            (if isAudioVideo flv off then st.datapos + footprintSize flv off
              else st.datapos)).length) := by omega
        have c2 : st.i ≤ st.i ∧ st.i < st.i + ((specKeyframeIndex flv rest
            (if isAudioVideo flv off then st.datapos + footprintSize flv off
              else st.datapos)).length + 1) := by omega
        have l1 : st.i < st.md.filepositions.length := by omega
        have l2 : st.i < st.md.times.length := by omega
        simp [c1, c2, List.getElem?_set, l1, l2]
      · by_cases hin : st.i + 1 ≤ j ∧ j < st.i + 1 + (specKeyframeIndex flv rest
            (if isAudioVideo flv off then st.datapos + footprintSize flv off
              else st.datapos)).length
        · have c2 : st.i ≤ j ∧ j < st.i + ((specKeyframeIndex flv rest
              (if isAudioVideo flv off then st.datapos + footprintSize flv off
                else st.datapos)).length + 1) := by omega
          have e : j - st.i = (j - (st.i + 1)) + 1 := by omega
          simp only [hin, c2, and_self, if_true, e, List.getElem?_cons_succ]
        · have c2 : ¬ (st.i ≤ j ∧ j < st.i + ((specKeyframeIndex flv rest
              (if isAudioVideo flv off then st.datapos + footprintSize flv off
                else st.datapos)).length + 1)) := by omega
          have hne : ¬ st.i = j := fun h => hj h.symm
          simp [hin, c2, List.getElem?_set, hne]
    · have hr' : (tagType flv off == 9 && keyframeTest (tagFlags flv off)) = false := by
        simpa [isRecorded] using hr
      have hr2 : isRecorded flv off = false := by simpa using hr
      simp only [hr2, Bool.false_eq_true, if_false] at s1 s2 s3
      simp only [specKeyframeIndex, hr', List.nil_append, Bool.false_eq_true, if_false] at h₁ h₂ ⊢
      have := ih (secondPassTag flv off (footprintSize flv off) st)
        (by rw [s1, s3, s4]; exact h₁) (by rw [s2, s3, s4]; exact h₂) j
      rw [s1, s2, s3, s4] at this
      exact this


/-! ## The two calls of `writeFLVMetaData` -/

theorem payloadSize_congr {a b : FLVMetaData} (h1 : a.creator = b.creator)
    (h2 : a.metadatacreator = b.metadatacreator) (h3 : a.hasVideo = b.hasVideo)
    (h4 : a.width = b.width) (h5 : a.height = b.height) (h6 : a.hasAudio = b.hasAudio)
    (h7 : a.hasKeyframes = b.hasKeyframes) (h8 : a.keyframes = b.keyframes) :
    payloadSize a = payloadSize b := by
  simp only [payloadSize, h1, h2, h3, h4, h5, h6, h7, h8]

theorem entryCount_congr {a b : FLVMetaData} (h1 : a.creator = b.creator)
    (h3 : a.hasVideo = b.hasVideo)
    (h4 : a.width = b.width) (h5 : a.height = b.height) (h6 : a.hasAudio = b.hasAudio)
    (h7 : a.hasKeyframes = b.hasKeyframes) :
    entryCount a = entryCount b := by
  simp only [entryCount, h1, h3, h4, h5, h6, h7]

theorem writeFLVPreviousTagSize_out (n : Nat) : (writeFLVPreviousTagSize n).out = beBytes 4 n := by
  simp [writeFLVPreviousTagSize, fwrite, beBytes_four]

/-- Both calls of `writeFLVMetaData` return `11 + payloadSize md + 4`. -/
theorem writeFLVMetaData_ret (dc : Dbl → Nat → Nat) (md : FLVMetaData) :
    (writeFLVMetaData dc md).ret = 11 + payloadSize md + 4 := by
  unfold writeFLVMetaData
  simp only
  split
  · simp only [metadataFinish, metadataPass_datasize, writeFLVPreviousTagSize]
    rfl
  · simp only [metadataFinish, metadataPass_datasize, writeFLVPreviousTagSize]

/-- The summary after `writeFLVMetaData`: the count is stored when it was
zero, and the payload size is stored. -/
theorem writeFLVMetaData_md (dc : Dbl → Nat → Nat) (md : FLVMetaData) :
    (writeFLVMetaData dc md).md =
      { md with
        onmetadatalength := (if md.onmetadatalength == 0 then entryCount md
          else md.onmetadatalength),
        metadatasize := payloadSize md } := by
  unfold writeFLVMetaData
  simp only
  split
  · rename_i h
    simp only [metadataFinish, metadataPass_datasize, metadataPass_length, sizeofFLVTag, h,
      if_true, Nat.add_sub_cancel_left, Nat.zero_add]
    rfl
  · rename_i h
    simp only [metadataFinish, metadataPass_datasize, sizeofFLVTag, h,
      Nat.add_sub_cancel_left]

/-- A call of `writeFLVMetaData` with a nonzero count writes one tag: the
bytes of one pass and the previous-tag-size. -/
theorem writeFLVMetaData_out (dc : Dbl → Nat → Nat) (md : FLVMetaData)
    (h : md.onmetadatalength ≠ 0) :
    (writeFLVMetaData dc md).out =
      (metadataPass dc md (metadataTagHeader md) 0).out ++ beBytes 4 (11 + payloadSize md) := by
  have h' : (md.onmetadatalength == 0) = false := by simpa using h
  unfold writeFLVMetaData
  simp only [h', Bool.false_eq_true, if_false, metadataFinish, metadataPass_datasize,
    writeFLVPreviousTagSize_out, List.nil_append]

theorem writeFLVMetaData_out_length (dc : Dbl → Nat → Nat) (md : FLVMetaData)
    (h : md.onmetadatalength ≠ 0) :
    (writeFLVMetaData dc md).out.length = 11 + payloadSize md + 4 := by
  rw [writeFLVMetaData_out dc md h, List.length_append, metadataPass_out_length]
  simp [beBytes]

/-! ## The correction loop of `main` -/

theorem shiftFilepositions_succ (bias k : Nat) (fp : List Dbl) :
    shiftFilepositions bias (k + 1) fp =
      (shiftFilepositions bias k fp).set k
        (Dbl.add ((shiftFilepositions bias k fp).getD k (Dbl.ofNat 0)) (Dbl.ofNat bias)) := by
  simp [shiftFilepositions, List.range_succ, List.foldl_append]

theorem shiftFilepositions_getElem? (bias : Nat) (fp : List Dbl) :
    ∀ k, k ≤ fp.length → (shiftFilepositions bias k fp).length = fp.length ∧ ∀ j,
      (shiftFilepositions bias k fp)[j]? =
        (if j < k then (fp[j]?).map (fun v => Dbl.add v (Dbl.ofNat bias)) else fp[j]?) := by
  intro k
  induction k with
  | zero => intro _; simp [shiftFilepositions]
  | succ k ih =>
    intro hk
    obtain ⟨hl, hj⟩ := ih (by omega)
    rw [shiftFilepositions_succ]
    refine ⟨by rw [List.length_set, hl], ?_⟩
    intro j
    have hkk : (shiftFilepositions bias k fp).getD k (Dbl.ofNat 0) = fp[k] := by
      have := hj k
      simp only [lt_irrefl, if_false] at this
      rw [List.getD_eq_getElem?_getD, this]
      simp [List.getElem?_eq_getElem (show k < fp.length by omega)]
    rw [List.getElem?_set, hkk]
    by_cases e : k = j
    · subst e
      have : k < fp.length := by omega
      simp [hl, this]
    · rw [if_neg e, hj j]
      by_cases lt : j < k
      · rw [if_pos lt, if_pos (show j < k + 1 by omega)]
      · rw [if_neg lt, if_neg (show ¬ j < k + 1 by omega)]

theorem shiftFilepositions_eq_map (bias : Nat) (fp : List Dbl) :
    shiftFilepositions bias fp.length fp = fp.map (fun v => Dbl.add v (Dbl.ofNat bias)) := by
  obtain ⟨_, hj⟩ := shiftFilepositions_getElem? bias fp fp.length (le_refl _)
  apply List.ext_getElem?
  intro j
  rw [hj j, List.getElem?_map]
  by_cases lt : j < fp.length
  · simp [lt]
  · simp [lt, List.getElem?_eq_none (show fp.length ≤ j by omega)]


/-! ## The summary that `main` hands to `writeFLV` -/

theorem readFLVSecondPass_eq (flv : List Nat) (streampos filesize : Nat) (md : FLVMetaData)
    (hk : md.keyframes = ((specWalk flv streampos filesize).filter (isRecorded flv)).length)
    (hfp : md.filepositions = List.replicate md.keyframes (Dbl.ofNat 0))
    (htm : md.times = List.replicate md.keyframes (Dbl.ofNat 0)) :
    readFLVSecondPass flv streampos filesize md =
      { md with
        filepositions :=
          (specKeyframeIndex flv (specWalk flv streampos filesize) 0).map (fun r => Dbl.ofNat r.2),
        times :=
          (specKeyframeIndex flv (specWalk flv streampos filesize) 0).map
            (fun r => tagSeconds flv r.1) } := by
  have hlen := specKeyframeIndex_length flv (specWalk flv streampos filesize) 0
  unfold readFLVSecondPass
  split
  · rename_i h0
    have h0' : md.keyframes = 0 := by simpa using h0
    have hnil : specKeyframeIndex flv (specWalk flv streampos filesize) 0 = [] := by
      apply List.eq_nil_of_length_eq_zero
      rw [hlen, ← hk, h0']
    rw [hnil]
    have e1 : md.filepositions = [] := by rw [hfp, h0']; rfl
    have e2 : md.times = [] := by rw [htm, h0']; rfl
    simp only [List.map_nil]
    calc md = { md with filepositions := md.filepositions, times := md.times } := rfl
      _ = { md with filepositions := [], times := [] } := by rw [e1, e2]
  · rw [readFLVSecondPassLoop_eq_walk]
    have hw : specWalkFrom filesize flv streampos filesize = specWalk flv streampos filesize := rfl
    rw [hw, secondPass_foldl_frame]
    have harr := secondPass_foldl_arrays flv (specWalk flv streampos filesize)
      { md := md, i := 0, datapos := 0 }
      (by simp only [Nat.zero_add]; rw [hlen, hfp, List.length_replicate, hk])
      (by simp only [Nat.zero_add]; rw [hlen, htm, List.length_replicate, hk])
    simp only [Nat.zero_add, Nat.zero_le, true_and, Nat.sub_zero] at harr
    have f1 : ((specWalk flv streampos filesize).foldl
        (fun st off => secondPassTag flv off (footprintSize flv off) st)
        { md := md, i := 0, datapos := 0 }).md.filepositions =
        (specKeyframeIndex flv (specWalk flv streampos filesize) 0).map (fun r => Dbl.ofNat r.2) := by
      apply List.ext_getElem?
      intro j
      rw [(harr j).1, List.getElem?_map]
      by_cases lt : j < (specKeyframeIndex flv (specWalk flv streampos filesize) 0).length
      · simp [lt]
      · have : md.filepositions[j]? = none := by
          apply List.getElem?_eq_none
          rw [hfp, List.length_replicate, hk, ← hlen]; omega
        have hn : (specKeyframeIndex flv (specWalk flv streampos filesize) 0)[j]? = none :=
          List.getElem?_eq_none (by omega)
        simp [lt, this, hn]
    have f2 : ((specWalk flv streampos filesize).foldl
        (fun st off => secondPassTag flv off (footprintSize flv off) st)
        { md := md, i := 0, datapos := 0 }).md.times =
        (specKeyframeIndex flv (specWalk flv streampos filesize) 0).map
          (fun r => tagSeconds flv r.1) := by
      apply List.ext_getElem?
      intro j
      rw [(harr j).2, List.getElem?_map]
      by_cases lt : j < (specKeyframeIndex flv (specWalk flv streampos filesize) 0).length
      · simp [lt]
      · have : md.times[j]? = none := by
          apply List.getElem?_eq_none
          rw [htm, List.length_replicate, hk, ← hlen]; omega
        have hn : (specKeyframeIndex flv (specWalk flv streampos filesize) 0)[j]? = none :=
          List.getElem?_eq_none (by omega)
        simp [lt, this, hn]
    rw [f1, f2]


/-- The facts about the summary after pass 1 in `main`. -/
theorem firstSummary_facts (flv : List Nat) (creator : Option (List Nat)) :
    (firstSummary flv creator).onmetadatalength = 0
    ∧ (firstSummary flv creator).metadatasize = 0
    ∧ (firstSummary flv creator).creator = (initFLVMetaData creator).creator
    ∧ (firstSummary flv creator).metadatacreator = (initFLVMetaData creator).metadatacreator
    ∧ (firstSummary flv creator).datasize = Dbl.ofNat (avBytes flv (mainWalk flv))
    ∧ (firstSummary flv creator).keyframes = (specKeyframeIndex flv (mainWalk flv) 0).length
    ∧ (firstSummary flv creator).hasKeyframes
        = (if (specKeyframeIndex flv (mainWalk flv) 0).length = 0 then 0 else 1)
    ∧ (firstSummary flv creator).filepositions
        = List.replicate (specKeyframeIndex flv (mainWalk flv) 0).length (Dbl.ofNat 0)
    ∧ (firstSummary flv creator).times
        = List.replicate (specKeyframeIndex flv (mainWalk flv) 0).length (Dbl.ofNat 0) := by
  have h := readFLVFirstPass_init flv (mainStreampos flv) flv.length creator
  rw [← specKeyframeIndex_length flv (specWalk flv (mainStreampos flv) flv.length) 0] at h
  exact h

/-- The keyframe block of `main` on a summary whose arrays are allocated for
the recorded tags of the walk: the arrays become the keyframe index, the
positions shifted by `bias`. -/
theorem indexKeyframes_eq (flv : List Nat) (streampos filesize metadatasize : Nat)
    (md : FLVMetaData)
    (hk : md.keyframes = (specKeyframeIndex flv (specWalk flv streampos filesize) 0).length)
    (hh : md.hasKeyframes =
      (if (specKeyframeIndex flv (specWalk flv streampos filesize) 0).length = 0 then 0 else 1))
    (hfp : md.filepositions = List.replicate md.keyframes (Dbl.ofNat 0))
    (htm : md.times = List.replicate md.keyframes (Dbl.ofNat 0)) :
    indexKeyframes flv streampos filesize metadatasize md =
      { md with
        filepositions := (specKeyframeIndex flv (specWalk flv streampos filesize) 0).map
          (fun r => Dbl.ofNat (9 + 4 + metadatasize + r.2)),
        times := (specKeyframeIndex flv (specWalk flv streampos filesize) 0).map
          (fun r => tagSeconds flv r.1),
        lastkeyframelocation :=
          (if (specKeyframeIndex flv (specWalk flv streampos filesize) 0).length = 0 then
            md.lastkeyframelocation
          else ((specKeyframeIndex flv (specWalk flv streampos filesize) 0).map
            (fun r => Dbl.ofNat (9 + 4 + metadatasize + r.2))).getD
              ((specKeyframeIndex flv (specWalk flv streampos filesize) 0).length - 1)
              (Dbl.ofNat 0)) } := by
  have hk' : md.keyframes = ((specWalk flv streampos filesize).filter (isRecorded flv)).length := by
    rw [hk, specKeyframeIndex_length]
  unfold indexKeyframes
  by_cases h0 : (specKeyframeIndex flv (specWalk flv streampos filesize) 0).length = 0
  · have hkf : (md.hasKeyframes == 1) = false := by rw [hh, if_pos h0]; rfl
    have hnil : specKeyframeIndex flv (specWalk flv streampos filesize) 0 = [] :=
      List.eq_nil_of_length_eq_zero h0
    rw [if_neg (by simp [hkf])]
    have e1 : md.filepositions = [] := by rw [hfp, hk, h0]; rfl
    have e2 : md.times = [] := by rw [htm, hk, h0]; rfl
    apply FLVMetaData.ext <;> simp [hnil, e1, e2]
  · have hkf : (md.hasKeyframes == 1) = true := by rw [hh, if_neg h0]; rfl
    rw [if_pos hkf, readFLVSecondPass_eq flv streampos filesize md hk' hfp htm]
    simp only [sizeofFLVFileHeader]
    have hs : shiftFilepositions (9 + 4 + metadatasize) md.keyframes
        ((specKeyframeIndex flv (specWalk flv streampos filesize) 0).map (fun r => Dbl.ofNat r.2))
        = (specKeyframeIndex flv (specWalk flv streampos filesize) 0).map
            (fun r => Dbl.ofNat (9 + 4 + metadatasize + r.2)) := by
      have hl : md.keyframes =
          ((specKeyframeIndex flv (specWalk flv streampos filesize) 0).map
            (fun r => Dbl.ofNat r.2)).length := by
        rw [List.length_map, hk]
      rw [hl, shiftFilepositions_eq_map, List.map_map]
      apply List.map_congr_left
      intro r _
      simp only [Function.comp, Dbl.add_ofNat]
      congr 1
      omega
    rw [hs, hk]
    apply FLVMetaData.ext <;> simp [h0]

/-- The summary with which `main` calls `writeFLV`: the summary of pass 1 with
the stored count and payload size, the shifted keyframe index, and the file
size. -/
theorem mainSummary_eq (dc : Dbl → Nat → Nat) (flv : List Nat) (creator : Option (List Nat)) :
    mainSummary dc flv creator =
      ({ firstSummary flv creator with
          onmetadatalength := entryCount (firstSummary flv creator),
          metadatasize := payloadSize (firstSummary flv creator),
          filepositions := (specKeyframeIndex flv (mainWalk flv) 0).map
            (fun r => Dbl.ofNat (mainBias flv creator + r.2)),
          times := (specKeyframeIndex flv (mainWalk flv) 0).map (fun r => tagSeconds flv r.1),
          lastkeyframelocation :=
            (if (specKeyframeIndex flv (mainWalk flv) 0).length = 0 then
              (firstSummary flv creator).lastkeyframelocation
            else ((specKeyframeIndex flv (mainWalk flv) 0).map
              (fun r => Dbl.ofNat (mainBias flv creator + r.2))).getD
                ((specKeyframeIndex flv (mainWalk flv) 0).length - 1) (Dbl.ofNat 0)),
          filesize := Dbl.ofNat (mainBias flv creator + avBytes flv (mainWalk flv)) },
        mainStreampos flv, 11 + payloadSize (firstSummary flv creator) + 4) := by
  obtain ⟨a1, a2, a3, a4, a5, a6, a7, a8, a9⟩ := firstSummary_facts flv creator
  have hmd : (writeFLVMetaData dc (firstSummary flv creator)).md =
      { firstSummary flv creator with
        onmetadatalength := entryCount (firstSummary flv creator),
        metadatasize := payloadSize (firstSummary flv creator) } := by
    rw [writeFLVMetaData_md, a1]
    rfl
  have hret := writeFLVMetaData_ret dc (firstSummary flv creator)
  have hi := indexKeyframes_eq flv (mainStreampos flv) flv.length
    (11 + payloadSize (firstSummary flv creator) + 4)
    { firstSummary flv creator with
      onmetadatalength := entryCount (firstSummary flv creator),
      metadatasize := payloadSize (firstSummary flv creator) }
    a6 a7 (by simp only; rw [a8, a6]) (by simp only; rw [a9, a6])
  unfold mainSummary
  simp only
  rw [show readFLVFirstPass flv (mainStreampos flv) flv.length (initFLVMetaData creator)
    = firstSummary flv creator from rfl, hmd, hret, hi]
  refine Prod.ext ?_ rfl
  apply FLVMetaData.ext <;>
    simp [mainWalk, mainBias, a5, Dbl.add_ofNat, sizeofFLVFileHeader]


/-! ## The copied tags -/

/-- Every walked tag lies inside the first `filesize` bytes. -/
theorem specWalkFrom_bound (flv : List Nat) (filesize : Nat) :
    ∀ (fuel streampos off : Nat), off ∈ specWalkFrom fuel flv streampos filesize →
      off + footprintSize flv off ≤ filesize := by
  intro fuel
  induction fuel with
  | zero => intro s off h; simp [specWalkFrom] at h
  | succ n ih =>
    intro s off h
    by_cases hc : s + 11 ≤ filesize ∧ s + (11 + tagDataSize flv s + 4) ≤ filesize
    · simp only [specWalkFrom, hc, and_self, if_true, List.mem_cons] at h
      rcases h with h | h
      · subst h; exact hc.2
      · exact ih _ _ h
    · simp [specWalkFrom, hc] at h

theorem slice_length (flv : List Nat) (off n : Nat) (h : off + n ≤ flv.length) :
    (slice flv off n).length = n := by
  simp only [slice, List.length_take, List.length_drop]
  omega

theorem footprint_length (flv : List Nat) (off : Nat)
    (h : off + footprintSize flv off ≤ flv.length) :
    (footprint flv off).length = footprintSize flv off :=
  slice_length flv off _ h

theorem copied_cons (flv : List Nat) (off : Nat) (walk : List Nat) :
    copied flv (off :: walk) =
      (if isAudioVideo flv off then footprint flv off else []) ++ copied flv walk := by
  unfold copied
  by_cases h : isAudioVideo flv off = true
  · simp [List.filter_cons, h]
  · simp [List.filter_cons, h]

/-- The copy loop writes `avBytes` bytes when all walked tags lie inside the
buffer. -/
theorem copied_length (flv : List Nat) (walk : List Nat)
    (hb : ∀ off ∈ walk, off + footprintSize flv off ≤ flv.length) :
    (copied flv walk).length = avBytes flv walk := by
  induction walk with
  | nil => rfl
  | cons off rest ih =>
    rw [copied_cons, avBytes_cons, List.length_append,
      ih (fun o ho => hb o (List.mem_cons_of_mem _ ho))]
    by_cases h : isAudioVideo flv off = true
    · simp only [h, if_true]
      rw [footprint_length flv off (hb off (List.mem_cons_self _ _))]
    · simp [h]

theorem isAudioVideo_of_isRecorded {flv : List Nat} {off : Nat} (h : isRecorded flv off = true) :
    isAudioVideo flv off = true := by
  simp only [isRecorded, Bool.and_eq_true, beq_iff_eq] at h
  simp [isAudioVideo, h.1]

/-- Every record of the keyframe index points at the footprint of its tag
among the copied bytes: the tag is a video tag, and `out_data_pos` is the number
of copied bytes that precede its footprint. -/
theorem specKeyframeIndex_position (flv : List Nat) (walk : List Nat)
    (hb : ∀ off ∈ walk, off + footprintSize flv off ≤ flv.length) :
    ∀ (d : Nat) (r : Nat × Nat), r ∈ specKeyframeIndex flv walk d →
      r.1 ∈ walk ∧ isRecorded flv r.1 = true ∧ d ≤ r.2 ∧
        ∃ pre post, copied flv walk = pre ++ footprint flv r.1 ++ post ∧
          pre.length = r.2 - d := by
  induction walk with
  | nil => intro d r h; simp [specKeyframeIndex] at h
  | cons off rest ih =>
    intro d r h
    have hb' : ∀ o ∈ rest, o + footprintSize flv o ≤ flv.length :=
      fun o ho => hb o (List.mem_cons_of_mem _ ho)
    simp only [specKeyframeIndex, List.mem_append] at h
    rcases h with h | h
    · by_cases hr : (tagType flv off == 9 && keyframeTest (tagFlags flv off)) = true
      · simp only [hr, if_true, List.mem_singleton] at h
        subst h
        have hav : isAudioVideo flv off = true := isAudioVideo_of_isRecorded hr
        refine ⟨List.mem_cons_self _ _, hr, le_refl _, [], copied flv rest, ?_, by simp⟩
        rw [copied_cons, hav]
        simp
      · simp [hr] at h
    · obtain ⟨m, hrec, hle, pre, post, hc, hl⟩ := ih hb' _ r h
      refine ⟨List.mem_cons_of_mem _ m, hrec, ?_, ?_⟩
      · split at hle <;> omega
      · by_cases hav : isAudioVideo flv off = true
        · simp only [hav, if_true] at hle hl
          refine ⟨footprint flv off ++ pre, post, ?_, ?_⟩
          · rw [copied_cons, hav, hc]; simp
          · rw [List.length_append, footprint_length flv off (hb off (List.mem_cons_self _ _)), hl]
            omega
        · simp only [hav, Bool.false_eq_true, if_false] at hle hl
          refine ⟨pre, post, ?_, hl⟩
          rw [copied_cons, hc]; simp [hav]

theorem writeFLVLoop_eq_copied (flv : List Nat) (streampos filesize : Nat) :
    writeFLVLoop filesize flv streampos filesize = copied flv (specWalk flv streampos filesize) :=
  writeFLVLoop_eq_walk flv filesize filesize streampos

theorem writeFLVHeader_length (md : FLVMetaData) : (writeFLVHeader md).length = 13 := by
  simp [writeFLVHeader, fwrite, writeFLVPreviousTagSize, sizeofFLVFileHeader]


theorem entryCount_pos (md : FLVMetaData) : 10 ≤ entryCount md := by
  unfold entryCount
  omega

theorem writeFLVMetaData_onmetadatalength_ne (dc : Dbl → Nat → Nat) (md : FLVMetaData) :
    (writeFLVMetaData dc md).md.onmetadatalength ≠ 0 := by
  rw [writeFLVMetaData_md]
  simp only
  split
  · have := entryCount_pos md; omega
  · rename_i h; simpa using h


/-! ## The output of `main` -/

theorem mainSummary_payloadSize (dc : Dbl → Nat → Nat) (flv : List Nat)
    (creator : Option (List Nat)) :
    payloadSize (mainSummary dc flv creator).1 = payloadSize (firstSummary flv creator) := by
  rw [mainSummary_eq]
  exact payloadSize_congr rfl rfl rfl rfl rfl rfl rfl rfl

theorem mainSummary_entryCount (dc : Dbl → Nat → Nat) (flv : List Nat)
    (creator : Option (List Nat)) :
    entryCount (mainSummary dc flv creator).1 = entryCount (firstSummary flv creator) := by
  rw [mainSummary_eq]
  exact entryCount_congr rfl rfl rfl rfl rfl rfl

theorem mainSummary_onmetadatalength (dc : Dbl → Nat → Nat) (flv : List Nat)
    (creator : Option (List Nat)) :
    (mainSummary dc flv creator).1.onmetadatalength = entryCount (mainSummary dc flv creator).1 := by
  rw [mainSummary_entryCount, mainSummary_eq]

theorem mainSummary_metadatasize (dc : Dbl → Nat → Nat) (flv : List Nat)
    (creator : Option (List Nat)) :
    (mainSummary dc flv creator).1.metadatasize = payloadSize (mainSummary dc flv creator).1 := by
  rw [mainSummary_payloadSize, mainSummary_eq]

theorem mainSummary_streampos (dc : Dbl → Nat → Nat) (flv : List Nat)
    (creator : Option (List Nat)) :
    (mainSummary dc flv creator).2.1 = mainStreampos flv := by
  rw [mainSummary_eq]

theorem initFLVMetaData_creator_length (creator : Option (List Nat)) :
    (initFLVMetaData creator).creator.length ≤ 256 := by
  cases creator with
  | none => simp [initFLVMetaData]
  | some c => simp [initFLVMetaData]

theorem initFLVMetaData_metadatacreator_length (creator : Option (List Nat)) :
    (initFLVMetaData creator).metadatacreator.length ≤ 256 := by
  simp [initFLVMetaData]

theorem mainSummary_strings (dc : Dbl → Nat → Nat) (flv : List Nat)
    (creator : Option (List Nat)) :
    (mainSummary dc flv creator).1.creator.length ≤ 256
    ∧ (mainSummary dc flv creator).1.metadatacreator.length ≤ 256 := by
  obtain ⟨_, _, a3, a4, _⟩ := firstSummary_facts flv creator
  rw [mainSummary_eq]
  simp only
  rw [a3, a4]
  exact ⟨initFLVMetaData_creator_length creator, initFLVMetaData_metadatacreator_length creator⟩

/-- The script-data tag in the output is one pass and the previous-tag-size. -/
theorem realTag_eq (dc : Dbl → Nat → Nat) (flv : List Nat) (creator : Option (List Nat)) :
    realTag dc flv creator =
      (metadataPass dc (mainSummary dc flv creator).1
          (metadataTagHeader (mainSummary dc flv creator).1) 0).out
        ++ beBytes 4 (11 + payloadSize (mainSummary dc flv creator).1) := by
  unfold realTag
  apply writeFLVMetaData_out
  rw [mainSummary_onmetadatalength]
  have := entryCount_pos (mainSummary dc flv creator).1
  omega

theorem realTag_length (dc : Dbl → Nat → Nat) (flv : List Nat) (creator : Option (List Nat)) :
    (realTag dc flv creator).length = 11 + payloadSize (mainSummary dc flv creator).1 + 4 := by
  rw [realTag_eq, List.length_append, metadataPass_out_length]
  simp [beBytes]

/-- The output of `main`: file header, script-data tag, copied tags. -/
theorem mainOutput_eq (dc : Dbl → Nat → Nat) (flv : List Nat) (creator : Option (List Nat)) :
    mainOutput dc flv creator =
      writeFLVHeader (mainSummary dc flv creator).1 ++ realTag dc flv creator
        ++ copied flv (mainWalk flv) := by
  unfold mainOutput writeFLV
  rw [writeFLVLoop_eq_copied, mainSummary_streampos]
  rfl

theorem mainWalk_bound (flv : List Nat) :
    ∀ off ∈ mainWalk flv, off + footprintSize flv off ≤ flv.length :=
  fun off h => specWalkFrom_bound flv flv.length _ _ off h

theorem mainOutput_length (dc : Dbl → Nat → Nat) (flv : List Nat) (creator : Option (List Nat)) :
    (mainOutput dc flv creator).length = mainBias flv creator + avBytes flv (mainWalk flv) := by
  rw [mainOutput_eq, List.length_append, List.length_append, writeFLVHeader_length,
    realTag_length, copied_length flv _ (mainWalk_bound flv), mainSummary_payloadSize, mainBias]

theorem mainSummary_filesize (dc : Dbl → Nat → Nat) (flv : List Nat)
    (creator : Option (List Nat)) :
    (mainSummary dc flv creator).1.filesize =
      Dbl.ofNat (mainBias flv creator + avBytes flv (mainWalk flv)) := by
  rw [mainSummary_eq]


theorem specMetaEntries_length (md : FLVMetaData) : (specMetaEntries md).length = entryCount md := by
  unfold specMetaEntries entryCount specVideoEntries specAudioEntries specKeyframeEntries
  split_ifs <;> simp

theorem beBytes_four_length (n : Nat) : (beBytes 4 n).length = 4 := by simp [beBytes]

theorem drop_take_middle (pre mid post : List Nat) :
    ((pre ++ mid ++ post).drop pre.length).take mid.length = mid := by
  simp [List.append_assoc]

theorem entryCount_le (md : FLVMetaData) : entryCount md ≤ 26 := by
  unfold entryCount
  split_ifs <;> omega

/-- The script-data tag in the output: header, marker, ECMA-array header with
the number of entries, the entries, and the previous-tag-size. -/
theorem realTag_entries (dc : Dbl → Nat → Nat) (flv : List Nat) (creator : Option (List Nat)) :
    realTag dc flv creator =
      metadataTagHeader (mainSummary dc flv creator).1 ++ [2] ++ specName (cstr "onMetaData")
        ++ [8] ++ beBytes 4 (specMetaEntries (mainSummary dc flv creator).1).length
        ++ (specMetaEntries (mainSummary dc flv creator).1).flatMap (specEntry dc)
        ++ beBytes 4 (11 + ((realTag dc flv creator).length - 15)) := by
  obtain ⟨hc, hm⟩ := mainSummary_strings dc flv creator
  rw [realTag_length]
  conv_lhs => rw [realTag_eq, metadataPass_out dc _ _ _ (by omega) (by omega)]
  rw [specMetaEntries_length, ← mainSummary_onmetadatalength]
  have : List.take 11 (metadataTagHeader (mainSummary dc flv creator).1)
      = metadataTagHeader (mainSummary dc flv creator).1 := by
    simp [metadataTagHeader]
  rw [this]
  congr 2
  omega

/-! ## A file with 2^20 keyframes -/

theorem rd_append_right (pre l : List Nat) (j : Nat) : rd (pre ++ l) (pre.length + j) = rd l j := by
  simp [rd, List.getD_eq_getElem?_getD, List.getElem?_append_right]

theorem keyTags_length (n : Nat) : (keyTags n).length = 16 * n := by
  induction n with
  | zero => rfl
  | succ k ih => simp [keyTags, videoTag, ih]; omega

/-- The tag at the start of `videoTag 0x12 0 ++ rest` behind `pre`: a video
tag with one payload byte that passes the keyframe test. -/
theorem keyTag_head (pre rest : List Nat) :
    tagDataSize (pre ++ (videoTag 0x12 0 ++ rest)) pre.length = 1
    ∧ isRecorded (pre ++ (videoTag 0x12 0 ++ rest)) pre.length = true := by
  have r : ∀ j, j < 16 →
      rd (pre ++ (videoTag 0x12 0 ++ rest)) (pre.length + j) = (videoTag 0x12 0).getD j 0 := by
    intro j hj
    rw [rd_append_right]
    simp only [rd, List.getD_eq_getElem?_getD]
    rw [List.getElem?_append_left (by simpa [videoTag] using hj)]
  have r0 := r 0 (by omega)
  have r1 := r 1 (by omega)
  have r2 := r 2 (by omega)
  have r3 := r 3 (by omega)
  have r11 := r 11 (by omega)
  simp only [Nat.add_zero] at r0
  refine ⟨?_, ?_⟩
  · simp only [tagDataSize, FLV_UI24, Nat.add_assoc, r1, r2, r3]
    decide
  · simp only [isRecorded, tagType, tagFlags, sizeofFLVTag, r0, r11]
    decide

/-- Every tag of `keyTags n` is walked and recorded as a keyframe. -/
theorem keyTags_recorded :
    ∀ (n fuel : Nat) (pre : List Nat), n ≤ fuel →
      ((specWalkFrom fuel (pre ++ keyTags n) pre.length (pre.length + 16 * n)).filter
        (isRecorded (pre ++ keyTags n))).length = n := by
  intro n
  induction n with
  | zero =>
    intro fuel pre _
    cases fuel with
    | zero => rfl
    | succ f => simp [specWalkFrom]
  | succ k ih =>
    intro fuel pre hf
    cases fuel with
    | zero => omega
    | succ f =>
      obtain ⟨hd, hr⟩ := keyTag_head pre (keyTags k)
      have hc : pre.length + 11 ≤ pre.length + 16 * (k + 1)
          ∧ pre.length + (11 + tagDataSize (pre ++ keyTags (k + 1)) pre.length + 4)
              ≤ pre.length + 16 * (k + 1) := by
        simp only [keyTags, hd]; omega
      simp only [specWalkFrom, hc, and_self, if_true, List.filter_cons]
      have hr' : isRecorded (pre ++ keyTags (k + 1)) pre.length = true := hr
      simp only [hr', if_true, List.length_cons]
      have e : pre ++ keyTags (k + 1) = (pre ++ videoTag 0x12 0) ++ keyTags k := by
        simp [keyTags]
      have hd' : tagDataSize (pre ++ keyTags (k + 1)) pre.length = 1 := hd
      have := ih f (pre ++ videoTag 0x12 0) (by omega)
      rw [hd', e]
      have l : (pre ++ videoTag 0x12 0).length = pre.length + (11 + 1 + 4) := by
        simp [videoTag]
      rw [l] at this
      have e2 : pre.length + 16 * (k + 1) = pre.length + (11 + 1 + 4) + 16 * k := by omega
      rw [e2, this]

theorem mainStreampos_videoFileHeader (rest : List Nat) :
    mainStreampos (videoFileHeader ++ rest) = 13 := by
  have r : ∀ j, j < 13 → rd (videoFileHeader ++ rest) j = videoFileHeader.getD j 0 := by
    intro j hj
    simp only [rd, List.getD_eq_getElem?_getD]
    rw [List.getElem?_append_left (by simpa [videoFileHeader] using hj)]
  simp only [mainStreampos, FLV_UI32, r 5 (by omega), r 6 (by omega), r 7 (by omega),
    r 8 (by omega)]
  decide

theorem manyKeyframesInput_keyframes (creator : Option (List Nat)) :
    (firstSummary manyKeyframesInput creator).keyframes = 1048576 := by
  have h := (firstSummary_facts manyKeyframesInput creator).2.2.2.2.2.1
  rw [h, specKeyframeIndex_length, mainWalk, specWalk, manyKeyframesInput,
    mainStreampos_videoFileHeader]
  have hl : (videoFileHeader ++ keyTags 1048576).length = 13 + 16 * 1048576 := by
    rw [List.length_append, keyTags_length]; rfl
  rw [hl]
  exact keyTags_recorded 1048576 (13 + 16 * 1048576) videoFileHeader (by omega)


/-! ## The size fields of the script-data tag -/

/-- The data-size field of the script-data tag in the output holds the payload
size modulo 2^24, and the tag ends with `11 + payload size` modulo 2^32. -/
theorem realTag_size_fields (dc : Dbl → Nat → Nat) (flv : List Nat)
    (creator : Option (List Nat)) :
    (realTag dc flv creator)[0]? = some 18
    ∧ beNat (((realTag dc flv creator).drop 1).take 3)
        = payloadSize (mainSummary dc flv creator).1 % 2 ^ 24
    ∧ beNat ((realTag dc flv creator).drop (11 + payloadSize (mainSummary dc flv creator).1))
        = (11 + payloadSize (mainSummary dc flv creator).1) % 2 ^ 32 := by
  obtain ⟨hc, hm⟩ := mainSummary_strings dc flv creator
  have hlen := metadataPass_out_length dc (mainSummary dc flv creator).1
    (mainSummary dc flv creator).1 0
  have h1 := realTag_eq dc flv creator
  refine ⟨?_, ?_, ?_⟩
  · rw [h1, metadataPass_out dc _ _ _ (by omega) (by omega)]
    simp [metadataTagHeader, FLV_SCRIPTDATAOBJECT]
  · rw [h1, metadataPass_out dc _ _ _ (by omega) (by omega)]
    have : ((List.take 11 (metadataTagHeader (mainSummary dc flv creator).1) ++ [2]
        ++ specName (cstr "onMetaData") ++ [8]
        ++ beBytes 4 (mainSummary dc flv creator).1.onmetadatalength
        ++ (specMetaEntries (mainSummary dc flv creator).1).flatMap (specEntry dc)
        ++ beBytes 4 (11 + payloadSize (mainSummary dc flv creator).1)).drop 1).take 3
        = [((mainSummary dc flv creator).1.metadatasize >>> 16) &&& 0xff,
           ((mainSummary dc flv creator).1.metadatasize >>> 8) &&& 0xff,
           (mainSummary dc flv creator).1.metadatasize &&& 0xff] := by
      simp [metadataTagHeader]
    rw [this, beNat_beBytes_three, mainSummary_metadatasize]
  · rw [h1, ← hlen, List.drop_left, beNat_beBytes_four, hlen]

theorem manyKeyframesInput_payloadSize (dc : Dbl → Nat → Nat) (creator : Option (List Nat)) :
    2 ^ 24 ≤ payloadSize (mainSummary dc manyKeyframesInput creator).1 := by
  rw [mainSummary_payloadSize]
  have hk := manyKeyframesInput_keyframes creator
  obtain ⟨_, _, _, _, _, a6, a7, _⟩ := firstSummary_facts manyKeyframesInput creator
  have hh : (firstSummary manyKeyframesInput creator).hasKeyframes = 1 := by
    rw [a7, ← a6, hk]; rfl
  simp only [payloadSize, hh, hk, beq_self_eq_true, if_true]
  omega


/-! ## The keyframe index in the output -/

theorem mainSummary_index (dc : Dbl → Nat → Nat) (flv : List Nat) (creator : Option (List Nat)) :
    (mainSummary dc flv creator).1.keyframes = (specKeyframeIndex flv (mainWalk flv) 0).length
    ∧ (mainSummary dc flv creator).1.filepositions =
        (specKeyframeIndex flv (mainWalk flv) 0).map (fun r => Dbl.ofNat (mainBias flv creator + r.2))
    ∧ (mainSummary dc flv creator).1.times =
        (specKeyframeIndex flv (mainWalk flv) 0).map (fun r => tagSeconds flv r.1)
    ∧ (mainSummary dc flv creator).1.lastkeyframelocation =
        (if (specKeyframeIndex flv (mainWalk flv) 0).length = 0 then
          (firstSummary flv creator).lastkeyframelocation
        else ((specKeyframeIndex flv (mainWalk flv) 0).map
          (fun r => Dbl.ofNat (mainBias flv creator + r.2))).getD
            ((specKeyframeIndex flv (mainWalk flv) 0).length - 1) (Dbl.ofNat 0)) := by
  obtain ⟨_, _, _, _, _, a6, _⟩ := firstSummary_facts flv creator
  rw [mainSummary_eq]
  exact ⟨a6, rfl, rfl, rfl⟩

/-- The positions that pass 2 records in `main`, before the correction. -/
theorem mainSecondPass_filepositions (dc : Dbl → Nat → Nat) (flv : List Nat)
    (creator : Option (List Nat)) :
    (readFLVSecondPass flv (mainStreampos flv) flv.length
        (writeFLVMetaData dc (firstSummary flv creator)).md).filepositions =
      (specKeyframeIndex flv (mainWalk flv) 0).map (fun r => Dbl.ofNat r.2) := by
  obtain ⟨a1, _, _, _, _, a6, _, a8, a9⟩ := firstSummary_facts flv creator
  have hmd : (writeFLVMetaData dc (firstSummary flv creator)).md =
      { firstSummary flv creator with
        onmetadatalength := entryCount (firstSummary flv creator),
        metadatasize := payloadSize (firstSummary flv creator) } := by
    rw [writeFLVMetaData_md, a1]
    rfl
  rw [hmd, readFLVSecondPass_eq flv (mainStreampos flv) flv.length _
    (by simp only; rw [a6]; exact specKeyframeIndex_length flv _ 0)
    (by simp only; rw [a8, a6]) (by simp only; rw [a9, a6])]
  rfl

/-- The output of `main` at the corrected position of a record of the
keyframe index: the footprint of the recorded tag. -/
theorem mainOutput_at_record (dc : Dbl → Nat → Nat) (flv : List Nat)
    (creator : Option (List Nat)) (r : Nat × Nat) (hr : r ∈ specKeyframeIndex flv (mainWalk flv) 0) :
    tagType flv r.1 = 9
    ∧ ((mainOutput dc flv creator).drop (mainBias flv creator + r.2)).take 11
        = (flv.drop r.1).take 11
    ∧ (mainOutput dc flv creator)[mainBias flv creator + r.2]? = some 9 := by
  obtain ⟨hmem, hrec, _, pre, post, hcop, hpre⟩ :=
    specKeyframeIndex_position flv (mainWalk flv) (mainWalk_bound flv) 0 r hr
  have hb := mainWalk_bound flv r.1 hmem
  have ht : tagType flv r.1 = 9 := by
    simp only [isRecorded, Bool.and_eq_true, beq_iff_eq] at hrec
    exact hrec.1
  have hfl := footprint_length flv r.1 hb
  have hsz : 15 ≤ footprintSize flv r.1 := by unfold footprintSize; omega
  have hout : mainOutput dc flv creator =
      (writeFLVHeader (mainSummary dc flv creator).1 ++ realTag dc flv creator ++ pre)
        ++ (footprint flv r.1 ++ post) := by
    rw [mainOutput_eq, hcop]
    simp [List.append_assoc]
  have hlen : (writeFLVHeader (mainSummary dc flv creator).1 ++ realTag dc flv creator
      ++ pre).length = mainBias flv creator + r.2 := by
    rw [List.length_append, List.length_append, writeFLVHeader_length, realTag_length,
      mainSummary_payloadSize, hpre, mainBias]
    omega
  have hdrop : (mainOutput dc flv creator).drop (mainBias flv creator + r.2)
      = footprint flv r.1 ++ post := by
    rw [hout, ← hlen, List.drop_left]
  have hoff : r.1 < flv.length := by omega
  refine ⟨ht, ?_, ?_⟩
  · rw [hdrop, List.take_append_of_le_length (by omega)]
    simp only [footprint, slice, List.take_take]
    congr 1
    omega
  · have h0 : (mainOutput dc flv creator)[mainBias flv creator + r.2]?
        = ((mainOutput dc flv creator).drop (mainBias flv creator + r.2))[0]? := by
      rw [List.getElem?_drop]; rfl
    rw [h0, hdrop, List.getElem?_append_left (by omega)]
    simp only [footprint, slice]
    rw [List.getElem?_take_of_lt (by omega), List.getElem?_drop, Nat.add_zero,
      List.getElem?_eq_getElem hoff]
    have : flv[r.1] = tagType flv r.1 := by
      simp [tagType, rd, List.getD_eq_getElem?_getD, List.getElem?_eq_getElem hoff]
    rw [this, ht]


/-! ## Bit fields of the codec headers -/

theorem shiftLeft_add_eq_or (a b i : Nat) (h : b < 2 ^ i) : (a <<< i) + b = (a <<< i) ||| b := by
  rw [Nat.shiftLeft_eq, Nat.mul_comm]
  exact Nat.mul_add_lt_is_or h a

theorem top_bit (b : Nat) (h : b < 256) : (b >>> 7) &&& 0x1 = b >>> 7 := by
  rw [Nat.and_one_is_mod, Nat.shiftRight_eq_div_pow]
  omega

theorem top_bit_lt (b : Nat) (h : b < 256) : b >>> 7 < 2 ^ 1 := by
  rw [Nat.shiftRight_eq_div_pow]
  omega

theorem custom8 (a b : Nat) (hb : b < 256) :
    ((a &&& 0x7f) <<< 1) + ((b >>> 7) &&& 0x1) = ((a &&& 0x7f) <<< 1) ||| (b >>> 7) := by
  rw [top_bit b hb, shiftLeft_add_eq_or _ _ _ (top_bit_lt b hb)]

theorem custom16 (a b c : Nat) (hb : b < 256) (hc : c < 256) :
    ((a &&& 0x7f) <<< 9) + (b <<< 1) + ((c >>> 7) &&& 0x1)
      = ((a &&& 0x7f) <<< 9) ||| (b <<< 1) ||| (c >>> 7) := by
  rw [top_bit c hc, Nat.add_assoc, shiftLeft_add_eq_or b _ 1 (top_bit_lt c hc),
    Nat.or_assoc]
  apply shiftLeft_add_eq_or
  rw [← shiftLeft_add_eq_or b _ 1 (top_bit_lt c hc), Nat.shiftLeft_eq]
  have ht := top_bit_lt c hc
  generalize c >>> 7 = t at ht ⊢
  omega

theorem startcode_eq (b0 b1 b2 : Nat) :
    ((b0 <<< 16) + (b1 <<< 8) + b2) >>> 7 = beNat [b0, b1, b2] / 2 ^ 7 := by
  have e : beNat [b0, b1, b2] = (b0 <<< 16) + (b1 <<< 8) + b2 := by
    simp only [beNat, List.foldl_cons, List.foldl_nil, Nat.shiftLeft_eq]
    omega
  rw [e, Nat.shiftRight_eq_div_pow]

theorem picturesize_eq (a b : Nat) (hb : b < 256) :
    ((a &&& 0x3) <<< 1) + ((b >>> 7) &&& 0x1) = ((a &&& 0x03) <<< 1) ||| (b >>> 7) := by
  rw [top_bit b hb, shiftLeft_add_eq_or _ _ _ (top_bit_lt b hb)]

theorem rd_lt (flv : List Nat) (h : ∀ b ∈ flv, b < 256) (i : Nat) : rd flv i < 256 := by
  unfold rd
  by_cases hi : i < flv.length
  · rw [List.getD_eq_getElem _ _ hi]
    exact h _ (List.getElem_mem _)
  · rw [List.getD_eq_default _ _ (by omega)]
    omega

theorem beNat_beBytes_eight (n : Nat) : beNat (beBytes 8 n) = n % 2 ^ 64 := by
  simp only [beBytes, beNat, List.foldl_cons, List.foldl_nil]
  omega


/-! ## The fields that pass 1 takes from single tags -/

theorem firstAudio_audioFields (flags : Nat) (md : FLVMetaData) :
    audioFields (firstAudio flags md) = specAudioFields flags := by
  have h3 : (flags >>> 2) &&& 0x3 ≤ 3 := Nat.and_le_right
  have h1 : (flags >>> 1) &&& 0x1 ≤ 1 := Nat.and_le_right
  unfold firstAudio audioFields specAudioFields
  simp only
  generalize (flags >>> 2) &&& 0x3 = r at h3
  generalize (flags >>> 1) &&& 0x1 = s at h1
  interval_cases r <;> interval_cases s <;> rfl

theorem readFLVH263VideoPacket_audioFields (h263 : Nat → Nat) (md : FLVMetaData) :
    audioFields (readFLVH263VideoPacket h263 md) = audioFields md := by
  unfold readFLVH263VideoPacket
  simp only
  split
  · rfl
  · split <;> rfl

theorem firstVideo_audioFields (flags : Nat) (payload : Nat → Nat) (md : FLVMetaData) :
    audioFields (firstVideo flags payload md) = audioFields md := by
  unfold firstVideo
  simp only
  split
  · rw [readFLVH263VideoPacket_audioFields]; rfl
  all_goals rfl

theorem firstPassTag_audioFields (flv : List Nat) (off d : Nat) (st : FirstPassState) :
    audioFields (firstPassTag flv off d st).md =
      (if tagType flv off = 8 ∧ st.md.hasAudio = 0 then specAudioFields (tagFlags flv off)
       else audioFields st.md) := by
  unfold firstPassTag
  simp only [FLV_AUDIODATA, FLV_VIDEODATA]
  by_cases ha : tagType flv off = 8
  · have h8 : (tagType flv off == 8) = true := by simpa using ha
    simp only [h8, if_true, ha, true_and]
    unfold firstPassAudio
    simp only
    by_cases h0 : st.md.hasAudio = 0
    · have : (st.md.hasAudio == 0) = true := by simpa using h0
      simp only [this, if_true, h0]
      exact firstAudio_audioFields _ _
    · have : (st.md.hasAudio == 0) = false := by simpa using h0
      simp only [this, h0, if_false, Bool.false_eq_true]
      rfl
  · have h8 : (tagType flv off == 8) = false := by simpa using ha
    simp only [h8, ha, false_and, if_false, Bool.false_eq_true]
    by_cases hv : tagType flv off = 9
    · have h9 : (tagType flv off == 9) = true := by simpa using hv
      simp only [h9, if_true]
      unfold firstPassVideo firstPassKeyframe
      simp only
      split <;> split
      all_goals first
        | rfl
        | exact firstVideo_audioFields _ _ _
    · have h9 : (tagType flv off == 9) = false := by simpa using hv
      simp only [h9, Bool.false_eq_true, if_false]
      rfl

theorem firstPass_foldl_audio_set (flv : List Nat) (walk : List Nat) :
    ∀ (st : FirstPassState), st.md.hasAudio ≠ 0 →
      audioFields
        (walk.foldl (fun st off => firstPassTag flv off (footprintSize flv off) st) st).md
        = audioFields st.md := by
  induction walk with
  | nil => intro st _; rfl
  | cons off rest ih =>
    intro st h
    have e := firstPassTag_audioFields flv off (footprintSize flv off) st
    rw [if_neg (by tauto)] at e
    simp only [List.foldl_cons]
    rw [ih _ (by
      have : (firstPassTag flv off (footprintSize flv off) st).md.hasAudio = st.md.hasAudio :=
        congrArg (fun t => t.2.2.2.2) e
      rw [this]; exact h), e]

theorem firstPass_foldl_audio (flv : List Nat) (walk : List Nat) :
    ∀ (st : FirstPassState), st.md.hasAudio = 0 →
      audioFields
        (walk.foldl (fun st off => firstPassTag flv off (footprintSize flv off) st) st).md
        = (match walk.find? (fun off => tagType flv off == 8) with
           | none => audioFields st.md
           | some off => specAudioFields (tagFlags flv off)) := by
  induction walk with
  | nil => intro st _; rfl
  | cons off rest ih =>
    intro st h
    have e := firstPassTag_audioFields flv off (footprintSize flv off) st
    simp only [List.foldl_cons]
    by_cases ha : tagType flv off = 8
    · have h8 : (tagType flv off == 8) = true := by simpa using ha
      rw [if_pos ⟨ha, h⟩] at e
      simp only [List.find?_cons, h8]
      rw [firstPass_foldl_audio_set flv rest _ (by
        have : (firstPassTag flv off (footprintSize flv off) st).md.hasAudio = 1 :=
          congrArg (fun t => t.2.2.2.2) e
        rw [this]; decide), e]
    · have h8 : (tagType flv off == 8) = false := by simpa using ha
      rw [if_neg (by tauto)] at e
      simp only [List.find?_cons, h8]
      rw [ih _ (by
        have : (firstPassTag flv off (footprintSize flv off) st).md.hasAudio = st.md.hasAudio :=
          congrArg (fun t => t.2.2.2.2) e
        rw [this]; exact h), e]

theorem readFLVH263VideoPacket_canSeekToEnd (h263 : Nat → Nat) (md : FLVMetaData) :
    (readFLVH263VideoPacket h263 md).canSeekToEnd = md.canSeekToEnd := by
  unfold readFLVH263VideoPacket
  simp only
  split
  · rfl
  · split <;> rfl

theorem firstPassKeyframe_canSeekToEnd (flv : List Nat) (off : Nat) (md : FLVMetaData) :
    (firstPassKeyframe flv off md).canSeekToEnd
      = (if keyframeTest (tagFlags flv off) then 1 else 0) := by
  unfold firstPassKeyframe
  split <;> rfl

theorem firstPassTag_lasttimestamp (flv : List Nat) (off d : Nat) (st : FirstPassState) :
    (firstPassTag flv off d st).md.lasttimestamp = tagSeconds flv off := rfl

theorem firstPassTag_canSeekToEnd (flv : List Nat) (off d : Nat) (st : FirstPassState) :
    (firstPassTag flv off d st).md.canSeekToEnd =
      (if tagType flv off = 9 then (if keyframeTest (tagFlags flv off) then 1 else 0)
       else st.md.canSeekToEnd) := by
  unfold firstPassTag
  simp only [FLV_AUDIODATA, FLV_VIDEODATA]
  by_cases ha : tagType flv off = 8
  · have h8 : (tagType flv off == 8) = true := by simpa using ha
    have h9 : ¬ tagType flv off = 9 := by omega
    simp only [h8, if_true, h9, if_false]
    unfold firstPassAudio firstAudio
    simp only
    split
    · split <;> split <;> rfl
    · rfl
  · have h8 : (tagType flv off == 8) = false := by simpa using ha
    simp only [h8, Bool.false_eq_true, if_false]
    by_cases hv : tagType flv off = 9
    · have h9 : (tagType flv off == 9) = true := by simpa using hv
      simp only [h9, if_true, hv]
      exact firstPassKeyframe_canSeekToEnd flv off _
    · have h9 : (tagType flv off == 9) = false := by simpa using hv
      simp only [h9, hv, Bool.false_eq_true, if_false]

theorem firstPassTag_videotags (flv : List Nat) (off d : Nat) (st : FirstPassState) :
    (firstPassTag flv off d st).videotags =
      (if tagType flv off = 9 then st.videotags + 1 else st.videotags) := by
  unfold firstPassTag
  simp only [FLV_AUDIODATA, FLV_VIDEODATA]
  by_cases ha : tagType flv off = 8
  · have h8 : (tagType flv off == 8) = true := by simpa using ha
    have h9 : ¬ tagType flv off = 9 := by omega
    simp only [h8, if_true, h9, if_false]
    rfl
  · have h8 : (tagType flv off == 8) = false := by simpa using ha
    simp only [h8, Bool.false_eq_true, if_false]
    by_cases hv : tagType flv off = 9
    · have h9 : (tagType flv off == 9) = true := by simpa using hv
      simp only [h9, if_true, hv]
      rfl
    · have h9 : (tagType flv off == 9) = false := by simpa using hv
      simp only [h9, hv, Bool.false_eq_true, if_false]

theorem readFLVH263VideoPacket_framerate (h263 : Nat → Nat) (md : FLVMetaData) :
    (readFLVH263VideoPacket h263 md).framerate = md.framerate := by
  unfold readFLVH263VideoPacket
  simp only
  split
  · rfl
  · split <;> rfl

theorem firstVideo_framerate (flags : Nat) (payload : Nat → Nat) (md : FLVMetaData) :
    (firstVideo flags payload md).framerate = md.framerate := by
  unfold firstVideo
  simp only
  split
  · rw [readFLVH263VideoPacket_framerate]
  all_goals rfl

theorem firstPassTag_framerate (flv : List Nat) (off d : Nat) (st : FirstPassState) :
    (firstPassTag flv off d st).md.framerate = st.md.framerate := by
  unfold firstPassTag
  simp only [FLV_AUDIODATA, FLV_VIDEODATA]
  split
  · unfold firstPassAudio firstAudio
    simp only
    split
    · split <;> split <;> rfl
    · rfl
  · split
    · unfold firstPassVideo firstPassKeyframe
      simp only
      split <;> split
      all_goals first
        | rfl
        | exact firstVideo_framerate _ _ _
    · rfl

theorem firstPass_foldl_framerate (flv : List Nat) (walk : List Nat) :
    ∀ (st : FirstPassState),
      (walk.foldl (fun st off => firstPassTag flv off (footprintSize flv off) st) st).md.framerate
        = st.md.framerate := by
  induction walk with
  | nil => intro st; rfl
  | cons off rest ih =>
    intro st
    simp only [List.foldl_cons]
    rw [ih, firstPassTag_framerate]

theorem firstPass_foldl_lasttimestamp (flv : List Nat) (walk : List Nat) (st : FirstPassState) :
    (walk.foldl (fun st off => firstPassTag flv off (footprintSize flv off) st) st).md.lasttimestamp
      = (match walk.getLast? with
         | none => st.md.lasttimestamp
         | some off => tagSeconds flv off) := by
  induction walk using List.reverseRecOn with
  | nil => rfl
  | append_singleton l a _ =>
    rw [List.foldl_append, List.getLast?_append]
    rfl

theorem firstPass_foldl_canSeekToEnd (flv : List Nat) (walk : List Nat) (st : FirstPassState) :
    (walk.foldl (fun st off => firstPassTag flv off (footprintSize flv off) st) st).md.canSeekToEnd
      = (match (walk.filter (fun off => tagType flv off == 9)).getLast? with
         | none => st.md.canSeekToEnd
         | some off => if keyframeTest (tagFlags flv off) then 1 else 0) := by
  induction walk using List.reverseRecOn with
  | nil => rfl
  | append_singleton l a ih =>
    rw [List.foldl_append, List.filter_append]
    simp only [List.foldl_cons, List.foldl_nil]
    rw [firstPassTag_canSeekToEnd, ih]
    by_cases hv : tagType flv a = 9
    · have h9 : (tagType flv a == 9) = true := by simpa using hv
      simp [List.filter_cons, h9, hv]
    · have h9 : (tagType flv a == 9) = false := by simpa using hv
      simp [List.filter_cons, h9, hv]

theorem firstPass_foldl_videotags (flv : List Nat) (walk : List Nat) :
    ∀ (st : FirstPassState),
      (walk.foldl (fun st off => firstPassTag flv off (footprintSize flv off) st) st).videotags
        = st.videotags + (walk.filter (fun off => tagType flv off == 9)).length := by
  induction walk with
  | nil => intro st; rfl
  | cons off rest ih =>
    intro st
    simp only [List.foldl_cons]
    rw [ih, firstPassTag_videotags]
    by_cases hv : tagType flv off = 9
    · have h9 : (tagType flv off == 9) = true := by simpa using hv
      simp [List.filter_cons, h9, hv]
      omega
    · have h9 : (tagType flv off == 9) = false := by simpa using hv
      simp [List.filter_cons, h9, hv]

/-- The fields that the statements after the loop of pass 1 leave alone, and
the two that they compute from `lasttimestamp` and the local `videotags`. -/
theorem firstPassFinish_seen (st : FirstPassState) :
    (firstPassFinish st).canSeekToEnd = st.md.canSeekToEnd
    ∧ (firstPassFinish st).lasttimestamp = st.md.lasttimestamp
    ∧ (firstPassFinish st).duration = st.md.lasttimestamp
    ∧ (firstPassFinish st).framerate =
        (if st.videotags = 0 then st.md.framerate
         else Dbl.div (Dbl.ofNat st.videotags) st.md.lasttimestamp)
    ∧ (firstPassFinish st).audiocodecid = st.md.audiocodecid
    ∧ (firstPassFinish st).audiosamplerate = st.md.audiosamplerate
    ∧ (firstPassFinish st).audiosamplesize = st.md.audiosamplesize
    ∧ (firstPassFinish st).stereo = st.md.stereo
    ∧ (firstPassFinish st).hasAudio = st.md.hasAudio := by
  unfold firstPassFinish
  simp only
  split <;> split <;> split <;> split <;> split <;> simp_all

theorem readFLVFirstPass_eq_foldl (flv : List Nat) (streampos filesize : Nat) (md : FLVMetaData) :
    readFLVFirstPass flv streampos filesize md
      = firstPassFinish ((specWalk flv streampos filesize).foldl
          (fun st off => firstPassTag flv off (footprintSize flv off) st)
          { md := md, videosize := 0, audiosize := 0, videotags := 0, audiotags := 0 }) := by
  rw [readFLVFirstPass, readFLVFirstPassLoop_eq_walk]
  rfl

theorem tagTimestamp_eq_spec (flv : List Nat) (hb : ∀ b ∈ flv, b < 256) (off : Nat) :
    tagTimestamp flv off = specTimestamp flv off := by
  have h7 := rd_lt flv hb (off + 7)
  have h4 := rd_lt flv hb (off + 4)
  have h5 := rd_lt flv hb (off + 5)
  have h6 := rd_lt flv hb (off + 6)
  have e : (rd flv (off + 7) <<< 24) + (rd flv (off + 4) <<< 16) + (rd flv (off + 5) <<< 8)
      + rd flv (off + 6)
      = beNat [rd flv (off + 7), rd flv (off + 4), rd flv (off + 5), rd flv (off + 6)] := by
    simp only [beNat, List.foldl_cons, List.foldl_nil, Nat.shiftLeft_eq]
    omega
  have hlt : beNat [rd flv (off + 7), rd flv (off + 4), rd flv (off + 5), rd flv (off + 6)]
      < 2 ^ 32 := by
    simp only [beNat, List.foldl_cons, List.foldl_nil]
    omega
  unfold tagTimestamp specTimestamp toInt32
  rw [e]
  simp only [Nat.mod_eq_of_lt hlt]

theorem specTimestamp_neg (flv : List Nat) (hb : ∀ b ∈ flv, b < 256) (off : Nat)
    (h : 0x80 ≤ rd flv (off + 7)) : specTimestamp flv off < 0 := by
  have h7 := rd_lt flv hb (off + 7)
  have h4 := rd_lt flv hb (off + 4)
  have h5 := rd_lt flv hb (off + 5)
  have h6 := rd_lt flv hb (off + 6)
  unfold specTimestamp
  simp only [beNat, List.foldl_cons, List.foldl_nil]
  split <;> omega


/-! ## Walking a sequence of whole tags -/

theorem rd_append_left (l rest : List Nat) (j : Nat) (h : j < l.length) :
    rd (l ++ rest) j = rd l j := by
  simp only [rd, List.getD_eq_getElem?_getD]
  rw [List.getElem?_append_left h]

/-- A byte of the footprint of a tag is the byte of the buffer at that place. -/
theorem rd_footprint (flv : List Nat) (off j : Nat) (h : j < footprintSize flv off) :
    rd (footprint flv off) j = rd flv (off + j) := by
  simp only [rd, footprint, slice, List.getD_eq_getElem?_getD]
  rw [List.getElem?_take_of_lt h, List.getElem?_drop]

theorem footprintSize_ge (flv : List Nat) (off : Nat) : 15 ≤ footprintSize flv off := by
  unfold footprintSize
  omega

theorem isAudioVideo_footprint (flv : List Nat) (off : Nat) :
    isAudioVideo flv off = (rd (footprint flv off) 0 == 8 || rd (footprint flv off) 0 == 9) := by
  rw [rd_footprint flv off 0 (by have := footprintSize_ge flv off; omega)]
  rfl

theorem isRecorded_footprint (flv : List Nat) (off : Nat) :
    isRecorded flv off
      = (rd (footprint flv off) 0 == 9 && keyframeTest (rd (footprint flv off) 11)) := by
  rw [rd_footprint flv off 0 (by have := footprintSize_ge flv off; omega),
    rd_footprint flv off 11 (by have := footprintSize_ge flv off; omega)]
  rfl

theorem FLV_UI24_footprint (flv : List Nat) (off : Nat) :
    FLV_UI24 (footprint flv off) 1 = tagDataSize flv off := by
  have := footprintSize_ge flv off
  simp only [FLV_UI24, tagDataSize, rd_footprint flv off 1 (by omega),
    rd_footprint flv off (1 + 1) (by omega), rd_footprint flv off (1 + 2) (by omega)]

/-- The tag that begins behind `pre` in `pre ++ (T ++ rest)`, for a whole tag
`T`: its data-size field and its footprint. -/
theorem whole_tag_head (pre T rest : List Nat) (hT : T.length = 11 + FLV_UI24 T 1 + 4) :
    tagDataSize (pre ++ (T ++ rest)) pre.length = FLV_UI24 T 1
    ∧ footprint (pre ++ (T ++ rest)) pre.length = T := by
  have r : ∀ j, j < T.length → rd (pre ++ (T ++ rest)) (pre.length + j) = rd T j := by
    intro j hj
    rw [rd_append_right, rd_append_left _ _ _ hj]
  have hd : tagDataSize (pre ++ (T ++ rest)) pre.length = FLV_UI24 T 1 := by
    simp only [tagDataSize, FLV_UI24]
    rw [show pre.length + 1 + 1 = pre.length + 2 from rfl,
      show pre.length + 1 + 2 = pre.length + 3 from rfl, r 1 (by omega), r 2 (by omega),
      r 3 (by omega)]
  refine ⟨hd, ?_⟩
  unfold footprint footprintSize slice
  rw [hd, ← hT, List.drop_left, List.take_left]

/-- The walk over a buffer that ends with a sequence of whole tags, from the
start of the first of them, visits exactly these tags. -/
theorem specWalkFrom_whole_tags :
    ∀ (tags : List (List Nat)), (∀ T ∈ tags, T.length = 11 + FLV_UI24 T 1 + 4) →
      ∀ (fuel : Nat) (pre : List Nat), tags.length ≤ fuel →
        (specWalkFrom fuel (pre ++ tags.flatten) pre.length
            (pre.length + tags.flatten.length)).map (footprint (pre ++ tags.flatten)) = tags := by
  intro tags
  induction tags with
  | nil =>
    intro _ fuel pre _
    cases fuel with
    | zero => rfl
    | succ f => simp [specWalkFrom]
  | cons T rest ih =>
    intro hw fuel pre hf
    cases fuel with
    | zero => simp at hf
    | succ f =>
      have hT := hw T (List.mem_cons_self _ _)
      obtain ⟨hd, hfp⟩ := whole_tag_head pre T rest.flatten hT
      simp only [List.flatten_cons, List.length_append] at hd hfp ⊢
      have hc : pre.length + 11 ≤ pre.length + (T.length + rest.flatten.length)
          ∧ pre.length + (11 + tagDataSize (pre ++ (T ++ rest.flatten)) pre.length + 4)
              ≤ pre.length + (T.length + rest.flatten.length) := by
        rw [hd]; omega
      simp only [specWalkFrom, hc, and_self, if_true, List.map_cons, hfp]
      have := ih (fun T' h' => hw T' (List.mem_cons_of_mem _ h')) f (pre ++ T)
        (by simpa using hf)
      rw [hd, ← hT]
      rw [List.length_append, List.append_assoc] at this
      rw [← Nat.add_assoc, this]

theorem copied_eq_flatten (flv : List Nat) (walk : List Nat) :
    copied flv walk = (copiedTags flv walk).flatten := by
  simp [copied, copiedTags, List.flatMap]

/-- Every tag that the copy loop writes is a whole audio or video tag. -/
theorem copiedTags_whole (flv : List Nat) (walk : List Nat)
    (hb : ∀ off ∈ walk, off + footprintSize flv off ≤ flv.length) :
    ∀ T ∈ copiedTags flv walk,
      T.length = 11 + FLV_UI24 T 1 + 4 ∧ (rd T 0 == 8 || rd T 0 == 9) = true := by
  intro T hT
  simp only [copiedTags, List.mem_map, List.mem_filter] at hT
  obtain ⟨off, ⟨hoff, hav⟩, rfl⟩ := hT
  refine ⟨?_, ?_⟩
  · rw [FLV_UI24_footprint, footprint_length flv off (hb off hoff)]
    rfl
  · rw [← isAudioVideo_footprint]
    exact hav

theorem copiedTags_recorded (flv : List Nat) (walk : List Nat) :
    ((copiedTags flv walk).filter (fun T => rd T 0 == 9 && keyframeTest (rd T 11))).length
      = (walk.filter (isRecorded flv)).length := by
  induction walk with
  | nil => rfl
  | cons off rest ih =>
    have e := isRecorded_footprint flv off
    by_cases hav : isAudioVideo flv off = true
    · by_cases hr : isRecorded flv off = true
      · have hr' := hr
        rw [e] at hr'
        simp only [copiedTags, List.filter_cons, hav, hr, if_true, List.map_cons, hr',
          List.length_cons]
        rw [← ih]
        rfl
      · have hr0 : isRecorded flv off = false := by simpa using hr
        have hr' := hr0
        rw [e] at hr'
        simp only [copiedTags, List.filter_cons, hav, hr0, if_true, List.map_cons, hr',
          Bool.false_eq_true, if_false]
        rw [← ih]
        rfl
    · have hav0 : isAudioVideo flv off = false := by simpa using hav
      have hr0 : isRecorded flv off = false := by
        rw [Bool.eq_false_iff]
        exact fun h => hav (isAudioVideo_of_isRecorded h)
      simp only [copiedTags, List.filter_cons, hav0, hr0, Bool.false_eq_true, if_false]
      rw [← ih]
      rfl

theorem whole_tags_length (tags : List (List Nat))
    (hw : ∀ T ∈ tags, T.length = 11 + FLV_UI24 T 1 + 4) : tags.length ≤ tags.flatten.length := by
  induction tags with
  | nil => simp
  | cons T rest ih =>
    have hT := hw T (List.mem_cons_self _ _)
    have := ih (fun T' h' => hw T' (List.mem_cons_of_mem _ h'))
    simp only [List.flatten_cons, List.length_append, List.length_cons]
    omega

/-- What the three loops see in a buffer that ends with whole tags, from the
start of the first of them: the copy loop writes the audio and video tags
among them, pass 1 counts the keyframes among them, and the walk visits a tag
of a type `t` for every tag of that type among them. -/
theorem whole_tags_seen (tags : List (List Nat))
    (hw : ∀ T ∈ tags, T.length = 11 + FLV_UI24 T 1 + 4) (fuel : Nat) (pre : List Nat)
    (hf : tags.flatten.length ≤ fuel) :
    copied (pre ++ tags.flatten)
        (specWalkFrom fuel (pre ++ tags.flatten) pre.length (pre.length + tags.flatten.length))
      = (tags.filter (fun T => rd T 0 == 8 || rd T 0 == 9)).flatten
    ∧ ((specWalkFrom fuel (pre ++ tags.flatten) pre.length
          (pre.length + tags.flatten.length)).filter (isRecorded (pre ++ tags.flatten))).length
      = (tags.filter (fun T => rd T 0 == 9 && keyframeTest (rd T 11))).length
    ∧ ∀ t, ((specWalkFrom fuel (pre ++ tags.flatten) pre.length
          (pre.length + tags.flatten.length)).filter
            (fun off => tagType (pre ++ tags.flatten) off == t)).length
      = (tags.filter (fun T => rd T 0 == t)).length := by
  have h := specWalkFrom_whole_tags tags hw fuel pre
    (Nat.le_trans (whole_tags_length tags hw) hf)
  generalize specWalkFrom fuel (pre ++ tags.flatten) pre.length
    (pre.length + tags.flatten.length) = W at h
  generalize pre ++ tags.flatten = y at h
  subst h
  refine ⟨?_, ?_, ?_⟩
  · rw [copied_eq_flatten, copiedTags, List.filter_map]
    congr 2
    apply List.filter_congr
    intro off _
    exact isAudioVideo_footprint y off
  · rw [List.filter_map, List.length_map]
    congr 1
    apply List.filter_congr
    intro off _
    exact isRecorded_footprint y off
  · intro t
    rw [List.filter_map, List.length_map]
    congr 1
    apply List.filter_congr
    intro off _
    simp only [Function.comp, tagType]
    rw [rd_footprint y off 0 (by have := footprintSize_ge y off; omega)]
    rfl

/-! ## The output as an input -/

theorem writeFLVHeader_eq (md : FLVMetaData) :
    ∃ f, writeFLVHeader md = [70, 76, 86, 1, f, 0, 0, 0, 9, 0, 0, 0, 0] := by
  unfold writeFLVHeader
  simp only
  split <;> split <;> exact ⟨_, rfl⟩

theorem mainStreampos_writeFLVHeader (md : FLVMetaData) (rest : List Nat) :
    mainStreampos (writeFLVHeader md ++ rest) = 13 := by
  obtain ⟨f, hf⟩ := writeFLVHeader_eq md
  rw [hf]
  have r : ∀ j, j < 13 → rd ([70, 76, 86, 1, f, 0, 0, 0, 9, 0, 0, 0, 0] ++ rest) j
      = [70, 76, 86, 1, f, 0, 0, 0, 9, 0, 0, 0, 0].getD j 0 := by
    intro j hj
    exact rd_append_left _ _ _ (by simpa using hj)
  simp only [mainStreampos, FLV_UI32, r 5 (by omega), r 6 (by omega), r 7 (by omega),
    r 8 (by omega), List.getD_cons_succ, List.getD_cons_zero]
  decide

theorem take_writeFLVHeader (md : FLVMetaData) (rest : List Nat) :
    (writeFLVHeader md ++ rest).take 3 = [70, 76, 86] := by
  obtain ⟨f, hf⟩ := writeFLVHeader_eq md
  rw [hf]
  rfl

theorem FLV_UI24_metadataTagHeader (md : FLVMetaData) (rest : List Nat) :
    rd (metadataTagHeader md ++ rest) 0 = 18
    ∧ FLV_UI24 (metadataTagHeader md ++ rest) 1 = md.metadatasize % 2 ^ 24 := by
  have r : ∀ j, j < 11 → rd (metadataTagHeader md ++ rest) j = (metadataTagHeader md).getD j 0 := by
    intro j hj
    exact rd_append_left _ _ _ (by simpa [metadataTagHeader] using hj)
  refine ⟨by rw [r 0 (by omega)]; rfl, ?_⟩
  simp only [FLV_UI24, r 1 (by omega), r (1 + 1) (by omega), r (1 + 2) (by omega)]
  simp only [metadataTagHeader, List.getD_cons_succ, List.getD_cons_zero, and_255,
    Nat.shiftLeft_eq, Nat.shiftRight_eq_div_pow]
  omega

/-- A buffer of the form of an output: 13 bytes, a script-data tag whose size
field does not wrap, and whole audio and video tags.  The walk from offset 13
steps over the script-data tag and visits the tags that follow: the copy loop
writes exactly those, pass 1 counts the keyframes among them, and the
script-data tag is the only tag of type 18. -/
theorem output_as_input (H R' : List Nat) (md : FLVMetaData) (tags : List (List Nat))
    (hH : H.length = 13)
    (hlen : (metadataTagHeader md ++ R').length = 11 + md.metadatasize + 4)
    (hM : md.metadatasize < 2 ^ 24)
    (hw : ∀ T ∈ tags, T.length = 11 + FLV_UI24 T 1 + 4 ∧ (rd T 0 == 8 || rd T 0 == 9) = true) :
    copied (H ++ (metadataTagHeader md ++ R') ++ tags.flatten)
        (specWalk (H ++ (metadataTagHeader md ++ R') ++ tags.flatten) 13
          (H ++ (metadataTagHeader md ++ R') ++ tags.flatten).length) = tags.flatten
    ∧ ((specWalk (H ++ (metadataTagHeader md ++ R') ++ tags.flatten) 13
          (H ++ (metadataTagHeader md ++ R') ++ tags.flatten).length).filter
            (isRecorded (H ++ (metadataTagHeader md ++ R') ++ tags.flatten))).length
        = (tags.filter (fun T => rd T 0 == 9 && keyframeTest (rd T 11))).length
    ∧ (specWalk (H ++ (metadataTagHeader md ++ R') ++ tags.flatten) 13
          (H ++ (metadataTagHeader md ++ R') ++ tags.flatten).length).filter
            (fun off => tagType (H ++ (metadataTagHeader md ++ R') ++ tags.flatten) off == 18)
        = [13] := by
  obtain ⟨h18, hsz⟩ := FLV_UI24_metadataTagHeader md R'
  rw [Nat.mod_eq_of_lt hM] at hsz
  have hw1 : ∀ T ∈ tags, T.length = 11 + FLV_UI24 T 1 + 4 := fun T h => (hw T h).1
  generalize hR : metadataTagHeader md ++ R' = R at hlen h18 hsz
  have hpre : (H ++ R).length = 13 + (11 + md.metadatasize + 4) := by
    rw [List.length_append, hH, hlen]
  have hy : (H ++ R ++ tags.flatten).length = (H ++ R).length + tags.flatten.length :=
    List.length_append _ _
  have r : ∀ j, j < R.length → rd (H ++ R ++ tags.flatten) (13 + j) = rd R j := by
    intro j hj
    rw [List.append_assoc, ← hH, rd_append_right, rd_append_left _ _ _ hj]
  have ht : tagType (H ++ R ++ tags.flatten) 13 = 18 := by
    have := r 0 (by omega)
    simp only [tagType]
    rw [show (13 : Nat) = 13 + 0 from rfl, this, h18]
  have hd : tagDataSize (H ++ R ++ tags.flatten) 13 = md.metadatasize := by
    simp only [tagDataSize, FLV_UI24]
    rw [show 13 + 1 + 1 = 13 + 2 from rfl, show 13 + 1 + 2 = 13 + 3 from rfl,
      r 1 (by omega), r 2 (by omega), r 3 (by omega), ← hsz]
    rfl
  obtain ⟨s1, s2, s3⟩ := whole_tags_seen tags hw1 ((H ++ R).length + tags.flatten.length - 1)
    (H ++ R) (by omega)
  have hwalk : specWalk (H ++ R ++ tags.flatten) 13 (H ++ R ++ tags.flatten).length
      = 13 :: specWalkFrom ((H ++ R).length + tags.flatten.length - 1) (H ++ R ++ tags.flatten)
          (H ++ R).length ((H ++ R).length + tags.flatten.length) := by
    unfold specWalk
    rw [hy]
    obtain ⟨n, hn⟩ : ∃ n, (H ++ R).length + tags.flatten.length = n + 1 :=
      ⟨(H ++ R).length + tags.flatten.length - 1, by omega⟩
    rw [hn]
    have hc : 13 + 11 ≤ n + 1
        ∧ 13 + (11 + tagDataSize (H ++ R ++ tags.flatten) 13 + 4) ≤ n + 1 := by
      rw [hd]; omega
    simp only [specWalkFrom, hc, and_self, if_true, Nat.add_sub_cancel]
    rw [hd, ← hpre]
  have hnav : isAudioVideo (H ++ R ++ tags.flatten) 13 = false := by
    unfold isAudioVideo
    rw [ht]
    rfl
  have hnr : isRecorded (H ++ R ++ tags.flatten) 13 = false := by
    unfold isRecorded
    rw [ht]
    rfl
  rw [hwalk]
  refine ⟨?_, ?_, ?_⟩
  · rw [copied_cons, hnav, s1]
    simp only [Bool.false_eq_true, if_false, List.nil_append]
    congr 1
    apply List.filter_eq_self.mpr
    intro T hT
    exact (hw T hT).2
  · rw [List.filter_cons, hnr]
    simp only [Bool.false_eq_true, if_false]
    exact s2
  · have h0 : (tags.filter (fun T => rd T 0 == 18)) = [] := by
      apply List.filter_eq_nil_iff.mpr
      intro T hT
      have := (hw T hT).2
      simp only [Bool.or_eq_true, beq_iff_eq] at this ⊢
      omega
    have hs := s3 18
    rw [h0, List.length_nil, List.length_eq_zero] at hs
    rw [List.filter_cons, hs, ht]
    rfl

/-- The output of `main` is 13 bytes of header, the script-data tag, and the
whole audio and video tags of the input. -/
theorem mainOutput_form (dc : Dbl → Nat → Nat) (flv : List Nat) (creator : Option (List Nat)) :
    ∃ R', metadataTagHeader (mainSummary dc flv creator).1 ++ R' = realTag dc flv creator
      ∧ mainOutput dc flv creator
          = writeFLVHeader (mainSummary dc flv creator).1
              ++ (metadataTagHeader (mainSummary dc flv creator).1 ++ R')
              ++ (copiedTags flv (mainWalk flv)).flatten := by
  have h := realTag_entries dc flv creator
  simp only [List.append_assoc] at h
  refine ⟨_, h.symm, ?_⟩
  rw [← h, mainOutput_eq, copied_eq_flatten]

theorem payloadSize_le (md : FLVMetaData) (hc : md.creator.length ≤ 256)
    (hm : md.metadatacreator.length ≤ 256) : payloadSize md ≤ 1073 + 18 * md.keyframes := by
  unfold payloadSize stringSize
  rw [writeFLVScriptDataString_ret_short _ (by omega),
    writeFLVScriptDataString_ret_short _ (by omega)]
  split_ifs <;> omega

theorem firstSummary_payloadSize_lt (flv : List Nat) (creator : Option (List Nat))
    (hk : (firstSummary flv creator).keyframes ≤ 932000) :
    payloadSize (firstSummary flv creator) < 2 ^ 24 := by
  obtain ⟨_, _, a3, a4, _⟩ := firstSummary_facts flv creator
  have := payloadSize_le (firstSummary flv creator)
    (by rw [a3]; exact initFLVMetaData_creator_length creator)
    (by rw [a4]; exact initFLVMetaData_metadatacreator_length creator)
  omega

theorem firstSummary_keyframes (flv : List Nat) (creator : Option (List Nat)) :
    (firstSummary flv creator).keyframes = ((mainWalk flv).filter (isRecorded flv)).length := by
  rw [(firstSummary_facts flv creator).2.2.2.2.2.1, specKeyframeIndex_length]

/-- The second run: when the payload of the script-data tag of the output is
shorter than 2^24 bytes, a run on that output walks from offset 13, steps over
the script-data tag, and finds the audio and video tags of the first input. -/
theorem rerun_seen (dc : Dbl → Nat → Nat) (flv : List Nat) (creator : Option (List Nat))
    (hM : payloadSize (firstSummary flv creator) < 2 ^ 24) :
    mainWalk (mainOutput dc flv creator)
        = specWalk (mainOutput dc flv creator) 13 (mainOutput dc flv creator).length
    ∧ copied (mainOutput dc flv creator) (mainWalk (mainOutput dc flv creator))
        = copied flv (mainWalk flv)
    ∧ (firstSummary (mainOutput dc flv creator) creator).keyframes
        = (firstSummary flv creator).keyframes
    ∧ (specWalk (mainOutput dc flv creator) 13 (mainOutput dc flv creator).length).filter
          (fun off => tagType (mainOutput dc flv creator) off == 18) = [13] := by
  obtain ⟨R', hR, hy⟩ := mainOutput_form dc flv creator
  have hms : (mainSummary dc flv creator).1.metadatasize = payloadSize (firstSummary flv creator) := by
    rw [mainSummary_metadatasize, mainSummary_payloadSize]
  have hlen : (metadataTagHeader (mainSummary dc flv creator).1 ++ R').length
      = 11 + (mainSummary dc flv creator).1.metadatasize + 4 := by
    rw [hR, realTag_length, mainSummary_metadatasize]
  obtain ⟨o1, o2, o3⟩ := output_as_input (writeFLVHeader (mainSummary dc flv creator).1) R'
    (mainSummary dc flv creator).1 (copiedTags flv (mainWalk flv))
    (writeFLVHeader_length _) hlen (by rw [hms]; exact hM)
    (copiedTags_whole flv (mainWalk flv) (mainWalk_bound flv))
  rw [← hy] at o1 o2 o3
  have hw : mainWalk (mainOutput dc flv creator)
      = specWalk (mainOutput dc flv creator) 13 (mainOutput dc flv creator).length := by
    unfold mainWalk
    rw [show mainStreampos (mainOutput dc flv creator) = 13 by
      rw [hy, List.append_assoc]; exact mainStreampos_writeFLVHeader _ _]
  refine ⟨hw, ?_, ?_, o3⟩
  · rw [hw, o1, copied_eq_flatten]
  · rw [firstSummary_keyframes, firstSummary_keyframes, hw, o2, copiedTags_recorded]

/-- Behind the 13 bytes of header and the script-data tag, the output holds
what the copy loop wrote. -/
theorem mainOutput_drop (dc : Dbl → Nat → Nat) (flv : List Nat) (creator : Option (List Nat)) :
    (mainOutput dc flv creator).drop (13 + (realTag dc flv creator).length)
      = copied flv (mainWalk flv) := by
  conv_lhs => rw [mainOutput_eq]
  exact List.drop_left' (by rw [List.length_append, writeFLVHeader_length])

theorem mainOutput_take (dc : Dbl → Nat → Nat) (flv : List Nat) (creator : Option (List Nat)) :
    (mainOutput dc flv creator).take 3 = [70, 76, 86] := by
  rw [mainOutput_eq, List.append_assoc]
  exact take_writeFLVHeader _ _

/-! ## A truncated tail -/

theorem tagDataSize_append_left (p q : List Nat) (s : Nat) (h : s + 4 ≤ p.length) :
    tagDataSize (p ++ q) s = tagDataSize p s := by
  simp only [tagDataSize, FLV_UI24]
  rw [rd_append_left p q _ (by omega), rd_append_left p q _ (by omega),
    rd_append_left p q _ (by omega)]

/-- The walker does not see an incomplete tag behind a buffer whose walk ends
at its end: the walk of `p ++ q` visits the tags of the walk of `p`. -/
theorem specWalkFrom_append_tail (p q : List Nat) (hq : isIncompleteTag q) :
    ∀ (fuel s : Nat), specWalkEnd fuel p s p.length = p.length →
      specWalkFrom fuel (p ++ q) s (p.length + q.length) = specWalkFrom fuel p s p.length := by
  intro fuel
  induction fuel with
  | zero => intro s _; rfl
  | succ n ih =>
    intro s hend
    by_cases hc : s + 11 ≤ p.length ∧ s + (11 + tagDataSize p s + 4) ≤ p.length
    · have hd := tagDataSize_append_left p q s (by omega)
      have hc' : s + 11 ≤ p.length + q.length
          ∧ s + (11 + tagDataSize (p ++ q) s + 4) ≤ p.length + q.length := by
        rw [hd]; omega
      rw [specWalkEnd, if_pos hc] at hend
      rw [specWalkFrom, if_pos hc', specWalkFrom, if_pos hc, hd, ih _ hend]
    · rw [specWalkEnd, if_neg hc] at hend
      subst hend
      have hd : tagDataSize (p ++ q) p.length = FLV_UI24 q 1 := by
        simp only [tagDataSize, FLV_UI24]
        rw [rd_append_right, show p.length + 1 + 1 = p.length + 2 from rfl, rd_append_right,
          show p.length + 1 + 2 = p.length + 3 from rfl, rd_append_right]
      have hc' : ¬ (p.length + 11 ≤ p.length + q.length
          ∧ p.length + (11 + tagDataSize (p ++ q) p.length + 4) ≤ p.length + q.length) := by
        rw [hd]
        unfold isIncompleteTag at hq
        omega
      rw [specWalkFrom, if_neg hc', specWalkFrom, if_neg hc]

theorem specWalkEnd_fuel (flv : List Nat) (filesize : Nat) :
    ∀ (fuel₁ fuel₂ streampos : Nat), filesize ≤ streampos + fuel₁ → filesize ≤ streampos + fuel₂ →
      specWalkEnd fuel₁ flv streampos filesize = specWalkEnd fuel₂ flv streampos filesize := by
  intro fuel₁
  induction fuel₁ with
  | zero =>
    intro fuel₂ s h₁ _
    cases fuel₂ with
    | zero => rfl
    | succ m =>
      have : ¬ (s + 11 ≤ filesize ∧ s + (11 + tagDataSize flv s + 4) ≤ filesize) := by omega
      simp [specWalkEnd, this]
  | succ n ih =>
    intro fuel₂ s h₁ h₂
    cases fuel₂ with
    | zero =>
      have : ¬ (s + 11 ≤ filesize ∧ s + (11 + tagDataSize flv s + 4) ≤ filesize) := by omega
      simp [specWalkEnd, this]
    | succ m =>
      by_cases h : s + 11 ≤ filesize ∧ s + (11 + tagDataSize flv s + 4) ≤ filesize
      · simp only [specWalkEnd, h, and_self, if_true]
        rw [ih m (s + (11 + tagDataSize flv s + 4)) (by omega) (by omega)]
      · simp [specWalkEnd, h]

theorem copied_append_left (p q : List Nat) (walk : List Nat)
    (hb : ∀ off ∈ walk, off + footprintSize p off ≤ p.length) :
    copied (p ++ q) walk = copied p walk := by
  induction walk with
  | nil => simp [copied]
  | cons off rest ih =>
    have hoff := hb off (List.mem_cons_self _ _)
    have h15 := footprintSize_ge p off
    have hd : tagDataSize (p ++ q) off = tagDataSize p off :=
      tagDataSize_append_left p q off (by omega)
    have hav : isAudioVideo (p ++ q) off = isAudioVideo p off := by
      simp only [isAudioVideo, tagType]
      rw [rd_append_left p q off (by omega)]
    have hfp : footprint (p ++ q) off = footprint p off := by
      simp only [footprint, footprintSize, slice, hd]
      rw [List.drop_append_of_le_length (by omega), List.take_append_of_le_length]
      rw [List.length_drop]
      unfold footprintSize at hoff
      omega
    rw [copied_cons, copied_cons, hav, hfp, ih (fun o ho => hb o (List.mem_cons_of_mem _ ho))]

/-- A truncated tail behind a buffer whose walk ends at its end: the three
loops walk the tags that they walk in the buffer alone, and the copy loop
writes the same bytes. -/
theorem truncated_tail_walk (p q : List Nat) (s : Nat) (hq : isIncompleteTag q)
    (hend : specWalkEnd p.length p s p.length = p.length) :
    specWalk (p ++ q) s (p ++ q).length = specWalk p s p.length
    ∧ writeFLVLoop (p ++ q).length (p ++ q) s (p ++ q).length
        = writeFLVLoop p.length p s p.length := by
  have hw : specWalk (p ++ q) s (p ++ q).length = specWalk p s p.length := by
    by_cases hs : s ≤ p.length
    · unfold specWalk
      rw [List.length_append,
        specWalkFrom_append_tail p q hq (p.length + q.length) s (by
          rw [specWalkEnd_fuel p p.length (p.length + q.length) p.length s (by omega) (by omega)]
          exact hend)]
      exact specWalkFrom_fuel p p.length _ _ s (by omega) (by omega)
    · exfalso
      have h0 : specWalkEnd p.length p s p.length = s := by
        cases hp : p.length with
        | zero => rfl
        | succ n =>
          rw [specWalkEnd, if_neg (by omega)]
      omega
  refine ⟨hw, ?_⟩
  rw [writeFLVLoop_eq_copied, writeFLVLoop_eq_copied, hw]
  exact copied_append_left p q _ (fun off h => specWalkFrom_bound p p.length _ _ off h)

/-! ## A second run on an output whose size field has wrapped -/

theorem keyTags_eq_flatten (n : Nat) :
    keyTags n = (List.replicate n (videoTag 0x12 0)).flatten := by
  induction n with
  | zero => rfl
  | succ k ih => rw [keyTags, ih, List.replicate_succ, List.flatten_cons]

/-- The walk of a file of keyframe tags: no audio tag is visited, and the copy
loop writes all the tags. -/
theorem keyTags_seen (n : Nat) :
    (mainWalk (videoFileHeader ++ keyTags n)).filter
        (fun off => tagType (videoFileHeader ++ keyTags n) off == 8) = []
    ∧ copied (videoFileHeader ++ keyTags n) (mainWalk (videoFileHeader ++ keyTags n))
        = keyTags n := by
  have hw : ∀ T ∈ List.replicate n (videoTag 0x12 0), T.length = 11 + FLV_UI24 T 1 + 4 := by
    intro T hT
    rw [(List.mem_replicate.mp hT).2]
    decide
  have hv : ∀ T ∈ List.replicate n (videoTag 0x12 0), T = videoTag 0x12 0 :=
    fun T hT => (List.mem_replicate.mp hT).2
  rw [keyTags_eq_flatten]
  generalize List.replicate n (videoTag 0x12 0) = tags at hw hv
  obtain ⟨s1, _, s3⟩ := whole_tags_seen tags hw
    (videoFileHeader ++ tags.flatten).length videoFileHeader
    (by rw [List.length_append]; omega)
  have hwalk : mainWalk (videoFileHeader ++ tags.flatten)
      = specWalkFrom (videoFileHeader ++ tags.flatten).length (videoFileHeader ++ tags.flatten)
          videoFileHeader.length (videoFileHeader.length + tags.flatten.length) := by
    unfold mainWalk specWalk
    rw [mainStreampos_videoFileHeader, List.length_append]
    rfl
  rw [← hwalk] at s1 s3
  constructor
  · have h8 := s3 8
    rw [← List.length_eq_zero, h8, List.length_eq_zero]
    apply List.filter_eq_nil_iff.mpr
    intro T hT
    rw [hv T hT]
    decide
  · have hfil : tags.filter (fun T => rd T 0 == 8 || rd T 0 == 9) = tags := by
      apply List.filter_eq_self.mpr
      intro T hT
      rw [hv T hT]
      decide
    rw [s1, hfil]

theorem firstSummary_audioFields (flv : List Nat) (creator : Option (List Nat)) :
    audioFields (firstSummary flv creator)
      = (match (mainWalk flv).find? (fun off => tagType flv off == 8) with
         | none => audioFields (initFLVMetaData creator)
         | some off => specAudioFields (tagFlags flv off)) := by
  unfold firstSummary mainWalk
  rw [readFLVFirstPass_eq_foldl]
  obtain ⟨_, _, _, _, e1, e2, e3, e4, e5⟩ := firstPassFinish_seen
    ((specWalk flv (mainStreampos flv) flv.length).foldl
      (fun st off => firstPassTag flv off (footprintSize flv off) st)
      { md := initFLVMetaData creator, videosize := 0, audiosize := 0, videotags := 0,
        audiotags := 0 })
  rw [← firstPass_foldl_audio flv (specWalk flv (mainStreampos flv) flv.length)
    { md := initFLVMetaData creator, videosize := 0, audiosize := 0, videotags := 0,
      audiotags := 0 } rfl]
  simp only [audioFields, e1, e2, e3, e4, e5]

theorem firstSummary_hasAudio_zero (flv : List Nat) (creator : Option (List Nat))
    (h : (mainWalk flv).filter (fun off => tagType flv off == 8) = []) :
    (firstSummary flv creator).hasAudio = 0 := by
  have hf : (mainWalk flv).find? (fun off => tagType flv off == 8) = none := by
    rw [List.find?_eq_none]
    exact List.filter_eq_nil_iff.mp h
  have := firstSummary_audioFields flv creator
  rw [hf] at this
  exact congrArg (fun t => t.2.2.2.2) this

theorem keyTagsInput_keyframes (n : Nat) (creator : Option (List Nat)) :
    (firstSummary (videoFileHeader ++ keyTags n) creator).keyframes = n := by
  rw [firstSummary_keyframes]
  unfold mainWalk specWalk
  rw [mainStreampos_videoFileHeader, List.length_append, keyTags_length]
  exact keyTags_recorded n _ videoFileHeader (by omega)

theorem payloadSize_bounds (md : FLVMetaData) (k : Nat) (hh : md.hasKeyframes = 1)
    (hk : md.keyframes = k) (ha : md.hasAudio = 0) (hc : md.creator.length = 255)
    (hs : stringSize md.creator = 257) (hm : stringSize md.metadatacreator = 53) :
    618 + 18 * k ≤ payloadSize md ∧ payloadSize md ≤ 738 + 18 * k := by
  unfold payloadSize
  rw [hh, hk, ha, hc, hm, hs]
  simp only [show ((255 : Nat) != 0) = true from rfl, show ((0 : Nat) == 1) = false from rfl,
    show ((1 : Nat) == 1) = true from rfl, if_true, Bool.false_eq_true, if_false]
  constructor <;> split_ifs <;> omega

theorem rerunCreator_length : rerunCreator.length = 255 := List.length_replicate _ _

theorem rerunCreator_stringSize : stringSize rerunCreator = 257 := by
  unfold stringSize
  rw [writeFLVScriptDataString_ret_short _ (by rw [rerunCreator_length]; omega),
    rerunCreator_length]

theorem rerunInput_creator (flv : List Nat) :
    (firstSummary flv (some rerunCreator)).creator = rerunCreator := by
  rw [(firstSummary_facts flv (some rerunCreator)).2.2.1]
  exact List.take_of_length_le (by rw [rerunCreator_length]; omega)

theorem firstSummary_metadatacreator (flv : List Nat) (creator : Option (List Nat)) :
    stringSize (firstSummary flv creator).metadatacreator = 53 := by
  rw [(firstSummary_facts flv creator).2.2.2.1,
    show (initFLVMetaData creator).metadatacreator = (initFLVMetaData none).metadatacreator
      from rfl]
  decide

/-- The payload of the script-data tag for `rerunInput` with the creator
`rerunCreator` is longer than 2^24 bytes, by 122 to 242 bytes. -/
theorem rerunInput_payloadSize :
    2 ^ 24 + 122 ≤ payloadSize (firstSummary rerunInput (some rerunCreator))
    ∧ payloadSize (firstSummary rerunInput (some rerunCreator)) ≤ 2 ^ 24 + 242 := by
  have a6 := (firstSummary_facts rerunInput (some rerunCreator)).2.2.2.2.2.1
  have a7 := (firstSummary_facts rerunInput (some rerunCreator)).2.2.2.2.2.2.1
  have hk : (firstSummary rerunInput (some rerunCreator)).keyframes = 932040 :=
    keyTagsInput_keyframes 932040 _
  have hh : (firstSummary rerunInput (some rerunCreator)).hasKeyframes = 1 := by
    rw [a7, ← a6, hk]; rfl
  have ha : (firstSummary rerunInput (some rerunCreator)).hasAudio = 0 :=
    firstSummary_hasAudio_zero _ _ (keyTags_seen 932040).1
  have hc := rerunInput_creator rerunInput
  have hs : stringSize (firstSummary rerunInput (some rerunCreator)).creator = 257 := by
    rw [hc]; exact rerunCreator_stringSize
  have := payloadSize_bounds _ 932040 hh hk ha (by rw [hc, rerunCreator_length]) hs
    (firstSummary_metadatacreator _ _)
  omega

theorem flatMap_head {α : Type} (f : α → List Nat) (l : List α) (e : α)
    (h : l.head? = some e) : l.flatMap f = f e ++ (l.drop 1).flatMap f := by
  cases l with
  | nil => simp at h
  | cons a t =>
    simp only [List.head?_cons, Option.some.injEq] at h
    subst h
    simp [List.flatMap]

theorem mainSummary_creator (dc : Dbl → Nat → Nat) (flv : List Nat)
    (creator : Option (List Nat)) :
    (mainSummary dc flv creator).1.creator = (initFLVMetaData creator).creator := by
  rw [mainSummary_eq]
  exact (firstSummary_facts flv creator).2.2.1

/-- The creator string lies at offset 41 of the script-data tag: behind the tag
header, the object marker, the name onMetaData, the array marker and count, the
name creator, the string marker and the length. -/
theorem realTag_creator (dc : Dbl → Nat → Nat) (flv : List Nat) (s : List Nat)
    (h0 : s.length ≠ 0) (h256 : s.length ≤ 256) (i : Nat) (hi : i < s.length) :
    rd (realTag dc flv (some s)) (41 + i) = rd s i := by
  have hc : (mainSummary dc flv (some s)).1.creator = s := by
    rw [mainSummary_creator]
    exact List.take_of_length_le h256
  have hcond : ((mainSummary dc flv (some s)).1.creator.length != 0) = true := by
    rw [hc]; simpa using h0
  have hlong : ¬ s.length > 65535 := by omega
  have he : (specMetaEntries (mainSummary dc flv (some s)).1).flatMap (specEntry dc)
      = specName (cstr "creator") ++ [2] ++ beBytes 2 s.length ++ s
        ++ ((specMetaEntries (mainSummary dc flv (some s)).1).drop 1).flatMap (specEntry dc) := by
    have hh : (specMetaEntries (mainSummary dc flv (some s)).1).head?
        = some (cstr "creator", ScriptValue.string s) := by
      unfold specMetaEntries
      rw [if_pos hcond, hc]
      rfl
    rw [flatMap_head _ _ _ hh]
    simp only [specEntry, specValue, if_neg hlong, List.append_assoc]
  have h := realTag_entries dc flv (some s)
  rw [he] at h
  have hP : (metadataTagHeader (mainSummary dc flv (some s)).1 ++ [2]
      ++ specName (cstr "onMetaData") ++ [8]
      ++ beBytes 4 (specMetaEntries (mainSummary dc flv (some s)).1).length
      ++ (specName (cstr "creator") ++ [2] ++ beBytes 2 s.length)).length = 41 := by
    simp only [List.length_append, metadataTagHeader_length, beBytes_four_length,
      List.length_singleton, specName, beBytes, List.length_cons, List.length_nil]
    rw [show (cstr "onMetaData").length = 10 by decide, show (cstr "creator").length = 7 by decide]
  have hb : realTag dc flv (some s)
      = (metadataTagHeader (mainSummary dc flv (some s)).1 ++ [2]
          ++ specName (cstr "onMetaData") ++ [8]
          ++ beBytes 4 (specMetaEntries (mainSummary dc flv (some s)).1).length
          ++ (specName (cstr "creator") ++ [2] ++ beBytes 2 s.length))
        ++ (s ++ (((specMetaEntries (mainSummary dc flv (some s)).1).drop 1).flatMap (specEntry dc)
          ++ beBytes 4 (11 + ((realTag dc flv (some s)).length - 15)))) := by
    conv_lhs => rw [h]
    simp only [List.append_assoc]
  rw [hb, ← hP, rd_append_right, rd_append_left _ _ _ hi]

theorem rd_rerunCreator (j : Nat) (h : j < 255) : rd rerunCreator j = 9 := by
  simp only [rd, rerunCreator, List.getD_eq_getElem?_getD, List.getElem?_replicate, h, if_true,
    Option.getD_some]

/-- The walk of a buffer `H ++ R ++ T` in which `R` begins with the header of
a script-data tag whose size field holds a number `r` from 122 to 242, and
holds 255 bytes 9 from offset 41: the walk steps from offset 13 to offset
13 + 11 + r + 4, into the bytes 9, takes them for the header of a video tag with
592137 bytes of data, and the copy loop writes that tag first. -/
theorem wrapped_walk (H R T : List Nat) (r : Nat) (hH : H.length = 13)
    (hR : 592167 + r ≤ R.length) (h18 : rd R 0 = 18) (hsz : FLV_UI24 R 1 = r)
    (hc : ∀ i, i < 255 → rd R (41 + i) = 9) (hlo : 122 ≤ r) (hhi : r ≤ 242) :
    rd (copied (H ++ R ++ T) (specWalk (H ++ R ++ T) 13 (H ++ R ++ T).length)) 1 = 9 := by
  have hy : (H ++ R ++ T).length = 13 + R.length + T.length := by
    rw [List.length_append, List.length_append, hH]
  have rdy : ∀ j, j < R.length → rd (H ++ R ++ T) (13 + j) = rd R j := by
    intro j hj
    rw [List.append_assoc, ← hH, rd_append_right, rd_append_left _ _ _ hj]
  have ht : tagType (H ++ R ++ T) 13 = 18 := by
    have := rdy 0 (by omega)
    simp only [tagType]
    rw [show (13 : Nat) = 13 + 0 from rfl, this, h18]
  have hd : tagDataSize (H ++ R ++ T) 13 = r := by
    simp only [tagDataSize, FLV_UI24]
    rw [show 13 + 1 + 1 = 13 + 2 from rfl, show 13 + 1 + 2 = 13 + 3 from rfl,
      rdy 1 (by omega), rdy 2 (by omega), rdy 3 (by omega), ← hsz]
    rfl
  have r9 : ∀ i, i < 4 → rd (H ++ R ++ T) (13 + (11 + r + 4) + i) = 9 := by
    intro i hi
    rw [show 13 + (11 + r + 4) + i = 13 + (41 + (r - 26 + i)) by omega,
      rdy _ (by omega), hc _ (by omega)]
  have ht2 : tagType (H ++ R ++ T) (13 + (11 + r + 4)) = 9 := by
    have := r9 0 (by omega)
    rwa [Nat.add_zero] at this
  have hd2 : tagDataSize (H ++ R ++ T) (13 + (11 + r + 4)) = 592137 := by
    simp only [tagDataSize, FLV_UI24]
    rw [show 13 + (11 + r + 4) + 1 + 1 = 13 + (11 + r + 4) + 2 from rfl,
      show 13 + (11 + r + 4) + 1 + 2 = 13 + (11 + r + 4) + 3 from rfl,
      r9 1 (by omega), r9 2 (by omega), r9 3 (by omega)]
    rfl
  have hwalk : ∃ rest, specWalk (H ++ R ++ T) 13 (H ++ R ++ T).length
      = 13 :: (13 + (11 + r + 4)) :: rest := by
    unfold specWalk
    obtain ⟨n, hn⟩ : ∃ n, (H ++ R ++ T).length = n + 2 := ⟨(H ++ R ++ T).length - 2, by omega⟩
    rw [hn]
    have hc1 : 13 + 11 ≤ n + 2 ∧ 13 + (11 + tagDataSize (H ++ R ++ T) 13 + 4) ≤ n + 2 := by
      rw [hd]; omega
    have hc2 : 13 + (11 + r + 4) + 11 ≤ n + 2
        ∧ 13 + (11 + r + 4)
            + (11 + tagDataSize (H ++ R ++ T) (13 + (11 + r + 4)) + 4) ≤ n + 2 := by
      rw [hd2]; omega
    rw [specWalkFrom, if_pos hc1, hd, specWalkFrom, if_pos hc2]
    exact ⟨_, rfl⟩
  obtain ⟨rest, hw⟩ := hwalk
  have hnav : isAudioVideo (H ++ R ++ T) 13 = false := by
    unfold isAudioVideo
    rw [ht]
    rfl
  have hav : isAudioVideo (H ++ R ++ T) (13 + (11 + r + 4)) = true := by
    unfold isAudioVideo
    rw [ht2]
    rfl
  have hfs : footprintSize (H ++ R ++ T) (13 + (11 + r + 4)) = 592152 := by
    unfold footprintSize
    rw [hd2]
  have hfl : (footprint (H ++ R ++ T) (13 + (11 + r + 4))).length = 592152 := by
    rw [footprint_length _ _ (by rw [hfs, hy]; omega), hfs]
  rw [hw, copied_cons, copied_cons, hnav, hav]
  simp only [Bool.false_eq_true, if_false, if_true, List.nil_append]
  rw [rd_append_left _ _ _ (by rw [hfl]; omega), rd_footprint _ _ _ (by rw [hfs]; omega)]
  exact r9 1 (by omega)

/-- The second run on the output for `rerunInput` with the creator
`rerunCreator`: the second byte that its copy loop writes is a byte 9 of the
creator string. -/
theorem rerun_wrapped (dc : Dbl → Nat → Nat) :
    rd (copied (mainOutput dc rerunInput (some rerunCreator))
          (mainWalk (mainOutput dc rerunInput (some rerunCreator)))) 1 = 9 := by
  obtain ⟨hlo, hhi⟩ := rerunInput_payloadSize
  obtain ⟨R', hR, hy⟩ := mainOutput_form dc rerunInput (some rerunCreator)
  have hms : (mainSummary dc rerunInput (some rerunCreator)).1.metadatasize
      = payloadSize (firstSummary rerunInput (some rerunCreator)) := by
    rw [mainSummary_metadatasize, mainSummary_payloadSize]
  obtain ⟨h18, hsz⟩ := FLV_UI24_metadataTagHeader (mainSummary dc rerunInput (some rerunCreator)).1
    R'
  rw [hR] at h18 hsz
  rw [hms] at hsz
  have hlen : (realTag dc rerunInput (some rerunCreator)).length
      = 11 + payloadSize (firstSummary rerunInput (some rerunCreator)) + 4 := by
    rw [realTag_length, mainSummary_payloadSize]
  have hw : mainWalk (mainOutput dc rerunInput (some rerunCreator))
      = specWalk (mainOutput dc rerunInput (some rerunCreator)) 13
          (mainOutput dc rerunInput (some rerunCreator)).length := by
    unfold mainWalk
    rw [show mainStreampos (mainOutput dc rerunInput (some rerunCreator)) = 13 by
      rw [hy, List.append_assoc]; exact mainStreampos_writeFLVHeader _ _]
  rw [hw]
  rw [hR] at hy
  rw [hy]
  exact wrapped_walk _ _ _ _ (writeFLVHeader_length _) (by rw [hlen]; omega) h18 hsz
    (fun i hi => by
      rw [realTag_creator dc rerunInput rerunCreator (by rw [rerunCreator_length]; omega)
        (by rw [rerunCreator_length]; omega) i (by rw [rerunCreator_length]; exact hi)]
      exact rd_rerunCreator i hi)
    (by omega) (by omega)

/-! ## Outputs on a host with IEEE-754 doubles -/

set_option maxRecDepth 100000 in
/-- The outputs for `shortVp6Input` with the tails 05 and 06 differ. -/
theorem shortVp6Input_tails :
    main ieeeHost (shortVp6Input ++ [5]) none ≠ main ieeeHost (shortVp6Input ++ [6]) none := by
  decide

/-! ## Strings longer than 65535 bytes -/

theorem writeFLVScriptDataString_out_long (s : List Nat) (h : 0xffff < s.length)
    (h32 : s.length ≤ 0xffffffff) :
    (writeFLVScriptDataString s).out = beBytes 4 s.length ++ s := by
  have h1 : s.length > 0xffff := h
  have h2 : ¬ s.length > 0xffffffff := by omega
  simp only [writeFLVScriptDataString, writeFLVScriptDataLongString, h1, h2, if_true, if_false,
    Wr.andThen, fwrite, beBytes_four, List.take_length]
  rfl

theorem writeFLVScriptDataValueString_out_long (name value : List Nat)
    (hn : name.length ≤ 0xffff) (h : 0xffff < value.length) (h32 : value.length ≤ 0xffffffff) :
    (writeFLVScriptDataValueString (some name) value).out
      = specName name ++ [2] ++ beBytes 4 value.length ++ value := by
  simp only [writeFLVScriptDataValueString, writeName, Wr.andThen,
    writeFLVScriptDataString_out_long value h h32, writeFLVScriptDataString_out_short name hn,
    fwrite, List.take_succ_cons, List.take_zero, List.append_assoc]

theorem longValue_length : longValue.length = 65536 := List.length_replicate _ _

/-! ## The bytes that pass 1 reads -/

theorem firstVideoReads_le (flags : Nat) (payload : Nat → Nat) :
    ∀ k ∈ firstVideoReads flags payload, k ≤ 8 := by
  intro k hk
  unfold firstVideoReads at hk
  split at hk
  · unfold readFLVH263VideoPacketReads at hk
    simp only [List.mem_append] at hk
    rcases hk with hk | hk
    · simp at hk; omega
    · split at hk
      · simp at hk
      · simp only [List.mem_append] at hk
        rcases hk with hk | hk
        · simp at hk; omega
        · split at hk <;> simp at hk <;> omega
  all_goals
    simp [readFLVScreenVideoPacketReads, readFLVVP62VideoPacketReads,
      readFLVVP62AlphaVideoPacketReads] at hk
  all_goals omega

/-- The reads of one iteration are in the header or at the flags byte, or they
are reads of the codec header of a video tag, in the 9 bytes after the flags
byte. -/
theorem firstPassTagReads_bound (flv : List Nat) (s : Nat) (st : FirstPassState) :
    ∀ r ∈ firstPassTagReads flv s st,
      r ≤ s + 11 ∨ (tagType flv s = 9 ∧ s + 12 ≤ r ∧ r ≤ s + 20) := by
  intro r hr
  unfold firstPassTagReads at hr
  simp only [FLV_AUDIODATA, FLV_VIDEODATA, sizeofFLVTag, List.mem_append] at hr
  rcases hr with (hr | hr) | hr
  · simp at hr; omega
  · split at hr
    · simp only [List.mem_append] at hr
      rcases hr with hr | hr
      · simp at hr; omega
      · split at hr <;> simp at hr
        omega
    · split at hr
      · rename_i _ h9
        have h9' : tagType flv s = 9 := by simpa using h9
        simp only [List.mem_append] at hr
        rcases hr with ((hr | hr) | hr) | hr
        · simp at hr; omega
        · split at hr
          · simp only [List.mem_append, List.mem_map] at hr
            rcases hr with hr | ⟨k, hk, rfl⟩
            · simp at hr; omega
            · have := firstVideoReads_le _ _ k hk
              right
              exact ⟨h9', by omega, by omega⟩
          · simp at hr
        · simp at hr; omega
        · split at hr <;> simp at hr
          omega
      · simp at hr
  · simp at hr; omega

/-- Every read of the loop of pass 1 is inside the buffer, or it is a read of
the codec header of a walked video tag, in the 9 bytes after its flags
byte. -/
theorem readFLVFirstPassReads_bound (flv : List Nat) (filesize : Nat) :
    ∀ (fuel streampos : Nat) (st : FirstPassState),
      ∀ r ∈ readFLVFirstPassReads fuel flv streampos filesize st,
        r < filesize ∨ ∃ off ∈ specWalkFrom fuel flv streampos filesize,
          tagType flv off = 9 ∧ off + 12 ≤ r ∧ r ≤ off + 20 := by
  intro fuel
  induction fuel with
  | zero => intro s st r hr; simp [readFLVFirstPassReads] at hr
  | succ n ih =>
    intro s st r hr
    by_cases h₁ : s + 11 > filesize
    · simp [readFLVFirstPassReads, sizeofFLVTag, h₁] at hr
    · by_cases h₂ : s + (11 + tagDataSize flv s + 4) > filesize
      · simp [readFLVFirstPassReads, sizeofFLVTag, h₁, h₂] at hr
        omega
      · have h : s + 11 ≤ filesize ∧ s + (11 + tagDataSize flv s + 4) ≤ filesize := by omega
        simp only [readFLVFirstPassReads, sizeofFLVTag, h₁, h₂, if_false, List.mem_append] at hr
        simp only [specWalkFrom, h, and_self, if_true, List.mem_cons, exists_eq_or_imp]
        rcases hr with hr | hr | hr
        · simp at hr; omega
        · rcases firstPassTagReads_bound flv s st r hr with hb | hb
          · left; omega
          · right; left; exact hb
        · rcases ih _ _ r hr with hb | ⟨off, ho, hb⟩
          · left; exact hb
          · right; right; exact ⟨off, ho, hb⟩

/-! ## The per-stream sizes of pass 1 -/

theorem readFLVH263VideoPacket_streamSizes (h263 : Nat → Nat) (md : FLVMetaData) :
    streamSizes (readFLVH263VideoPacket h263 md) = streamSizes md := by
  unfold readFLVH263VideoPacket streamSizes
  simp only
  split
  · rfl
  · split <;> rfl

theorem firstVideo_streamSizes (flags : Nat) (payload : Nat → Nat) (md : FLVMetaData) :
    streamSizes (firstVideo flags payload md) = streamSizes md := by
  unfold firstVideo
  simp only
  split
  · exact readFLVH263VideoPacket_streamSizes payload _
  all_goals rfl

theorem firstAudio_streamSizes (flags : Nat) (md : FLVMetaData) :
    streamSizes (firstAudio flags md) = streamSizes md := by
  unfold firstAudio streamSizes
  simp only
  split <;> split <;> rfl

theorem firstPassKeyframe_streamSizes (flv : List Nat) (off : Nat) (md : FLVMetaData) :
    streamSizes (firstPassKeyframe flv off md) = streamSizes md := by
  unfold firstPassKeyframe
  split <;> rfl

/-- What one iteration of pass 1 does to the two per-stream sizes. -/
theorem firstPassTag_streamSizes (flv : List Nat) (off d : Nat) (st : FirstPassState) :
    streamSizes (firstPassTag flv off d st).md =
      (if tagType flv off = 8 then
         (Dbl.add st.md.audiosize (Dbl.ofNat (d - 4)), st.md.videosize)
       else if tagType flv off = 9 then
         (st.md.audiosize, Dbl.add st.md.videosize (Dbl.ofNat (d - 4)))
       else (st.md.audiosize, st.md.videosize)) := by
  unfold firstPassTag
  simp only [FLV_AUDIODATA, FLV_VIDEODATA]
  by_cases ha : tagType flv off = 8
  · have h8 : (tagType flv off == 8) = true := by simpa using ha
    simp only [h8, if_true, ha]
    show streamSizes (firstPassAudio flv off d st).md = _
    unfold firstPassAudio
    simp only
    split
    · rw [firstAudio_streamSizes]; rfl
    · rfl
  · have h8 : (tagType flv off == 8) = false := by simpa using ha
    simp only [h8, Bool.false_eq_true, if_false, ha]
    by_cases hv : tagType flv off = 9
    · have h9 : (tagType flv off == 9) = true := by simpa using hv
      simp only [h9, if_true, hv]
      show streamSizes (firstPassVideo flv off d st).md = _
      unfold firstPassVideo
      simp only
      split
      · rw [firstPassKeyframe_streamSizes, firstVideo_streamSizes]; rfl
      · rw [firstPassKeyframe_streamSizes]; rfl
    · have h9 : (tagType flv off == 9) = false := by simpa using hv
      simp only [h9, hv, Bool.false_eq_true, if_false]
      rfl

theorem specStreamSize_cons (flv : List Nat) (t off : Nat) (walk : List Nat) :
    specStreamSize flv t (off :: walk) =
      (if tagType flv off = t then 11 + tagDataSize flv off else 0)
        + specStreamSize flv t walk := by
  unfold specStreamSize
  by_cases h : tagType flv off = t
  · have hb : (tagType flv off == t) = true := by simpa using h
    simp [List.filter_cons, hb, h]
  · have hb : (tagType flv off == t) = false := by simpa using h
    simp [List.filter_cons, hb, h]

theorem specTagCount_cons (flv : List Nat) (t off : Nat) (walk : List Nat) :
    specTagCount flv t (off :: walk) =
      (if tagType flv off = t then 1 else 0) + specTagCount flv t walk := by
  unfold specTagCount
  by_cases h : tagType flv off = t
  · have hb : (tagType flv off == t) = true := by simpa using h
    simp [List.filter_cons, hb, h]
    omega
  · have hb : (tagType flv off == t) = false := by simpa using h
    simp [List.filter_cons, hb, h]

/-- The loop of pass 1 adds `11 + D` to `audiosize` for every audio tag and to
`videosize` for every video tag. -/
theorem firstPass_foldl_streamSizes (flv : List Nat) (walk : List Nat) :
    ∀ (st : FirstPassState) (a v : Nat),
      st.md.audiosize = Dbl.ofNat a → st.md.videosize = Dbl.ofNat v →
      streamSizes
          (walk.foldl (fun st off => firstPassTag flv off (footprintSize flv off) st) st).md
        = (Dbl.ofNat (a + specStreamSize flv 8 walk), Dbl.ofNat (v + specStreamSize flv 9 walk)) := by
  induction walk with
  | nil => intro st a v ha hv; simp [streamSizes, specStreamSize, ha, hv]
  | cons off rest ih =>
    intro st a v ha hv
    have hstep := firstPassTag_streamSizes flv off (footprintSize flv off) st
    have hd : footprintSize flv off - 4 = 11 + tagDataSize flv off := by
      unfold footprintSize; omega
    rw [hd, ha, hv, Dbl.add_ofNat, Dbl.add_ofNat] at hstep
    simp only [List.foldl_cons, specStreamSize_cons]
    by_cases h8 : tagType flv off = 8
    · have h9 : ¬ tagType flv off = 9 := by omega
      simp only [h8, if_true] at hstep
      have e := ih (firstPassTag flv off (footprintSize flv off) st) _ _
        (congrArg Prod.fst hstep) (congrArg Prod.snd hstep)
      rw [e]
      simp only [h8, if_true, show ¬ (8 = 9) by decide, if_false, Nat.zero_add, Nat.add_assoc]
    · by_cases h9 : tagType flv off = 9
      · simp only [h8, h9, if_true, if_false] at hstep
        have e := ih (firstPassTag flv off (footprintSize flv off) st) _ _
          (congrArg Prod.fst hstep) (congrArg Prod.snd hstep)
        rw [e]
        simp only [h9, if_true, show ¬ (9 = 8) by decide, if_false, Nat.zero_add, Nat.add_assoc]
      · simp only [h8, h9, if_false] at hstep
        have e := ih (firstPassTag flv off (footprintSize flv off) st) _ _
          (congrArg Prod.fst hstep) (congrArg Prod.snd hstep)
        rw [e]
        simp only [h8, h9, if_false, Nat.zero_add]

theorem firstPassFinish_streamSizes (st : FirstPassState) :
    streamSizes (firstPassFinish st) = streamSizes st.md := by
  unfold firstPassFinish streamSizes
  simp only
  split <;> split <;> split <;> split <;> split <;> simp_all

/-- The bytes of the audio and video footprints are the two per-stream sums
and 4 bytes for every audio and every video tag. -/
theorem avBytes_eq_streams (flv : List Nat) (walk : List Nat) :
    avBytes flv walk = specStreamSize flv 8 walk + specStreamSize flv 9 walk
      + 4 * (specTagCount flv 8 walk + specTagCount flv 9 walk) := by
  induction walk with
  | nil => rfl
  | cons off rest ih =>
    rw [avBytes_cons, specStreamSize_cons, specStreamSize_cons, specTagCount_cons,
      specTagCount_cons, ih]
    unfold isAudioVideo footprintSize
    by_cases h8 : tagType flv off = 8
    · have h9 : ¬ tagType flv off = 9 := by omega
      simp [h8]
      omega
    · by_cases h9 : tagType flv off = 9
      · simp [h9]
        omega
      · simp [h8, h9]

/-- The two per-stream sizes after pass 1 on a fresh summary. -/
theorem readFLVFirstPass_streamSizes (flv : List Nat) (streampos filesize : Nat)
    (creator : Option (List Nat)) :
    streamSizes (readFLVFirstPass flv streampos filesize (initFLVMetaData creator))
      = (Dbl.ofNat (specStreamSize flv 8 (specWalk flv streampos filesize)),
         Dbl.ofNat (specStreamSize flv 9 (specWalk flv streampos filesize))) := by
  rw [readFLVFirstPass_eq_foldl, firstPassFinish_streamSizes,
    firstPass_foldl_streamSizes flv _ _ 0 0 rfl rfl, Nat.zero_add, Nat.zero_add]

/-! ## The array writes of pass 2 -/

theorem secondPassTagWrites_eq (flv : List Nat) (off : Nat) (st : SecondPassState) :
    secondPassTagWrites flv off st = (if isRecorded flv off then [(st.i, st.datapos)] else []) := by
  unfold secondPassTagWrites isRecorded
  simp only [FLV_VIDEODATA]
  by_cases hv : tagType flv off = 9
  · have h9 : (tagType flv off == 9) = true := by simpa using hv
    simp only [h9, if_true, Bool.true_and]
  · have h9 : (tagType flv off == 9) = false := by simpa using hv
    simp only [h9, Bool.false_and, Bool.false_eq_true, if_false]

/-- The writes of the loop of pass 2 go to the indices from `i` on, one after
the other, and store the positions of the keyframe index. -/
theorem readFLVSecondPassLoopWrites_eq (flv : List Nat) (filesize : Nat) :
    ∀ (fuel streampos : Nat) (st : SecondPassState),
      (readFLVSecondPassLoopWrites fuel flv streampos filesize st).map Prod.fst
          = List.range' st.i
              (specKeyframeIndex flv (specWalkFrom fuel flv streampos filesize) st.datapos).length
      ∧ (readFLVSecondPassLoopWrites fuel flv streampos filesize st).map Prod.snd
          = (specKeyframeIndex flv (specWalkFrom fuel flv streampos filesize)
              st.datapos).map Prod.snd := by
  intro fuel
  induction fuel with
  | zero => intro s st; simp [readFLVSecondPassLoopWrites, specWalkFrom, specKeyframeIndex]
  | succ n ih =>
    intro s st
    by_cases h₁ : s + 11 > filesize
    · have : ¬ (s + 11 ≤ filesize ∧ s + (11 + tagDataSize flv s + 4) ≤ filesize) := by omega
      simp [readFLVSecondPassLoopWrites, specWalkFrom, specKeyframeIndex, sizeofFLVTag, h₁, this]
    · by_cases h₂ : s + (11 + tagDataSize flv s + 4) > filesize
      · have : ¬ (s + 11 ≤ filesize ∧ s + (11 + tagDataSize flv s + 4) ≤ filesize) := by omega
        simp [readFLVSecondPassLoopWrites, specWalkFrom, specKeyframeIndex, sizeofFLVTag, h₁, h₂,
          this]
      · have h : s + 11 ≤ filesize ∧ s + (11 + tagDataSize flv s + 4) ≤ filesize := by omega
        obtain ⟨_, _, s3, s4⟩ := secondPassTag_step flv s (11 + tagDataSize flv s + 4) st
        obtain ⟨i1, i2⟩ := ih (s + (11 + tagDataSize flv s + 4))
          (secondPassTag flv s (11 + tagDataSize flv s + 4) st)
        rw [s3, s4] at i1
        rw [s4] at i2
        simp only [readFLVSecondPassLoopWrites, specWalkFrom, sizeofFLVTag, h₁, h₂, h, and_self,
          if_true, if_false, specKeyframeIndex, List.map_append, i1, i2, secondPassTagWrites_eq,
          footprintSize, List.length_append]
        by_cases hr : isRecorded flv s = true
        · have hr' : (tagType flv s == 9 && keyframeTest (tagFlags flv s)) = true := hr
          simp only [hr, hr', if_true, List.map_cons, List.map_nil, List.length_singleton,
            List.singleton_append, and_true]
          rw [Nat.add_comm 1, List.range'_succ]
        · have hr2 : isRecorded flv s = false := by simpa using hr
          have hr' : (tagType flv s == 9 && keyframeTest (tagFlags flv s)) = false := hr2
          simp only [hr2, hr', Bool.false_eq_true, if_false, List.map_nil, List.nil_append,
            List.length_nil, Nat.zero_add, and_self]

theorem specKeyframeIndex_ge (flv : List Nat) (walk : List Nat) :
    ∀ (d : Nat) (r : Nat × Nat), r ∈ specKeyframeIndex flv walk d → d ≤ r.2 := by
  induction walk with
  | nil => intro d r h; simp [specKeyframeIndex] at h
  | cons off rest ih =>
    intro d r h
    simp only [specKeyframeIndex, List.mem_append] at h
    rcases h with h | h
    · split at h
      · simp only [List.mem_singleton] at h
        subst h
        exact Nat.le_refl _
      · simp at h
    · have := ih _ r h
      split at this <;> omega

/-- The positions of the keyframe index increase strictly. -/
theorem specKeyframeIndex_increasing (flv : List Nat) (walk : List Nat) :
    ∀ d : Nat, List.Pairwise (fun a b => a < b) ((specKeyframeIndex flv walk d).map Prod.snd) := by
  induction walk with
  | nil => intro d; simp [specKeyframeIndex]
  | cons off rest ih =>
    intro d
    by_cases hr : isRecorded flv off = true
    · have hr' : (tagType flv off == 9 && keyframeTest (tagFlags flv off)) = true := hr
      have hav := isAudioVideo_of_isRecorded hr
      simp only [specKeyframeIndex, hr', hav, if_true, List.singleton_append, List.map_cons,
        List.pairwise_cons]
      refine ⟨?_, ih _⟩
      intro b hb
      obtain ⟨r, hr1, hr2⟩ := List.mem_map.1 hb
      have := specKeyframeIndex_ge flv rest _ r hr1
      have := footprintSize_ge flv off
      omega
    · have hr' : (tagType flv off == 9 && keyframeTest (tagFlags flv off)) = false := by
        simpa [isRecorded] using hr
      simp only [specKeyframeIndex, hr', Bool.false_eq_true, if_false, List.nil_append]
      exact ih _

/-- The writes of pass 2 after pass 1 on a fresh summary. -/
theorem readFLVSecondPassWrites_eq (flv : List Nat) (streampos filesize : Nat)
    (creator : Option (List Nat)) :
    (readFLVSecondPassWrites flv streampos filesize
        (readFLVFirstPass flv streampos filesize (initFLVMetaData creator))).map Prod.fst
      = List.range (readFLVFirstPass flv streampos filesize (initFLVMetaData creator)).keyframes
    ∧ (readFLVSecondPassWrites flv streampos filesize
        (readFLVFirstPass flv streampos filesize (initFLVMetaData creator))).map Prod.snd
      = (specKeyframeIndex flv (specWalk flv streampos filesize) 0).map Prod.snd := by
  obtain ⟨_, _, _, _, _, hk, _⟩ := readFLVFirstPass_init flv streampos filesize creator
  have hlen := specKeyframeIndex_length flv (specWalk flv streampos filesize) 0
  unfold readFLVSecondPassWrites
  split
  · rename_i h0
    have h0' : (readFLVFirstPass flv streampos filesize (initFLVMetaData creator)).keyframes = 0 := by
      simpa using h0
    have hnil : specKeyframeIndex flv (specWalk flv streampos filesize) 0 = [] := by
      apply List.eq_nil_of_length_eq_zero
      rw [hlen, ← hk, h0']
    rw [hnil, h0']
    simp
  · obtain ⟨e1, e2⟩ := readFLVSecondPassLoopWrites_eq flv filesize filesize streampos
      { md := readFLVFirstPass flv streampos filesize (initFLVMetaData creator),
        i := 0, datapos := 0 }
    refine ⟨?_, e2⟩
    rw [e1, List.range_eq_range', hk, ← hlen]
    rfl

/-! ## The number of iterations of the three loops -/

/-- One unit of fuel for every 15 bytes between `streampos` and `filesize` is
enough for the walk. -/
theorem specWalkFrom_fuel_fifteen (flv : List Nat) (filesize : Nat) :
    ∀ (fuel₁ fuel₂ streampos : Nat), filesize ≤ streampos + 15 * fuel₁ + 14 →
      filesize ≤ streampos + 15 * fuel₂ + 14 →
      specWalkFrom fuel₁ flv streampos filesize = specWalkFrom fuel₂ flv streampos filesize := by
  intro fuel₁
  induction fuel₁ with
  | zero =>
    intro fuel₂ s h₁ _
    cases fuel₂ with
    | zero => rfl
    | succ m =>
      have : ¬ (s + 11 ≤ filesize ∧ s + (11 + tagDataSize flv s + 4) ≤ filesize) := by omega
      simp [specWalkFrom, this]
  | succ n ih =>
    intro fuel₂ s h₁ h₂
    cases fuel₂ with
    | zero =>
      have : ¬ (s + 11 ≤ filesize ∧ s + (11 + tagDataSize flv s + 4) ≤ filesize) := by omega
      simp [specWalkFrom, this]
    | succ m =>
      by_cases h : s + 11 ≤ filesize ∧ s + (11 + tagDataSize flv s + 4) ≤ filesize
      · simp only [specWalkFrom, h, and_self, if_true]
        rw [ih m (s + (11 + tagDataSize flv s + 4)) (by omega) (by omega)]
      · simp [specWalkFrom, h]

theorem specWalkFrom_eq_specWalk (flv : List Nat) (streampos filesize fuel : Nat)
    (h : (filesize - streampos) / 15 ≤ fuel) :
    specWalkFrom fuel flv streampos filesize = specWalk flv streampos filesize := by
  have h1 : filesize - streampos < 15 * (fuel + 1) := by
    have := Nat.lt_mul_of_div_lt (Nat.lt_succ_of_le h) (by decide : 0 < 15)
    omega
  exact specWalkFrom_fuel_fifteen flv filesize fuel filesize streampos (by omega) (by omega)

theorem specWalkFrom_length (flv : List Nat) (filesize : Nat) :
    ∀ (fuel streampos : Nat),
      15 * (specWalkFrom fuel flv streampos filesize).length ≤ filesize - streampos := by
  intro fuel
  induction fuel with
  | zero => intro s; simp [specWalkFrom]
  | succ n ih =>
    intro s
    by_cases h : s + 11 ≤ filesize ∧ s + (11 + tagDataSize flv s + 4) ≤ filesize
    · simp only [specWalkFrom, h, and_self, if_true, List.length_cons]
      have := ih (s + (11 + tagDataSize flv s + 4))
      omega
    · simp [specWalkFrom, h]

theorem specWalkFrom_head (flv : List Nat) (filesize : Nat) (fuel streampos : Nat) :
    ∀ y ∈ (specWalkFrom fuel flv streampos filesize).head?, y = streampos := by
  intro y hy
  cases fuel with
  | zero => simp [specWalkFrom] at hy
  | succ n =>
    by_cases h : streampos + 11 ≤ filesize
        ∧ streampos + (11 + tagDataSize flv streampos + 4) ≤ filesize
    · simp only [specWalkFrom, h, and_self, if_true, List.head?_cons, Option.mem_def,
        Option.some.injEq] at hy
      exact hy.symm
    · simp [specWalkFrom, h] at hy

/-- Every walked tag but the first starts where the footprint of the tag
before it ends. -/
theorem specWalkFrom_chain (flv : List Nat) (filesize : Nat) :
    ∀ (fuel streampos : Nat),
      List.Chain' (fun a b => b = a + (11 + tagDataSize flv a + 4))
        (specWalkFrom fuel flv streampos filesize) := by
  intro fuel
  induction fuel with
  | zero => intro s; simp [specWalkFrom]
  | succ n ih =>
    intro s
    by_cases h : s + 11 ≤ filesize ∧ s + (11 + tagDataSize flv s + 4) ≤ filesize
    · simp only [specWalkFrom, h, and_self, if_true]
      rw [List.chain'_cons']
      exact ⟨fun y hy => specWalkFrom_head flv filesize n _ y hy, ih _⟩
    · simp [specWalkFrom, h]

theorem specWalkFrom_ge (flv : List Nat) (filesize : Nat) :
    ∀ (fuel streampos off : Nat), off ∈ specWalkFrom fuel flv streampos filesize →
      streampos ≤ off := by
  intro fuel
  induction fuel with
  | zero => intro s off h; simp [specWalkFrom] at h
  | succ n ih =>
    intro s off h
    by_cases hc : s + 11 ≤ filesize ∧ s + (11 + tagDataSize flv s + 4) ≤ filesize
    · simp only [specWalkFrom, hc, and_self, if_true, List.mem_cons] at h
      rcases h with h | h
      · omega
      · have := ih _ _ h
        omega
    · simp [specWalkFrom, hc] at h

theorem tagDataSize_lt (flv : List Nat) (hb : ∀ b ∈ flv, b < 256) (s : Nat) :
    tagDataSize flv s < 16777216 := by
  have h1 := rd_lt flv hb (s + 1)
  have h2 := rd_lt flv hb (s + 1 + 1)
  have h3 := rd_lt flv hb (s + 1 + 2)
  unfold tagDataSize FLV_UI24
  simp only [Nat.shiftLeft_eq]
  omega

/-- Without overflow the loop control with `size_t` arithmetic visits the
walked tags. -/
theorem tagLoopOffsets_eq_walk (w : Nat) (flv : List Nat) (hb : ∀ b ∈ flv, b < 256)
    (filesize : Nat) (hf : filesize + 15 + 16777216 ≤ 2 ^ w) :
    ∀ (fuel streampos : Nat), streampos + 15 + 16777216 ≤ 2 ^ w →
      tagLoopOffsets w fuel flv streampos filesize = specWalkFrom fuel flv streampos filesize := by
  intro fuel
  induction fuel with
  | zero => intro s _; rfl
  | succ n ih =>
    intro s hs
    have hd := tagDataSize_lt flv hb s
    have e1 : (s + 11) % 2 ^ w = s + 11 := Nat.mod_eq_of_lt (by omega)
    have e2 : (11 + tagDataSize flv s + 4) % 2 ^ w = 11 + tagDataSize flv s + 4 :=
      Nat.mod_eq_of_lt (by omega)
    have e3 : (s + (11 + tagDataSize flv s + 4)) % 2 ^ w = s + (11 + tagDataSize flv s + 4) :=
      Nat.mod_eq_of_lt (by omega)
    by_cases h : s + 11 ≤ filesize ∧ s + (11 + tagDataSize flv s + 4) ≤ filesize
    · have h1 : ¬ s + 11 > filesize := by omega
      have h2 : ¬ s + (11 + tagDataSize flv s + 4) > filesize := by omega
      simp only [tagLoopOffsets, specWalkFrom, sizeofFLVTag, e1, e2, e3, h1, h2, h, and_self,
        if_true, if_false]
      rw [ih _ (by omega)]
    · by_cases h1 : s + 11 > filesize
      · simp [tagLoopOffsets, specWalkFrom, sizeofFLVTag, e1, h1, h]
      · have h2 : s + (11 + tagDataSize flv s + 4) > filesize := by omega
        simp [tagLoopOffsets, specWalkFrom, sizeofFLVTag, e1, e2, e3, h1, h2, h]

/-! ## The claims -/

/-- C1: for every buffer and start offset, what `writeFLV` writes after the
file header (with the first previous-tag-size) and the metadata tag is the
concatenation, in walk order, of the footprints of the walked tags whose type
byte is 8 or 9, each the `11 + D + 4` bytes of the input at the offset of the
tag; a walked tag of another type contributes nothing. -/
theorem writeFLV_copies_audio_video_tags (dc : Dbl → Nat → Nat) (md : FLVMetaData)
    (flv : List Nat) (streampos : Nat) :
    writeFLV dc md flv streampos flv.length =
        writeFLVHeader md ++ (writeFLVMetaData dc md).out
          ++ ((specWalk flv streampos flv.length).filter
                (fun off => tagType flv off == 8 || tagType flv off == 9)).flatMap
              (fun off => (flv.drop off).take (11 + tagDataSize flv off + 4))
    ∧ ((specWalk flv streampos flv.length).map
          (fun off => ((flv.drop off).take (11 + tagDataSize flv off + 4)).length)
        = (specWalk flv streampos flv.length).map (fun off => 11 + tagDataSize flv off + 4)) := by
  constructor
  · unfold writeFLV
    rw [writeFLVLoop_eq_copied]
    rfl
  · apply List.map_congr_left
    intro off hoff
    exact footprint_length flv off (specWalkFrom_bound flv flv.length _ _ off hoff)

/-- C2: for every input, the value of the entry `filesize` of the metadata in
the output (the entries of the script-data tag are `specMetaEntries` of the
summary) is the number of bytes of the output: 9 + 4 + (11 + M + 4) for the
metadata tag with M payload bytes, plus the bytes copied by the loop of
`writeFLV`. -/
theorem filesize_is_output_length (dc : Dbl → Nat → Nat) (flv : List Nat)
    (creator : Option (List Nat)) :
    (cstr "filesize", ScriptValue.double (Dbl.ofNat (mainOutput dc flv creator).length))
        ∈ specMetaEntries (mainSummary dc flv creator).1
    ∧ realTag dc flv creator =
        metadataTagHeader (mainSummary dc flv creator).1 ++ [2] ++ specName (cstr "onMetaData")
          ++ [8] ++ beBytes 4 (specMetaEntries (mainSummary dc flv creator).1).length
          ++ (specMetaEntries (mainSummary dc flv creator).1).flatMap (specEntry dc)
          ++ beBytes 4 (11 + ((realTag dc flv creator).length - 15))
    ∧ (mainSummary dc flv creator).1.filesize = Dbl.ofNat (mainOutput dc flv creator).length
    ∧ (mainOutput dc flv creator).length =
        9 + 4 + (11 + ((realTag dc flv creator).length - 15) + 4)
          + (writeFLVLoop flv.length flv (mainSummary dc flv creator).2.1 flv.length).length := by
  have hf : (mainSummary dc flv creator).1.filesize
      = Dbl.ofNat (mainOutput dc flv creator).length := by
    rw [mainSummary_filesize, mainOutput_length]
  refine ⟨?_, realTag_entries dc flv creator, hf, ?_⟩
  · rw [← hf]
    simp [specMetaEntries]
  · rw [mainOutput_length, realTag_length, mainSummary_streampos, writeFLVLoop_eq_copied,
      show specWalk flv (mainStreampos flv) flv.length = mainWalk flv from rfl,
      copied_length flv _ (mainWalk_bound flv), mainSummary_payloadSize, mainBias]
    omega

/-- C3: for every input with at least one keyframe recorded by pass 1 and every
`i < keyframes`, after `main` has added 9 + 4 + (11 + M + 4) to the position
that `readFLVSecondPass` recorded, `filepositions[i]` is the offset in the output
at which the footprint of the i-th tag recorded by pass 2 begins (the output
byte there is the type byte 9 and the 11 bytes from there are the header of that
tag), `times[i]` is the timestamp of that tag in milliseconds divided by 1000,
and `lastkeyframelocation` is `filepositions[keyframes - 1]`. -/
theorem keyframe_index_points_at_video_tags (dc : Dbl → Nat → Nat) (flv : List Nat)
    (creator : Option (List Nat)) (i : Nat)
    (hi : i < (mainSummary dc flv creator).1.keyframes) :
    ∃ off p q,
      ((specWalk flv (mainStreampos flv) flv.length).filter
          (fun off => tagType flv off == 9 && keyframeTest (tagFlags flv off)))[i]? = some off
      ∧ (readFLVSecondPass flv (mainStreampos flv) flv.length
          (writeFLVMetaData dc (firstSummary flv creator)).md).filepositions[i]?
            = some (Dbl.ofNat q)
      ∧ p = 9 + 4 + (11 + ((realTag dc flv creator).length - 15) + 4) + q
      ∧ (mainSummary dc flv creator).1.filepositions[i]? = some (Dbl.ofNat p)
      ∧ ((mainOutput dc flv creator).drop p).take 11 = (flv.drop off).take 11
      ∧ (mainOutput dc flv creator)[p]? = some 9
      ∧ tagType flv off = 9
      ∧ (mainSummary dc flv creator).1.times[i]?
          = some (Dbl.div (Dbl.ofInt (tagTimestamp flv off)) (Dbl.ofNat 1000))
      ∧ (mainSummary dc flv creator).1.lastkeyframelocation
          = (mainSummary dc flv creator).1.filepositions.getD
              ((mainSummary dc flv creator).1.keyframes - 1) (Dbl.ofNat 0) := by
  obtain ⟨hk, hfp, htm, hlk⟩ := mainSummary_index dc flv creator
  rw [hk] at hi
  have hr : (specKeyframeIndex flv (mainWalk flv) 0)[i] ∈ specKeyframeIndex flv (mainWalk flv) 0 :=
    List.getElem_mem _
  obtain ⟨ht, hd, hg⟩ := mainOutput_at_record dc flv creator _ hr
  have hbias : 9 + 4 + (11 + ((realTag dc flv creator).length - 15) + 4)
      = mainBias flv creator := by
    rw [realTag_length, mainSummary_payloadSize, mainBias]
    omega
  refine ⟨(specKeyframeIndex flv (mainWalk flv) 0)[i].1,
    mainBias flv creator + (specKeyframeIndex flv (mainWalk flv) 0)[i].2,
    (specKeyframeIndex flv (mainWalk flv) 0)[i].2, ?_, ?_, ?_, ?_, hd, hg, ht, ?_, ?_⟩
  · have := specKeyframeIndex_fst flv (mainWalk flv) 0
    have e : (specWalk flv (mainStreampos flv) flv.length).filter
        (fun off => tagType flv off == 9 && keyframeTest (tagFlags flv off))
        = (specKeyframeIndex flv (mainWalk flv) 0).map Prod.fst := this.symm
    rw [e, List.getElem?_map, List.getElem?_eq_getElem hi]
    rfl
  · rw [mainSecondPass_filepositions, List.getElem?_map, List.getElem?_eq_getElem hi]
    rfl
  · rw [hbias]
  · rw [hfp, List.getElem?_map, List.getElem?_eq_getElem hi]
    rfl
  · rw [htm, List.getElem?_map, List.getElem?_eq_getElem hi]
    rfl
  · rw [hlk, hfp, hk, if_neg (by omega)]

/-- C3 at the second keyframe of `sampleInput`. -/
theorem keyframe_index_points_at_video_tags_sample :
    1 < (mainSummary zeroHost sampleInput none).1.keyframes
    ∧ ∃ off p q,
      ((specWalk sampleInput (mainStreampos sampleInput) sampleInput.length).filter
          (fun off => tagType sampleInput off == 9
            && keyframeTest (tagFlags sampleInput off)))[1]? = some off
      ∧ (readFLVSecondPass sampleInput (mainStreampos sampleInput) sampleInput.length
          (writeFLVMetaData zeroHost (firstSummary sampleInput none)).md).filepositions[1]?
            = some (Dbl.ofNat q)
      ∧ p = 9 + 4 + (11 + ((realTag zeroHost sampleInput none).length - 15) + 4) + q
      ∧ (mainSummary zeroHost sampleInput none).1.filepositions[1]? = some (Dbl.ofNat p)
      ∧ ((mainOutput zeroHost sampleInput none).drop p).take 11 = (sampleInput.drop off).take 11
      ∧ (mainOutput zeroHost sampleInput none)[p]? = some 9
      ∧ tagType sampleInput off = 9
      ∧ (mainSummary zeroHost sampleInput none).1.times[1]?
          = some (Dbl.div (Dbl.ofInt (tagTimestamp sampleInput off)) (Dbl.ofNat 1000))
      ∧ (mainSummary zeroHost sampleInput none).1.lastkeyframelocation
          = (mainSummary zeroHost sampleInput none).1.filepositions.getD
              ((mainSummary zeroHost sampleInput none).1.keyframes - 1) (Dbl.ofNat 0) :=
  ⟨by decide, keyframe_index_points_at_video_tags zeroHost sampleInput none 1 (by decide)⟩

/-- C4, the code at a frame of type 3: a file whose only tag is a video tag
with flags byte 0x32 (frame type 3, a disposable inter frame) gets
`keyframes = 1` from `readFLVFirstPass`, and `readFLVSecondPass` indexes that
tag. -/
theorem frame_type_3_counted_as_keyframe :
    tagType frameType3Input 13 = 9
    ∧ tagFlags frameType3Input 13 >>> 4 = 3
    ∧ specWalk frameType3Input 13 frameType3Input.length = [13]
    ∧ (readFLVFirstPass frameType3Input 13 frameType3Input.length
        (initFLVMetaData none)).keyframes = 1
    ∧ (readFLVSecondPass frameType3Input 13 frameType3Input.length
        (readFLVFirstPass frameType3Input 13 frameType3Input.length
          (initFLVMetaData none))).filepositions = [Dbl.ofNat 0] := by
  decide

/-- C5, as the code has it: in every run the 3-byte data-size field of the
script-data tag in the output equals M modulo 2^24, where M is the number of
payload bytes between the 11-byte header and the trailing previous-tag-size
field, and that trailing field equals 11 + M modulo 2^32; so the fields equal M
and 11 + M whenever M is below 2^24. -/
theorem script_tag_size_fields (dc : Dbl → Nat → Nat) (flv : List Nat)
    (creator : Option (List Nat)) :
    mainOutput dc flv creator =
        writeFLVHeader (mainSummary dc flv creator).1 ++ realTag dc flv creator
          ++ writeFLVLoop flv.length flv (mainSummary dc flv creator).2.1 flv.length
    ∧ 15 ≤ (realTag dc flv creator).length
    ∧ (realTag dc flv creator)[0]? = some 18
    ∧ beNat (((realTag dc flv creator).drop 1).take 3)
        = ((realTag dc flv creator).length - 15) % 2 ^ 24
    ∧ beNat ((realTag dc flv creator).drop (11 + ((realTag dc flv creator).length - 15)))
        = (11 + ((realTag dc flv creator).length - 15)) % 2 ^ 32 := by
  obtain ⟨h0, h1, h2⟩ := realTag_size_fields dc flv creator
  have hl := realTag_length dc flv creator
  have e : (realTag dc flv creator).length - 15 = payloadSize (mainSummary dc flv creator).1 := by
    omega
  refine ⟨rfl, by omega, h0, ?_, ?_⟩
  · rw [e, h1]
  · rw [e, h2]

/-- C5 fails as stated: for a file of 2^20 keyframes (16 MiB) the payload of
the script-data tag is longer than 2^24 bytes and the 3-byte data-size field in
its header does not equal the payload size. -/
theorem script_tag_size_field_wraps :
    beNat (((realTag zeroHost manyKeyframesInput none).drop 1).take 3)
      ≠ (realTag zeroHost manyKeyframesInput none).length - 15 := by
  have h1 := (realTag_size_fields zeroHost manyKeyframesInput none).2.1
  have hl := realTag_length zeroHost manyKeyframesInput none
  have hp := manyKeyframesInput_payloadSize zeroHost none
  rw [h1, hl]
  have : payloadSize (mainSummary zeroHost manyKeyframesInput none).1 % 2 ^ 24 < 2 ^ 24 :=
    Nat.mod_lt _ (by decide)
  omega

/-- C6: the number of bytes of a pass of `writeFLVMetaData` does not depend on
`onmetadatalength`, `filesize`, `lastkeyframelocation`, `filepositions` or
`times`; hence when the summary left by a first call is changed in these fields
only, the second call stores the same payload size `metadatasize` (M1 = M0),
both calls return `11 + M0 + 4`, and the second call writes exactly that many
bytes. -/
theorem metadata_size_fixed_point (dc : Dbl → Nat → Nat) (md : FLVMetaData) (L : Nat)
    (filesize lastkeyframelocation : Dbl) (filepositions times : List Dbl)
    (length₁ length₂ : Nat) :
    (metadataPass dc
        { md with
          onmetadatalength := L, filesize := filesize,
          lastkeyframelocation := lastkeyframelocation, filepositions := filepositions,
          times := times } (metadataTagHeader md) length₂).out.length
      = (metadataPass dc md (metadataTagHeader md) length₁).out.length
    ∧ (writeFLVMetaData dc 
        { (writeFLVMetaData dc md).md with
          filesize := filesize, lastkeyframelocation := lastkeyframelocation,
          filepositions := filepositions, times := times }).md.metadatasize = (writeFLVMetaData dc md).md.metadatasize
    ∧ (writeFLVMetaData dc md).ret = 11 + (writeFLVMetaData dc md).md.metadatasize + 4
    ∧ (writeFLVMetaData dc 
        { (writeFLVMetaData dc md).md with
          filesize := filesize, lastkeyframelocation := lastkeyframelocation,
          filepositions := filepositions, times := times }).ret = 11 + (writeFLVMetaData dc md).md.metadatasize + 4
    ∧ (writeFLVMetaData dc 
        { (writeFLVMetaData dc md).md with
          filesize := filesize, lastkeyframelocation := lastkeyframelocation,
          filepositions := filepositions, times := times }).out.length = 11 + (writeFLVMetaData dc md).md.metadatasize + 4 := by
  have hp : payloadSize
      { (writeFLVMetaData dc md).md with
        filesize := filesize, lastkeyframelocation := lastkeyframelocation,
        filepositions := filepositions, times := times } = payloadSize md := by
    rw [writeFLVMetaData_md]
    rfl
  have hm : (writeFLVMetaData dc md).md.metadatasize = payloadSize md := by
    rw [writeFLVMetaData_md]
  refine ⟨?_, ?_, ?_, ?_, ?_⟩
  · rw [metadataPass_out_length, metadataPass_out_length]
    rfl
  · rw [hm, writeFLVMetaData_md, hp]
  · rw [hm, writeFLVMetaData_ret]
  · rw [hm, writeFLVMetaData_ret, hp]
  · rw [hm, writeFLVMetaData_out_length _ _
      (by exact writeFLVMetaData_onmetadatalength_ne dc md), hp]

/-- C7: for every summary, `writeFLVHeader` writes exactly the 13 bytes
F, L, V, 1, flags, 0, 0, 0, 9, 0, 0, 0, 0 with flags = 4 (if `hasAudio` is 1)
+ 1 (if `hasVideo` is 1). -/
theorem writeFLVHeader_bytes (md : FLVMetaData) :
    writeFLVHeader md =
      [70, 76, 86, 1, (if md.hasAudio = 1 then 4 else 0) + (if md.hasVideo = 1 then 1 else 0),
       0, 0, 0, 9, 0, 0, 0, 0] := by
  unfold writeFLVHeader
  by_cases ha : md.hasAudio = 1 <;> by_cases hv : md.hasVideo = 1 <;>
    simp [ha, hv, fwrite, writeFLVPreviousTagSize, sizeofFLVFileHeader] <;> decide

/-- C8: for every summary (whose two strings fit a short string, as the
256-byte arrays make them), each pass of `writeFLVMetaData` writes, after the
tag header, the marker 2 and the ECMA-array header of onMetaData, exactly the
named entries creator (iff the creator is non-empty), metadatacreator,
hasKeyframes, hasVideo, hasAudio, hasMetadata, canSeekToEnd, duration, datasize;
iff `hasVideo`: videosize, videocodecid, width (iff nonzero), height (iff
nonzero), framerate, videodatarate; iff `hasAudio`: audiosize, audiocodecid,
audiosamplerate, audiosamplesize, stereo, audiodatarate; then filesize,
lasttimestamp; iff `hasKeyframes`: lastkeyframetimestamp, lastkeyframelocation,
keyframes, the last being a variable array of the strict arrays filepositions
and times, each with the count `keyframes` and that many tagged doubles, closed
by 00 00 09.  Nothing follows the last entry in the payload: the tag ends with
the 4-byte previous-tag-size. -/
theorem metadata_entries_in_order (dc : Dbl → Nat → Nat) (md : FLVMetaData)
    (hc : md.creator.length ≤ 65535) (hm : md.metadatacreator.length ≤ 65535) :
    (∀ t length, (metadataPass dc md t length).out =
        t.take 11 ++ [2] ++ specName (cstr "onMetaData") ++ [8]
          ++ beBytes 4 md.onmetadatalength ++ (specMetaEntries md).flatMap (specEntry dc))
    ∧ (specMetaEntries md).map Prod.fst =
        (if md.creator ≠ [] then [cstr "creator"] else [])
          ++ [cstr "metadatacreator", cstr "hasKeyframes", cstr "hasVideo", cstr "hasAudio",
              cstr "hasMetadata", cstr "canSeekToEnd", cstr "duration", cstr "datasize"]
          ++ (if md.hasVideo = 1 then
                [cstr "videosize", cstr "videocodecid"]
                  ++ (if md.width.isNonzero then [cstr "width"] else [])
                  ++ (if md.height.isNonzero then [cstr "height"] else [])
                  ++ [cstr "framerate", cstr "videodatarate"]
              else [])
          ++ (if md.hasAudio = 1 then
                [cstr "audiosize", cstr "audiocodecid", cstr "audiosamplerate",
                 cstr "audiosamplesize", cstr "stereo", cstr "audiodatarate"]
              else [])
          ++ [cstr "filesize", cstr "lasttimestamp"]
          ++ (if md.hasKeyframes = 1 then
                [cstr "lastkeyframetimestamp", cstr "lastkeyframelocation", cstr "keyframes"]
              else [])
    ∧ (md.hasKeyframes = 1 →
        (specMetaEntries md).getLast? = some (cstr "keyframes",
          ScriptValue.arrays [(cstr "filepositions", firstN md.filepositions md.keyframes),
                              (cstr "times", firstN md.times md.keyframes)])
        ∧ (firstN md.filepositions md.keyframes).length = md.keyframes
        ∧ (firstN md.times md.keyframes).length = md.keyframes
        ∧ specValue dc
            (ScriptValue.arrays [(cstr "filepositions", firstN md.filepositions md.keyframes),
                                 (cstr "times", firstN md.times md.keyframes)]) =
            [3] ++ specName (cstr "filepositions") ++ [10] ++ beBytes 4 md.keyframes
              ++ (firstN md.filepositions md.keyframes).flatMap (fun d => 0 :: specDouble dc d)
              ++ specName (cstr "times") ++ [10] ++ beBytes 4 md.keyframes
              ++ (firstN md.times md.keyframes).flatMap (fun d => 0 :: specDouble dc d)
              ++ [0, 0, 9])
    ∧ (md.onmetadatalength ≠ 0 →
        (writeFLVMetaData dc md).out =
          (metadataPass dc md (metadataTagHeader md) 0).out
            ++ beBytes 4 ((metadataPass dc md (metadataTagHeader md) 0).out.length)) := by
  refine ⟨fun t length => metadataPass_out dc md t length hc hm, ?_, ?_, ?_⟩
  · unfold specMetaEntries specVideoEntries specAudioEntries specKeyframeEntries
    simp only [bne_iff_ne, ne_eq, beq_iff_eq, List.length_eq_zero]
    split_ifs <;> simp
  · intro hk
    refine ⟨?_, firstN_length _ _, firstN_length _ _, ?_⟩
    · have hk' : (md.hasKeyframes == 1) = true := by simpa using hk
      unfold specMetaEntries
      rw [if_pos hk', List.getLast?_append]
      simp [specKeyframeEntries]
    · simp [specValue, specStrictArray, firstN_length]
  · intro h
    rw [writeFLVMetaData_out dc md h, metadataPass_out_length]

/-- C8 at the summary that `main` computes for `sampleInput`. -/
theorem metadata_entries_in_order_sample :
    (mainSummary zeroHost sampleInput none).1.creator.length ≤ 65535
    ∧ (mainSummary zeroHost sampleInput none).1.metadatacreator.length ≤ 65535
    ∧ (specMetaEntries (mainSummary zeroHost sampleInput none).1).map Prod.fst =
        [cstr "metadatacreator", cstr "hasKeyframes", cstr "hasVideo", cstr "hasAudio",
         cstr "hasMetadata", cstr "canSeekToEnd", cstr "duration", cstr "datasize",
         cstr "videosize", cstr "videocodecid", cstr "framerate", cstr "videodatarate",
         cstr "audiosize", cstr "audiocodecid", cstr "audiosamplerate", cstr "audiosamplesize",
         cstr "stereo", cstr "audiodatarate", cstr "filesize", cstr "lasttimestamp",
         cstr "lastkeyframetimestamp", cstr "lastkeyframelocation", cstr "keyframes"] :=
  ⟨by decide, by decide,
    ((metadata_entries_in_order zeroHost (mainSummary zeroHost sampleInput none).1
      (by decide) (by decide)).2.1).trans (by decide)⟩

/-- C9: in every run the 4-byte count in the ECMA-array header of onMetaData
in the output equals the number of named entries that follow it in the tag,
which is 10 + [creator non-empty] + (4 + [width nonzero] + [height nonzero] if
`hasVideo`) + (6 if `hasAudio`) + (3 if `hasKeyframes`). -/
theorem onMetaData_count_is_entry_count (dc : Dbl → Nat → Nat) (flv : List Nat)
    (creator : Option (List Nat)) :
    mainOutput dc flv creator =
        writeFLVHeader (mainSummary dc flv creator).1 ++ realTag dc flv creator
          ++ writeFLVLoop flv.length flv (mainSummary dc flv creator).2.1 flv.length
    ∧ realTag dc flv creator =
        metadataTagHeader (mainSummary dc flv creator).1 ++ [2] ++ specName (cstr "onMetaData")
          ++ [8] ++ beBytes 4 (specMetaEntries (mainSummary dc flv creator).1).length
          ++ (specMetaEntries (mainSummary dc flv creator).1).flatMap (specEntry dc)
          ++ beBytes 4 (11 + ((realTag dc flv creator).length - 15))
    ∧ beNat (((realTag dc flv creator).drop 25).take 4)
        = (specMetaEntries (mainSummary dc flv creator).1).length
    ∧ (specMetaEntries (mainSummary dc flv creator).1).length =
        10 + (if (mainSummary dc flv creator).1.creator ≠ [] then 1 else 0)
          + (if (mainSummary dc flv creator).1.hasVideo = 1 then
              4 + (if (mainSummary dc flv creator).1.width.isNonzero then 1 else 0)
                + (if (mainSummary dc flv creator).1.height.isNonzero then 1 else 0)
            else 0)
          + (if (mainSummary dc flv creator).1.hasAudio = 1 then 6 else 0)
          + (if (mainSummary dc flv creator).1.hasKeyframes = 1 then 3 else 0) := by
  obtain ⟨hc, hm⟩ := mainSummary_strings dc flv creator
  have h1 := realTag_entries dc flv creator
  refine ⟨rfl, h1, ?_, ?_⟩
  · have hpre : (metadataTagHeader (mainSummary dc flv creator).1 ++ [2]
        ++ specName (cstr "onMetaData") ++ [8]).length = 25 := by
      simp +decide [metadataTagHeader, specName, beBytes, cstr_lengths]
    have h4 := beBytes_four_length (specMetaEntries (mainSummary dc flv creator).1).length
    rw [h1, List.append_assoc (_ ++ beBytes 4 _) _ _]
    have := drop_take_middle
      (metadataTagHeader (mainSummary dc flv creator).1 ++ [2] ++ specName (cstr "onMetaData")
        ++ [8])
      (beBytes 4 (specMetaEntries (mainSummary dc flv creator).1).length)
      ((specMetaEntries (mainSummary dc flv creator).1).flatMap (specEntry dc)
        ++ beBytes 4 (11 + ((realTag dc flv creator).length - 15)))
    rw [hpre, h4] at this
    rw [this, beNat_beBytes_four, specMetaEntries_length]
    have := entryCount_le (mainSummary dc flv creator).1
    omega
  · rw [specMetaEntries_length, entryCount]
    simp only [bne_iff_ne, ne_eq, beq_iff_eq, List.length_eq_zero]

/-- C10: for every buffer, the `datasize` that `readFLVFirstPass` computes is
the sum of `11 + D + 4` over the walked audio and video tags, which is the
number of bytes that the copy loop of `writeFLV` writes; both loops are folds
over the same sequence of walked tags; and the entry `datasize` of the metadata
that `main` emits holds the number of bytes that its copy loop writes. -/
theorem datasize_is_copied_bytes (dc : Dbl → Nat → Nat) (flv : List Nat) (streampos : Nat)
    (creator : Option (List Nat)) :
    (cstr "datasize", ScriptValue.double (Dbl.ofNat
        (writeFLVLoop flv.length flv (mainSummary dc flv creator).2.1 flv.length).length))
      ∈ specMetaEntries (mainSummary dc flv creator).1
    ∧ (readFLVFirstPass flv streampos flv.length (initFLVMetaData creator)).datasize =
        Dbl.ofNat (((specWalk flv streampos flv.length).filter
          (fun off => tagType flv off == 8 || tagType flv off == 9)).map
            (fun off => 11 + tagDataSize flv off + 4)).sum
    ∧ (writeFLVLoop flv.length flv streampos flv.length).length =
        (((specWalk flv streampos flv.length).filter
          (fun off => tagType flv off == 8 || tagType flv off == 9)).map
            (fun off => 11 + tagDataSize flv off + 4)).sum
    ∧ (∀ st, readFLVFirstPassLoop flv.length flv streampos flv.length st =
        (specWalk flv streampos flv.length).foldl
          (fun st off => firstPassTag flv off (11 + tagDataSize flv off + 4) st) st)
    ∧ writeFLVLoop flv.length flv streampos flv.length =
        ((specWalk flv streampos flv.length).filter
          (fun off => tagType flv off == 8 || tagType flv off == 9)).flatMap
            (fun off => (flv.drop off).take (11 + tagDataSize flv off + 4)) := by
  refine ⟨?_, ?_, ?_, ?_, ?_⟩
  · have hd : (mainSummary dc flv creator).1.datasize = Dbl.ofNat
        (writeFLVLoop flv.length flv (mainSummary dc flv creator).2.1 flv.length).length := by
      rw [mainSummary_streampos, writeFLVLoop_eq_copied,
        show specWalk flv (mainStreampos flv) flv.length = mainWalk flv from rfl,
        copied_length flv _ (mainWalk_bound flv), mainSummary_eq]
      exact (firstSummary_facts flv creator).2.2.2.2.1
    rw [← hd]
    simp [specMetaEntries]
  · exact (readFLVFirstPass_init flv streampos flv.length creator).2.2.2.2.1
  · rw [writeFLVLoop_eq_copied]
    exact copied_length flv _ (fun off h => specWalkFrom_bound flv flv.length _ _ off h)
  · intro st
    exact readFLVFirstPassLoop_eq_walk flv flv.length flv.length streampos st
  · exact writeFLVLoop_eq_copied flv streampos flv.length


/-! ## The claims on truncated input and on a second run -/

/-- C11, the code at a truncated tail behind a short first video tag: the walk
of `shortVp6Input` from offset 13 ends exactly at its length 29, and a single
byte appended to it is an incomplete tag; the walker does not visit it and the
copy loop writes the same bytes as for the file alone.  But the VP6 probe of the
first video tag reads `vp62[4]`, the byte at offset 13 + 12 + 4 = 29, without a
bounds check: with the tail 05 the summary has width 80 and with the tail 06
it has width 96, so that the two outputs differ, where both should be the
output for the file alone; for the file alone, where the byte lies behind the
end of the buffer and reads as 0, the summary has width 0 and the metadata has
no entry `width`, so that the output is 16 bytes shorter. -/
theorem truncated_tail_reaches_codec_probe :
    (mainStreampos shortVp6Input = 13 ∧ mainStreampos (shortVp6Input ++ [5]) = 13
      ∧ mainStreampos (shortVp6Input ++ [6]) = 13
      ∧ specWalkEnd shortVp6Input.length shortVp6Input 13 shortVp6Input.length
          = shortVp6Input.length
      ∧ isIncompleteTag [5] ∧ isIncompleteTag [6])
    ∧ (specWalk (shortVp6Input ++ [5]) 13 (shortVp6Input ++ [5]).length
          = specWalk shortVp6Input 13 shortVp6Input.length
      ∧ writeFLVLoop (shortVp6Input ++ [5]).length (shortVp6Input ++ [5]) 13
            (shortVp6Input ++ [5]).length
          = writeFLVLoop shortVp6Input.length shortVp6Input 13 shortVp6Input.length)
    ∧ ((firstSummary (shortVp6Input ++ [5]) none).width = Dbl.ofNat 80
      ∧ (firstSummary (shortVp6Input ++ [6]) none).width = Dbl.ofNat 96
      ∧ (firstSummary shortVp6Input none).width = Dbl.ofNat 0)
    ∧ main ieeeHost (shortVp6Input ++ [5]) none ≠ main ieeeHost (shortVp6Input ++ [6]) none
    ∧ (∀ dc : Dbl → Nat → Nat,
        (mainOutput dc (shortVp6Input ++ [5]) none).length
          = (mainOutput dc shortVp6Input none).length + 16) := by
  refine ⟨⟨by decide, by decide, by decide, by decide, Or.inl (by decide), Or.inl (by decide)⟩,
    truncated_tail_walk shortVp6Input [5] 13 (Or.inl (by decide)) (by decide),
    by decide, shortVp6Input_tails, ?_⟩
  intro dc
  rw [mainOutput_length, mainOutput_length]
  decide

/-- C12, for inputs with at most 932000 keyframes: for an input `x` that starts
with FLV, `main` writes an output `y`, and a second run on `y` with the same
creator writes an output `z`; each is 13 bytes of header, the script-data tag
of its run and the audio and video tags that the run copies; the bytes of `z`
after its script-data tag are the bytes of `y` after its script-data tag; and
the walk of `z` from offset 13 visits exactly one tag of type 18, the one at
offset 13. -/
theorem rerun_keeps_audio_video_tags (dc : Dbl → Nat → Nat) (x : List Nat)
    (creator : Option (List Nat)) (hx : x.take 3 = [70, 76, 86])
    (hk : (firstSummary x creator).keyframes ≤ 932000) :
    ∃ y z, main dc x creator = some y ∧ main dc y creator = some z
      ∧ y = writeFLVHeader (mainSummary dc x creator).1 ++ realTag dc x creator
              ++ copied x (mainWalk x)
      ∧ z = writeFLVHeader (mainSummary dc y creator).1 ++ realTag dc y creator
              ++ copied y (mainWalk y)
      ∧ z.drop (13 + (realTag dc y creator).length) = y.drop (13 + (realTag dc x creator).length)
      ∧ (specWalk z 13 z.length).filter (fun off => tagType z off == 18) = [13] := by
  have hM := firstSummary_payloadSize_lt x creator hk
  obtain ⟨_, hc, hkf, _⟩ := rerun_seen dc x creator hM
  have hM' := firstSummary_payloadSize_lt (mainOutput dc x creator) creator (by rw [hkf]; exact hk)
  obtain ⟨_, _, _, hs⟩ := rerun_seen dc (mainOutput dc x creator) creator hM'
  have hy := mainOutput_eq dc x creator
  have hz := mainOutput_eq dc (mainOutput dc x creator) creator
  refine ⟨mainOutput dc x creator, mainOutput dc (mainOutput dc x creator) creator, ?_, ?_, hy,
    hz, ?_, hs⟩
  · simp [main, hx]
  · simp [main, mainOutput_take]
  · rw [mainOutput_drop, mainOutput_drop, hc]

/-- C12 on `sampleInput`, which starts with FLV and has two keyframes. -/
theorem rerun_keeps_audio_video_tags_sample :
    sampleInput.take 3 = [70, 76, 86]
    ∧ (firstSummary sampleInput none).keyframes ≤ 932000
    ∧ ∃ y z, main ieeeHost sampleInput none = some y ∧ main ieeeHost y none = some z
      ∧ y = writeFLVHeader (mainSummary ieeeHost sampleInput none).1
              ++ realTag ieeeHost sampleInput none ++ copied sampleInput (mainWalk sampleInput)
      ∧ z = writeFLVHeader (mainSummary ieeeHost y none).1 ++ realTag ieeeHost y none
              ++ copied y (mainWalk y)
      ∧ z.drop (13 + (realTag ieeeHost y none).length)
          = y.drop (13 + (realTag ieeeHost sampleInput none).length)
      ∧ (specWalk z 13 z.length).filter (fun off => tagType z off == 18) = [13] :=
  ⟨by decide, by decide,
   rerun_keeps_audio_video_tags ieeeHost sampleInput none (by decide) (by decide)⟩

/-- C12 fails when the size field of the script-data tag wraps: for
`rerunInput`, a file of 932040 keyframes, with a creator of 255 tab characters,
the payload of the script-data tag of the output `y` is longer than 2^24 bytes,
its 3-byte size field holds the length modulo 2^24, and the second run steps
from that tag into the creator string, takes bytes 9 for the header of a video
tag and copies them: the bytes of `z` after its script-data tag are not the
bytes of `y` after its script-data tag. -/
theorem rerun_copies_metadata_bytes :
    rerunInput.take 3 = [70, 76, 86]
    ∧ ∃ y z, main ieeeHost rerunInput (some rerunCreator) = some y
      ∧ main ieeeHost y (some rerunCreator) = some z
      ∧ z.drop (13 + (realTag ieeeHost y (some rerunCreator)).length)
          ≠ y.drop (13 + (realTag ieeeHost rerunInput (some rerunCreator)).length) := by
  have hx : rerunInput.take 3 = [70, 76, 86] := rfl
  refine ⟨hx, mainOutput ieeeHost rerunInput (some rerunCreator),
    mainOutput ieeeHost (mainOutput ieeeHost rerunInput (some rerunCreator)) (some rerunCreator),
    ?_, ?_, ?_⟩
  · simp [main, hx]
  · simp [main, mainOutput_take]
  · rw [mainOutput_drop, mainOutput_drop]
    intro h
    have h9 := rerun_wrapped ieeeHost
    have hk : copied rerunInput (mainWalk rerunInput) = keyTags (932039 + 1) :=
      (keyTags_seen 932040).2
    rw [h, hk, keyTags, rd_append_left _ _ _ (by decide)] at h9
    revert h9
    decide

/-! ## The claims on the codec probes and the fields of pass 1 -/

/-- C13, the code at a screen-video header: `readFLVScreenVideoPacket` sets
width to `(sv[0] << 4) + sv[1]` and height to `(sv[2] << 4) + sv[3]`, the whole
first byte shifted by four bits.  For the file `screenVideoInput`, whose only
tag is a video tag of codec 3 with the payload 11 40 10 F0 after its flags
byte, pass 1 reports 336 by 496, where the 12-bit fields
`((byte0 & 0x0f) << 8) | byte1` and `((byte2 & 0x0f) << 8) | byte3` are 320 and
240. -/
theorem readFLVScreenVideoPacket_shifts_by_four :
    (∀ (sv : Nat → Nat) (md : FLVMetaData),
      (readFLVScreenVideoPacket sv md).width = Dbl.ofNat (sv 0 * 16 + sv 1)
      ∧ (readFLVScreenVideoPacket sv md).height = Dbl.ofNat (sv 2 * 16 + sv 3))
    ∧ (specWalk screenVideoInput (mainStreampos screenVideoInput) screenVideoInput.length = [13]
      ∧ tagType screenVideoInput 13 = 9 ∧ tagFlags screenVideoInput 13 &&& 0xf = 3
      ∧ (List.range 4).map (fun k => rd screenVideoInput (13 + 11 + 1 + k)) = [0x11, 0x40, 0x10, 0xf0])
    ∧ ((firstSummary screenVideoInput none).width = Dbl.ofNat 336
      ∧ (firstSummary screenVideoInput none).height = Dbl.ofNat 496)
    ∧ (specScreenSize 0x11 0x40 = 320 ∧ specScreenSize 0x10 0xf0 = 240) := by
  refine ⟨?_, by decide, by decide, by decide⟩
  intro sv md
  simp [readFLVScreenVideoPacket, Nat.shiftLeft_eq]

/-- C14: for bytes below 256, `readFLVH263VideoPacket` leaves the summary as it
is unless the 17 most significant bits of the first three bytes are 1, and
otherwise sets width and height as `picture_size = ((byte3 & 0x03) << 1) |
(byte4 >> 7)` selects: 0 the two 8-bit fields, 1 the two 16-bit fields, 2 to 6
the fixed sizes 352x288, 176x144, 128x96, 320x240, 160x120, and 7 nothing
(`specH263Size` is this table). -/
theorem readFLVH263VideoPacket_decodes (h263 : Nat → Nat) (md : FLVMetaData)
    (hb : ∀ k, h263 k < 256) :
    readFLVH263VideoPacket h263 md =
      (match specH263Size h263 with
       | none => md
       | some (w, h) => { md with width := Dbl.ofNat w, height := Dbl.ofNat h }) := by
  unfold readFLVH263VideoPacket specH263Size
  simp only [startcode_eq, picturesize_eq _ _ (hb 4), custom8 _ _ (hb 5), custom8 _ _ (hb 6),
    custom16 _ _ _ (hb 5) (hb 6), custom16 _ _ _ (hb 7) (hb 8)]
  by_cases hs : beNat [h263 0, h263 1, h263 2] / 2 ^ 7 = 1
  · simp only [hs, bne_self_eq_false, Bool.false_eq_true, if_false, if_true]
    generalize (h263 3 &&& 0x03) <<< 1 ||| h263 4 >>> 7 = p
    rcases p with _ | _ | _ | _ | _ | _ | _ | p <;> rfl
  · have : (beNat [h263 0, h263 1, h263 2] / 2 ^ 7 != 1) = true := by simpa using hs
    simp only [this, if_true, hs, if_false]

/-- C14 at the header of a picture of 640 by 480 with a custom 16-bit size. -/
theorem readFLVH263VideoPacket_decodes_sample :
    (∀ k, rd h263Header k < 256)
    ∧ readFLVH263VideoPacket (rd h263Header) (initFLVMetaData none) =
      (match specH263Size (rd h263Header) with
       | none => initFLVMetaData none
       | some (w, h) => { initFLVMetaData none with width := Dbl.ofNat w, height := Dbl.ofNat h })
    ∧ specH263Size (rd h263Header) = some (640, 480) :=
  ⟨rd_lt h263Header (by decide),
   readFLVH263VideoPacket_decodes (rd h263Header) (initFLVMetaData none)
     (rd_lt h263Header (by decide)),
   by decide⟩

/-- C15: in the block of the first video tag, codec id 4 gives width
`byte4 * 16 - (byte0 >> 4)` and height `byte3 * 16 - (byte0 & 0x0f)`, codec id
5 gives width `byte7 * 16 - (byte0 >> 4)` and height
`byte6 * 16 - (byte0 & 0x0f)`, as signed integers, and a codec id outside 2 to
6 leaves width and height as they are (zero in a fresh summary); the first two
are what `readFLVVP62VideoPacket` and `readFLVVP62AlphaVideoPacket` assign. -/
theorem vp6_sizes (flags : Nat) (payload : Nat → Nat) (md : FLVMetaData) :
    (flags &&& 0xf = 4 →
      (firstVideo flags payload md).width
          = Dbl.ofInt ((payload 4 : Int) * 16 - ((payload 0 >>> 4 : Nat) : Int))
      ∧ (firstVideo flags payload md).height
          = Dbl.ofInt ((payload 3 : Int) * 16 - ((payload 0 &&& 0x0f : Nat) : Int)))
    ∧ (flags &&& 0xf = 5 →
      (firstVideo flags payload md).width
          = Dbl.ofInt ((payload 7 : Int) * 16 - ((payload 0 >>> 4 : Nat) : Int))
      ∧ (firstVideo flags payload md).height
          = Dbl.ofInt ((payload 6 : Int) * 16 - ((payload 0 &&& 0x0f : Nat) : Int)))
    ∧ (flags &&& 0xf ∉ [2, 3, 4, 5, 6] →
      (firstVideo flags payload md).width = md.width
      ∧ (firstVideo flags payload md).height = md.height)
    ∧ ((readFLVVP62VideoPacket payload md).width
          = Dbl.ofInt ((payload 4 : Int) * 16 - ((payload 0 >>> 4 : Nat) : Int))
      ∧ (readFLVVP62VideoPacket payload md).height
          = Dbl.ofInt ((payload 3 : Int) * 16 - ((payload 0 &&& 0x0f : Nat) : Int))
      ∧ (readFLVVP62AlphaVideoPacket payload md).width
          = Dbl.ofInt ((payload 7 : Int) * 16 - ((payload 0 >>> 4 : Nat) : Int))
      ∧ (readFLVVP62AlphaVideoPacket payload md).height
          = Dbl.ofInt ((payload 6 : Int) * 16 - ((payload 0 &&& 0x0f : Nat) : Int))) := by
  refine ⟨?_, ?_, ?_, ?_⟩
  · intro h
    simp [firstVideo, h, readFLVVP62VideoPacket]
  · intro h
    simp [firstVideo, h, readFLVVP62AlphaVideoPacket]
  · intro h
    simp only [List.mem_cons, List.mem_singleton, List.not_mem_nil, or_false, not_or] at h
    obtain ⟨h2, h3, h4, h5, h6⟩ := h
    unfold firstVideo
    simp only
    exact ⟨trivial, trivial⟩
  · simp [readFLVVP62VideoPacket, readFLVVP62AlphaVideoPacket]

/-- C15 at the flags bytes 0x14, 0x15 and 0x17 (codec ids 4, 5 and 7) with the
payload `vp6Header`, and at a payload that gives negative sizes. -/
theorem vp6_sizes_sample :
    ((firstVideo 0x14 (rd vp6Header) (initFLVMetaData none)).width = Dbl.ofInt 317
      ∧ (firstVideo 0x14 (rd vp6Header) (initFLVMetaData none)).height = Dbl.ofInt 235)
    ∧ ((firstVideo 0x15 (rd vp6Header) (initFLVMetaData none)).width = Dbl.ofInt 637
      ∧ (firstVideo 0x15 (rd vp6Header) (initFLVMetaData none)).height = Dbl.ofInt 475)
    ∧ ((firstVideo 0x14 (rd [0x35]) (initFLVMetaData none)).width = Dbl.ofInt (-3)
      ∧ (firstVideo 0x14 (rd [0x35]) (initFLVMetaData none)).height = Dbl.ofInt (-5))
    ∧ ((firstVideo 0x17 (rd vp6Header) (initFLVMetaData none)).width = Dbl.ofNat 0
      ∧ (firstVideo 0x17 (rd vp6Header) (initFLVMetaData none)).height = Dbl.ofNat 0) :=
  ⟨(vp6_sizes 0x14 (rd vp6Header) (initFLVMetaData none)).1 (by decide),
   (vp6_sizes 0x15 (rd vp6Header) (initFLVMetaData none)).2.1 (by decide),
   (vp6_sizes 0x14 (rd [0x35]) (initFLVMetaData none)).1 (by decide),
   (vp6_sizes 0x17 (rd vp6Header) (initFLVMetaData none)).2.2.1 (by decide)⟩

/-- C16: when the walk visits an audio tag, and `off` is the first one, the
audio fields of the summary after `readFLVFirstPass` are those that the first
payload byte `f` of that tag declares: codec id `(f >> 4) & 0xf`, sample rate
5500, 11000, 22000 or 44100 for `(f >> 2) & 3` = 0..3, sample size 8 or 16 for
`(f >> 1) & 1`, stereo `f & 1`, and `hasAudio = 1`; no other tag has a part in
them. -/
theorem audio_fields_from_first_audio_tag (flv : List Nat) (streampos filesize : Nat)
    (creator : Option (List Nat)) (off : Nat)
    (h : (specWalk flv streampos filesize).find? (fun off => tagType flv off == 8) = some off) :
    audioFields (readFLVFirstPass flv streampos filesize (initFLVMetaData creator))
      = specAudioFields (rd flv (off + 11)) := by
  rw [readFLVFirstPass_eq_foldl]
  obtain ⟨_, _, _, _, e1, e2, e3, e4, e5⟩ := firstPassFinish_seen
    ((specWalk flv streampos filesize).foldl
      (fun st off => firstPassTag flv off (footprintSize flv off) st)
      { md := initFLVMetaData creator, videosize := 0, audiosize := 0, videotags := 0,
        audiotags := 0 })
  have hf := firstPass_foldl_audio flv (specWalk flv streampos filesize)
    { md := initFLVMetaData creator, videosize := 0, audiosize := 0, videotags := 0,
      audiotags := 0 } rfl
  simp only [h] at hf
  rw [← show tagFlags flv off = rd flv (off + 11) from rfl, ← hf]
  simp only [audioFields, e1, e2, e3, e4, e5]

/-- C16 on `sampleInput`, whose first audio tag is at offset 29 with the flags
byte 0x2a: codec 2, 22000 Hz, 16 bits, mono. -/
theorem audio_fields_from_first_audio_tag_sample :
    (specWalk sampleInput 13 sampleInput.length).find? (fun off => tagType sampleInput off == 8)
      = some 29
    ∧ rd sampleInput (29 + 11) = 0x2a
    ∧ audioFields (readFLVFirstPass sampleInput 13 sampleInput.length (initFLVMetaData none))
      = specAudioFields (rd sampleInput (29 + 11))
    ∧ specAudioFields 0x2a = (Dbl.ofNat 2, Dbl.ofNat 22000, Dbl.ofNat 16, 0, 1) :=
  ⟨by decide, by decide,
   audio_fields_from_first_audio_tag sampleInput 13 sampleInput.length none 29 (by decide),
   by decide⟩

/-- C17: for a buffer of bytes, after `readFLVFirstPass` `duration` equals
`lasttimestamp`, which is `t / 1000` for the timestamp `t` of the last walked
tag of whatever type, the signed 32-bit integer with the bytes timestamp_ex,
timestamp[0], timestamp[1], timestamp[2] from most to least significant, and 0
when no tag is walked; a timestamp with timestamp_ex of 0x80 or more is
negative. -/
theorem duration_is_last_timestamp (flv : List Nat) (streampos filesize : Nat)
    (creator : Option (List Nat)) (hb : ∀ b ∈ flv, b < 256) :
    (readFLVFirstPass flv streampos filesize (initFLVMetaData creator)).duration
      = (readFLVFirstPass flv streampos filesize (initFLVMetaData creator)).lasttimestamp
    ∧ (readFLVFirstPass flv streampos filesize (initFLVMetaData creator)).lasttimestamp
      = (match (specWalk flv streampos filesize).getLast? with
         | none => Dbl.ofNat 0
         | some off => Dbl.div (Dbl.ofInt (specTimestamp flv off)) (Dbl.ofNat 1000))
    ∧ (∀ off, 0x80 ≤ rd flv (off + 7) → specTimestamp flv off < 0) := by
  rw [readFLVFirstPass_eq_foldl]
  obtain ⟨_, e2, e3, _⟩ := firstPassFinish_seen
    ((specWalk flv streampos filesize).foldl
      (fun st off => firstPassTag flv off (footprintSize flv off) st)
      { md := initFLVMetaData creator, videosize := 0, audiosize := 0, videotags := 0,
        audiotags := 0 })
  refine ⟨by rw [e2, e3], ?_, fun off h => specTimestamp_neg flv hb off h⟩
  rw [e2, firstPass_foldl_lasttimestamp]
  cases (specWalk flv streampos filesize).getLast? with
  | none => rfl
  | some off =>
    simp only [tagSeconds]
    rw [tagTimestamp_eq_spec flv hb]

/-- C17 on `negativeTimeInput`, whose tag has the timestamp -2147483648, and
the duration 66 / 1000 of `sampleInput`. -/
theorem duration_is_last_timestamp_sample :
    (∀ b ∈ negativeTimeInput, b < 256)
    ∧ ((readFLVFirstPass negativeTimeInput 13 negativeTimeInput.length
          (initFLVMetaData none)).duration
      = (readFLVFirstPass negativeTimeInput 13 negativeTimeInput.length
          (initFLVMetaData none)).lasttimestamp
    ∧ (readFLVFirstPass negativeTimeInput 13 negativeTimeInput.length
          (initFLVMetaData none)).lasttimestamp
      = (match (specWalk negativeTimeInput 13 negativeTimeInput.length).getLast? with
         | none => Dbl.ofNat 0
         | some off => Dbl.div (Dbl.ofInt (specTimestamp negativeTimeInput off)) (Dbl.ofNat 1000))
    ∧ (∀ off, 0x80 ≤ rd negativeTimeInput (off + 7) → specTimestamp negativeTimeInput off < 0))
    ∧ (specWalk negativeTimeInput 13 negativeTimeInput.length).getLast? = some 13
    ∧ specTimestamp negativeTimeInput 13 = -2147483648
    ∧ (readFLVFirstPass sampleInput 13 sampleInput.length (initFLVMetaData none)).duration
      = Dbl.fin 33 500 :=
  ⟨by decide,
   duration_is_last_timestamp negativeTimeInput 13 negativeTimeInput.length none (by decide),
   by decide, by decide, by decide⟩

/-- C18: after `readFLVFirstPass` `canSeekToEnd` is 1 when the walk visited a
video tag and the last video tag visited passes the keyframe test of pass 1,
and 0 otherwise, whatever tags of other types follow that video tag. -/
theorem canSeekToEnd_is_last_video_keyframe (flv : List Nat) (streampos filesize : Nat)
    (creator : Option (List Nat)) :
    (readFLVFirstPass flv streampos filesize (initFLVMetaData creator)).canSeekToEnd
      = (match ((specWalk flv streampos filesize).filter
                  (fun off => tagType flv off == 9)).getLast? with
         | none => 0
         | some off => if keyframeTest (tagFlags flv off) then 1 else 0)
    ∧ ((readFLVFirstPass flv streampos filesize (initFLVMetaData creator)).canSeekToEnd = 1
        ↔ ∃ off, ((specWalk flv streampos filesize).filter
                    (fun off => tagType flv off == 9)).getLast? = some off
            ∧ keyframeTest (tagFlags flv off) = true)
    ∧ ((readFLVFirstPass flv streampos filesize (initFLVMetaData creator)).canSeekToEnd = 1
        ∨ (readFLVFirstPass flv streampos filesize (initFLVMetaData creator)).canSeekToEnd = 0) := by
  have key : (readFLVFirstPass flv streampos filesize (initFLVMetaData creator)).canSeekToEnd
      = (match ((specWalk flv streampos filesize).filter
                  (fun off => tagType flv off == 9)).getLast? with
         | none => 0
         | some off => if keyframeTest (tagFlags flv off) then 1 else 0) := by
    rw [readFLVFirstPass_eq_foldl]
    obtain ⟨e1, _⟩ := firstPassFinish_seen
      ((specWalk flv streampos filesize).foldl
        (fun st off => firstPassTag flv off (footprintSize flv off) st)
        { md := initFLVMetaData creator, videosize := 0, audiosize := 0, videotags := 0,
          audiotags := 0 })
    rw [e1, firstPass_foldl_canSeekToEnd]
    rfl
  refine ⟨key, ?_, ?_⟩
  · rw [key]
    cases ((specWalk flv streampos filesize).filter (fun off => tagType flv off == 9)).getLast? with
    | none => simp
    | some off =>
      by_cases hk : keyframeTest (tagFlags flv off) = true
      · simp [hk]
      · simp [hk]
  · rw [key]
    cases ((specWalk flv streampos filesize).filter (fun off => tagType flv off == 9)).getLast? with
    | none => simp
    | some off =>
      by_cases hk : keyframeTest (tagFlags flv off) = true
      · simp [hk]
      · simp [hk]

/-- C19: on a little-endian host whose doubles have the 64-bit patterns `bits`,
`writeFLVDouble` returns 8 and writes 8 bytes, the big-endian bytes of the
pattern of the value, and these bytes read back as a big-endian integer are the
pattern. -/
theorem writeFLVDouble_big_endian (bits : Dbl → Nat) (v : Dbl) :
    (writeFLVDouble (littleEndianHost bits) v).ret = 8
    ∧ (writeFLVDouble (littleEndianHost bits) v).out.length = 8
    ∧ (writeFLVDouble (littleEndianHost bits) v).out = beBytes 8 (bits v % 2 ^ 64)
    ∧ beNat (writeFLVDouble (littleEndianHost bits) v).out = bits v % 2 ^ 64 := by
  have h : (writeFLVDouble (littleEndianHost bits) v).out = beBytes 8 (bits v % 2 ^ 64) := by
    simp only [writeFLVDouble, fwrite, littleEndianHost, beBytes, List.take_succ_cons,
      List.take_zero]
    generalize bits v = n
    simp only [List.cons.injEq, and_true]
    omega
  refine ⟨rfl, rfl, h, ?_⟩
  rw [h, beNat_beBytes_eight]
  omega

/-- C19 for the double 66 / 1000 on a host with IEEE-754 doubles: the pattern
is 3FB0E5604189374C and the bytes are written in this order. -/
theorem writeFLVDouble_big_endian_sample :
    binary64 (Dbl.fin 33 500) = 0x3fb0e5604189374c
    ∧ (writeFLVDouble ieeeHost (Dbl.fin 33 500)).out
        = [0x3f, 0xb0, 0xe5, 0x60, 0x41, 0x89, 0x37, 0x4c]
    ∧ ((writeFLVDouble (littleEndianHost binary64) (Dbl.fin 33 500)).ret = 8
      ∧ (writeFLVDouble (littleEndianHost binary64) (Dbl.fin 33 500)).out.length = 8
      ∧ (writeFLVDouble (littleEndianHost binary64) (Dbl.fin 33 500)).out
          = beBytes 8 (binary64 (Dbl.fin 33 500) % 2 ^ 64)
      ∧ beNat (writeFLVDouble (littleEndianHost binary64) (Dbl.fin 33 500)).out
          = binary64 (Dbl.fin 33 500) % 2 ^ 64) :=
  ⟨by decide, by decide, writeFLVDouble_big_endian binary64 (Dbl.fin 33 500)⟩

/-- C20, as the code has it: after `readFLVFirstPass` `framerate` is 0 when no
video tag was walked and otherwise the quotient of the number of walked video
tags by `duration`, whatever `duration` is. -/
theorem framerate_is_tags_over_duration (flv : List Nat) (streampos filesize : Nat)
    (creator : Option (List Nat)) :
    (readFLVFirstPass flv streampos filesize (initFLVMetaData creator)).framerate
      = (if ((specWalk flv streampos filesize).filter (fun off => tagType flv off == 9)).length = 0
         then Dbl.ofNat 0
         else Dbl.div
           (Dbl.ofNat
             ((specWalk flv streampos filesize).filter (fun off => tagType flv off == 9)).length)
           (readFLVFirstPass flv streampos filesize (initFLVMetaData creator)).duration) := by
  rw [readFLVFirstPass_eq_foldl]
  obtain ⟨_, _, e3, e4, _⟩ := firstPassFinish_seen
    ((specWalk flv streampos filesize).foldl
      (fun st off => firstPassTag flv off (footprintSize flv off) st)
      { md := initFLVMetaData creator, videosize := 0, audiosize := 0, videotags := 0,
        audiotags := 0 })
  rw [e4, e3, firstPass_foldl_videotags]
  simp only [Nat.zero_add]
  split
  · have hs := firstPass_foldl_framerate flv (specWalk flv streampos filesize)
      { md := initFLVMetaData creator, videosize := 0, audiosize := 0, videotags := 0,
        audiotags := 0 }
    rw [hs]
    rfl
  · rfl

/-- C20 fails for a duration that is not positive: for two video tags at
timestamp 0 the duration is 0 and `framerate` is 2 / 0 = +infinity, and for a
video tag at timestamp -2147483648 the duration is negative and `framerate` is
1 / duration, also negative; `specFramerate` is 0 in both cases. -/
theorem framerate_not_guarded_by_duration :
    (((specWalk zeroDurationInput 13 zeroDurationInput.length).filter
          (fun off => tagType zeroDurationInput off == 9)).length = 2
      ∧ (readFLVFirstPass zeroDurationInput 13 zeroDurationInput.length
          (initFLVMetaData none)).duration = Dbl.ofNat 0
      ∧ (readFLVFirstPass zeroDurationInput 13 zeroDurationInput.length
          (initFLVMetaData none)).framerate = Dbl.inf false
      ∧ specFramerate 2 (Dbl.ofNat 0) = Dbl.ofNat 0)
    ∧ (((specWalk negativeTimeInput 13 negativeTimeInput.length).filter
          (fun off => tagType negativeTimeInput off == 9)).length = 1
      ∧ (readFLVFirstPass negativeTimeInput 13 negativeTimeInput.length
          (initFLVMetaData none)).duration = Dbl.fin (-268435456) 125
      ∧ (readFLVFirstPass negativeTimeInput 13 negativeTimeInput.length
          (initFLVMetaData none)).framerate = Dbl.fin (-125) 268435456
      ∧ specFramerate 1 (Dbl.fin (-268435456) 125) = Dbl.ofNat 0) := by
  decide


/-! ## The claims on long strings, reads, sizes, the index and termination -/

/-- C21, the code at a string of 65536 bytes: `writeFLVScriptDataValueString`
writes the name, the type tag 2, and then what `writeFLVScriptDataString` writes
for the value, which for a value longer than 65535 bytes is the 4-byte length
and the bytes of `writeFLVScriptDataLongString`: the type tag stays 2, where
a LongString has the type tag 12.  A value of 5 bytes is written as the
specification has it, and the function returns the number of bytes it wrote. -/
theorem long_string_keeps_type_tag_two :
    ((writeFLVScriptDataValueString (some (cstr "creator")) longValue).out
        = specName (cstr "creator") ++ [2] ++ beBytes 4 65536 ++ longValue
      ∧ specEntry ieeeHost (cstr "creator", ScriptValue.string longValue)
        = specName (cstr "creator") ++ [12] ++ beBytes 4 65536 ++ longValue
      ∧ beBytes 4 65536 = [0, 1, 0, 0])
    ∧ (writeFLVScriptDataValueString (some (cstr "creator")) (cstr "yamdi")).out
        = specEntry ieeeHost (cstr "creator", ScriptValue.string (cstr "yamdi"))
    ∧ (writeFLVScriptDataValueString (some (cstr "creator")) longValue).ret
        = (writeFLVScriptDataValueString (some (cstr "creator")) longValue).out.length := by
  refine ⟨⟨?_, ?_, by decide⟩, by decide, writeFLVScriptDataValueString_exact _ _⟩
  · have := writeFLVScriptDataValueString_out_long (cstr "creator") longValue (by decide)
      (by rw [longValue_length]; decide) (by rw [longValue_length]; decide)
    rw [longValue_length] at this
    exact this
  · have hl : longValue.length > 65535 := by rw [longValue_length]; decide
    simp only [specEntry, specValue, hl, if_true, longValue_length, List.append_assoc]
    rw [if_pos (by decide)]

/-- C23: after pass 1 on a fresh summary, `audiosize` is the sum of `11 + D`
over the walked audio tags and `videosize` the sum over the walked video tags,
`datasize` is `audiosize + videosize` plus 4 for every walked audio tag and
every walked video tag, and `hasKeyframes` is 1 only together with
`keyframes >= 1` (it is 0 when no keyframe was counted). -/
theorem datasize_is_audiosize_plus_videosize (flv : List Nat) (streampos filesize : Nat)
    (creator : Option (List Nat)) :
    (readFLVFirstPass flv streampos filesize (initFLVMetaData creator)).audiosize
        = Dbl.ofNat (specStreamSize flv FLV_AUDIODATA (specWalk flv streampos filesize))
    ∧ (readFLVFirstPass flv streampos filesize (initFLVMetaData creator)).videosize
        = Dbl.ofNat (specStreamSize flv FLV_VIDEODATA (specWalk flv streampos filesize))
    ∧ (readFLVFirstPass flv streampos filesize (initFLVMetaData creator)).datasize
        = Dbl.ofNat (specStreamSize flv FLV_AUDIODATA (specWalk flv streampos filesize)
            + specStreamSize flv FLV_VIDEODATA (specWalk flv streampos filesize)
            + 4 * (specTagCount flv FLV_AUDIODATA (specWalk flv streampos filesize)
                + specTagCount flv FLV_VIDEODATA (specWalk flv streampos filesize)))
    ∧ (readFLVFirstPass flv streampos filesize (initFLVMetaData creator)).datasize
        = Dbl.add
            (Dbl.add
              (readFLVFirstPass flv streampos filesize (initFLVMetaData creator)).audiosize
              (readFLVFirstPass flv streampos filesize (initFLVMetaData creator)).videosize)
            (Dbl.ofNat
              (4 * (specTagCount flv FLV_AUDIODATA (specWalk flv streampos filesize)
                + specTagCount flv FLV_VIDEODATA (specWalk flv streampos filesize))))
    ∧ ((readFLVFirstPass flv streampos filesize (initFLVMetaData creator)).hasKeyframes = 0
          ∧ (readFLVFirstPass flv streampos filesize (initFLVMetaData creator)).keyframes = 0
        ∨ (readFLVFirstPass flv streampos filesize (initFLVMetaData creator)).hasKeyframes = 1
          ∧ 1 ≤ (readFLVFirstPass flv streampos filesize (initFLVMetaData creator)).keyframes) := by
  have hs := readFLVFirstPass_streamSizes flv streampos filesize creator
  have ha := congrArg Prod.fst hs
  have hv := congrArg Prod.snd hs
  simp only [streamSizes] at ha hv
  obtain ⟨_, _, _, _, hd, hk, hh, _⟩ := readFLVFirstPass_init flv streampos filesize creator
  simp only [FLV_AUDIODATA, FLV_VIDEODATA]
  refine ⟨ha, hv, ?_, ?_, ?_⟩
  · rw [hd, avBytes_eq_streams]
  · rw [hd, ha, hv, Dbl.add_ofNat, Dbl.add_ofNat, avBytes_eq_streams]
  · rw [hh, hk]
    by_cases h0 : ((specWalk flv streampos filesize).filter (isRecorded flv)).length = 0
    · left; simp [h0]
    · right; simp only [h0, if_false, true_and]; omega

/-- C25: with one unit of fuel for every 15 bytes between the start offset
and `filesize`, each of the three loops is the fold of its body over the walked
tags, so more iterations are never made and the three loops visit the same
offsets; there are at most `(filesize - s) / 15` walked tags, the first is at
`s`, each of the others starts `11 + D + 4 >= 15` bytes after the one before
it, and the footprint of each ends at or before `filesize`.  When the bytes are
below 256 and neither `s + 15 + 2^24` nor `filesize + 15 + 2^24` overflows a
`size_t` of `w` bits, the loop control with the arithmetic of `size_t` visits
these offsets. -/
theorem tag_loops_terminate (w : Nat) (flv : List Nat) (s filesize fuel : Nat)
    (hfuel : (filesize - s) / 15 ≤ fuel) :
    (∀ st : FirstPassState, readFLVFirstPassLoop fuel flv s filesize st
        = (specWalk flv s filesize).foldl
            (fun st off => firstPassTag flv off (11 + tagDataSize flv off + 4) st) st)
    ∧ (∀ st : SecondPassState, readFLVSecondPassLoop fuel flv s filesize st
        = (specWalk flv s filesize).foldl
            (fun st off => secondPassTag flv off (11 + tagDataSize flv off + 4) st) st)
    ∧ writeFLVLoop fuel flv s filesize
        = ((specWalk flv s filesize).filter (isAudioVideo flv)).flatMap (footprint flv)
    ∧ (specWalk flv s filesize).length ≤ (filesize - s) / 15
    ∧ (∀ y ∈ (specWalk flv s filesize).head?, y = s)
    ∧ List.Chain' (fun a b => b = a + (11 + tagDataSize flv a + 4)) (specWalk flv s filesize)
    ∧ (∀ off ∈ specWalk flv s filesize,
        15 ≤ 11 + tagDataSize flv off + 4 ∧ off + (11 + tagDataSize flv off + 4) ≤ filesize)
    ∧ ((∀ b ∈ flv, b < 256) → s + 15 + 2 ^ 24 ≤ 2 ^ w → filesize + 15 + 2 ^ 24 ≤ 2 ^ w →
        tagLoopOffsets w fuel flv s filesize = specWalk flv s filesize) := by
  have hw := specWalkFrom_eq_specWalk flv s filesize fuel hfuel
  refine ⟨?_, ?_, ?_, ?_, ?_, ?_, ?_, ?_⟩
  · intro st
    rw [readFLVFirstPassLoop_eq_walk, hw]
    rfl
  · intro st
    rw [readFLVSecondPassLoop_eq_walk, hw]
    rfl
  · rw [writeFLVLoop_eq_walk, hw]
  · rw [Nat.le_div_iff_mul_le (by decide : 0 < 15), Nat.mul_comm]
    exact specWalkFrom_length flv filesize filesize s
  · exact specWalkFrom_head flv filesize filesize s
  · exact specWalkFrom_chain flv filesize filesize s
  · intro off hoff
    have := specWalkFrom_bound flv filesize filesize s off hoff
    unfold footprintSize at this
    exact ⟨by omega, this⟩
  · intro hb hs hf
    have e : (2 : Nat) ^ 24 = 16777216 := by norm_num
    rw [e] at hs hf
    rw [tagLoopOffsets_eq_walk w flv hb filesize hf fuel s hs, hw]

/-- C25 at the sample file of five tags, with a `size_t` of 64 bits and 5
units of fuel. -/
theorem tag_loops_terminate_sample :
    (sampleInput.length - 13) / 15 ≤ 5
    ∧ writeFLVLoop 5 sampleInput 13 sampleInput.length
        = ((specWalk sampleInput 13 sampleInput.length).filter
            (isAudioVideo sampleInput)).flatMap (footprint sampleInput)
    ∧ (specWalk sampleInput 13 sampleInput.length).length ≤ (sampleInput.length - 13) / 15
    ∧ tagLoopOffsets 64 5 sampleInput 13 sampleInput.length
        = specWalk sampleInput 13 sampleInput.length :=
  ⟨by decide,
   (tag_loops_terminate 64 sampleInput 13 sampleInput.length 5 (by decide)).2.2.1,
   (tag_loops_terminate 64 sampleInput 13 sampleInput.length 5 (by decide)).2.2.2.1,
   (tag_loops_terminate 64 sampleInput 13 sampleInput.length 5 (by decide)).2.2.2.2.2.2.2
     (by decide) (by norm_num) (by norm_num [sampleInput, videoFileHeader, videoTag, audioTag, scriptTag])⟩

/-- C24: after pass 1 on a fresh summary has counted `keyframes` and allocated
the two arrays with `keyframes` slots each, the array writes of
`readFLVSecondPass` on the same buffer and offset are `keyframes` in number and
go to the indices 0, 1, .., `keyframes - 1` in this order, so that every write
is inside the two arrays and every slot is written; the positions written
increase strictly with the index, and they are what `filepositions` holds when
`readFLVSecondPass` returns. -/
theorem second_pass_fills_the_keyframe_arrays (flv : List Nat) (streampos filesize : Nat)
    (creator : Option (List Nat)) :
    (readFLVSecondPassWrites flv streampos filesize
        (readFLVFirstPass flv streampos filesize (initFLVMetaData creator))).length
      = (readFLVFirstPass flv streampos filesize (initFLVMetaData creator)).keyframes
    ∧ (readFLVSecondPassWrites flv streampos filesize
        (readFLVFirstPass flv streampos filesize (initFLVMetaData creator))).map Prod.fst
      = List.range (readFLVFirstPass flv streampos filesize (initFLVMetaData creator)).keyframes
    ∧ (readFLVFirstPass flv streampos filesize (initFLVMetaData creator)).filepositions.length
      = (readFLVFirstPass flv streampos filesize (initFLVMetaData creator)).keyframes
    ∧ (readFLVFirstPass flv streampos filesize (initFLVMetaData creator)).times.length
      = (readFLVFirstPass flv streampos filesize (initFLVMetaData creator)).keyframes
    ∧ (∀ r ∈ readFLVSecondPassWrites flv streampos filesize
          (readFLVFirstPass flv streampos filesize (initFLVMetaData creator)),
        r.1 < (readFLVFirstPass flv streampos filesize
              (initFLVMetaData creator)).filepositions.length
        ∧ r.1 < (readFLVFirstPass flv streampos filesize (initFLVMetaData creator)).times.length)
    ∧ List.Pairwise (fun a b => a < b)
        ((readFLVSecondPassWrites flv streampos filesize
          (readFLVFirstPass flv streampos filesize (initFLVMetaData creator))).map Prod.snd)
    ∧ (readFLVSecondPass flv streampos filesize
        (readFLVFirstPass flv streampos filesize (initFLVMetaData creator))).filepositions
      = (readFLVSecondPassWrites flv streampos filesize
          (readFLVFirstPass flv streampos filesize (initFLVMetaData creator))).map
            (fun r => Dbl.ofNat r.2) := by
  obtain ⟨_, _, _, _, _, hk, _, hfp, htm⟩ := readFLVFirstPass_init flv streampos filesize creator
  obtain ⟨w1, w2⟩ := readFLVSecondPassWrites_eq flv streampos filesize creator
  have hfl : (readFLVFirstPass flv streampos filesize (initFLVMetaData creator)).filepositions.length
      = (readFLVFirstPass flv streampos filesize (initFLVMetaData creator)).keyframes := by
    rw [hfp, hk, List.length_replicate]
  have htl : (readFLVFirstPass flv streampos filesize (initFLVMetaData creator)).times.length
      = (readFLVFirstPass flv streampos filesize (initFLVMetaData creator)).keyframes := by
    rw [htm, hk, List.length_replicate]
  refine ⟨?_, w1, hfl, htl, ?_, ?_, ?_⟩
  · have := congrArg List.length w1
    rwa [List.length_map, List.length_range] at this
  · intro r hr
    have hm : r.1 ∈ List.range
        (readFLVFirstPass flv streampos filesize (initFLVMetaData creator)).keyframes := by
      rw [← w1]
      exact List.mem_map_of_mem _ hr
    rw [hfl, htl]
    exact ⟨List.mem_range.1 hm, List.mem_range.1 hm⟩
  · rw [w2]
    exact specKeyframeIndex_increasing flv _ 0
  · rw [readFLVSecondPass_eq flv streampos filesize _ hk (by rw [hfp, hk]) (by rw [htm, hk])]
    have e : ∀ l : List (Nat × Nat), l.map (fun r => Dbl.ofNat r.2)
        = (l.map Prod.snd).map Dbl.ofNat := by
      intro l; simp [List.map_map, Function.comp_def]
    show (specKeyframeIndex flv (specWalk flv streampos filesize) 0).map (fun r => Dbl.ofNat r.2) = _
    rw [e, e, w2]

/-- C24 at the sample file: the second of its two keyframes is written at
index 1, after the 49 bytes of the three audio and video tags before it, inside
the arrays of 2 slots. -/
theorem second_pass_fills_the_keyframe_arrays_sample :
    (1, 49) ∈ readFLVSecondPassWrites sampleInput 13 sampleInput.length
        (readFLVFirstPass sampleInput 13 sampleInput.length (initFLVMetaData none))
    ∧ (1 : Nat) < (readFLVFirstPass sampleInput 13 sampleInput.length
        (initFLVMetaData none)).filepositions.length :=
  ⟨by decide,
   ((second_pass_fills_the_keyframe_arrays sampleInput 13 sampleInput.length none).2.2.2.2.1
     (1, 49) (by decide)).1⟩

/-- C22, the code at two files whose only tag is a video tag with a payload
of less than 6 bytes that ends with the file: pass 1 starts at offset 13, the
tag passes the two bounds checks, and the function that reads the codec header
of the first video tag reads a byte at the offset `filesize`, behind the end of
the buffer.  For the VP6 tag with `D = 1` in a file of 29 bytes it is
`vp62[4]` at offset 29; for the screen-video tag with `D = 0` in a file of 28
bytes it is `sv[3]` at offset 28.  All other reads of the two runs are inside
the buffer. -/
theorem codec_probe_reads_behind_the_buffer :
    (shortVp6Input.length = 29 ∧ mainStreampos shortVp6Input = 13
      ∧ tagDataSize shortVp6Input 13 = 1
      ∧ specWalk shortVp6Input 13 shortVp6Input.length = [13]
      ∧ (readFLVFirstPassReads shortVp6Input.length shortVp6Input 13 shortVp6Input.length
          { md := initFLVMetaData none, videosize := 0, audiosize := 0, videotags := 0,
            audiotags := 0 }).filter (fun r => decide (shortVp6Input.length ≤ r)) = [29])
    ∧ (emptyVideoTagInput.length = 28 ∧ mainStreampos emptyVideoTagInput = 13
      ∧ tagDataSize emptyVideoTagInput 13 = 0
      ∧ specWalk emptyVideoTagInput 13 emptyVideoTagInput.length = [13]
      ∧ (readFLVFirstPassReads emptyVideoTagInput.length emptyVideoTagInput 13
          emptyVideoTagInput.length
          { md := initFLVMetaData none, videosize := 0, audiosize := 0, videotags := 0,
            audiotags := 0 }).filter (fun r => decide (emptyVideoTagInput.length ≤ r)) = [28]) := by
  refine ⟨⟨by decide, by decide, by decide, by decide, by decide⟩,
    ⟨by decide, by decide, by decide, by decide, by decide⟩⟩

end Yamdi
